import Mathlib

/-!
# SecureGuard moderation engine: anti-spam and link protection

A shallow embedding of `SecurityBot/handlers/antiSpam.js` and
`SecurityBot/handlers/linkProtection.js`.

Conventions of the embedding:

* a JavaScript string is a `List Char`, one element per UTF-16 code unit;
* timestamps (`Date.now()`) are integers, in milliseconds;
* the regular expressions of the handlers are values of `Re`, run by a
  backtracking matcher with the priorities of the JavaScript engine
  (greedy quantifiers, leftmost alternative first);
* `String.prototype.toLowerCase` is a parameter `lower` of the url
  classification (`shouldBlockUrlWith`), so that what is proved of it holds
  for the Unicode mapping; `toLowerCase` is its ASCII part;
* calls to the chat platform are recorded as a list of attempted `Action`s,
  the outcome of each call (success or failure) being read from a `Platform`.
-/

namespace SecureGuard

/-! ## JavaScript strings -/

/-- A JavaScript string: a sequence of UTF-16 code units. -/
abbrev JSString := List Char

/-- White space and line terminators removed by `String.prototype.trim`. -/
def isJSWhitespace (c : Char) : Bool :=
  let n := c.toNat
  (9 ≤ n && n ≤ 13) || n == 32 || n == 160 || n == 5760 || (8192 ≤ n && n ≤ 8202) ||
    n == 8232 || n == 8233 || n == 8239 || n == 8287 || n == 12288 || n == 65279

/-- Source: `String.prototype.trim`. -/
def jsTrim (s : JSString) : JSString :=
  ((s.dropWhile isJSWhitespace).reverse.dropWhile isJSWhitespace).reverse

/-- Source: `s.slice(0, n)`. -/
def jsSlice0 (n : Nat) (s : JSString) : JSString := s.take n

/-- Source: `String.prototype.toLowerCase`, restricted to ASCII: the letters `A`..`Z`
are mapped to `a`..`z` and every other code unit is left as it is. On a string of
ASCII code units this is the JavaScript function; on other strings the JavaScript
function applies the Unicode lower-case mapping, which this definition does not
follow (it leaves U+212A and U+03A3 as they are). Definitions that lower-case a
stored or arbitrary string therefore take the function as a parameter `lower`,
and `toLowerCase` is the instance used on ASCII texts. -/
def toLowerCase (s : JSString) : JSString := s.map Char.toLower

/-- Source: `hay.includes(needle)`: `needle` occurs in `hay` as a contiguous block. -/
def jsIncludes : JSString → JSString → Bool
  | [], needle => needle.isEmpty
  | x :: xs, needle => needle.isPrefixOf (x :: xs) || jsIncludes xs needle

/-! ## Regular expressions -/

/-- The fragment of JavaScript regular expressions used by the handlers. -/
inductive Re where
  /-- the empty pattern -/
  | eps
  /-- one literal character -/
  | chr (c : Char)
  /-- one character of a class -/
  | cls (p : Char → Bool)
  /-- concatenation -/
  | seq (a b : Re)
  /-- alternation, the left branch first -/
  | alt (a b : Re)
  /-- greedy optional group -/
  | opt (a : Re)
  /-- greedy bounded repetition of a class, from lo to hi characters -/
  | rep (p : Char → Bool) (lo hi : Nat)
  /-- greedy unbounded repetition of a class -/
  | star (p : Char → Bool)
  /-- word boundary -/
  | wordB

/-- Word characters of a regular expression without the unicode flag. -/
def isWordChar (c : Char) : Bool := c.isAlphanum || c == '_'

/-- The test of a word boundary between two neighbouring positions. -/
def atWordBoundary (prev next : Option Char) : Bool :=
  (prev.map isWordChar).getD false != (next.map isWordChar).getD false

/-- Greedy `[p]{lo,hi}` followed by the continuation `k`: the longest run is
tried first, then shorter ones. `acc` holds the characters matched so far, last
one first. -/
def repGreedy {α : Type} (p : Char → Bool) :
    Nat → Nat → JSString → JSString → (JSString → JSString → Option α) → Option α
  | lo, 0, acc, s, k => if lo = 0 then k acc s else none
  | lo, _ + 1, acc, [], k => if lo = 0 then k acc [] else none
  | lo, hi + 1, acc, x :: xs, k =>
    if p x then
      match repGreedy p (lo - 1) hi (x :: acc) xs k with
      | some r => some r
      | none => if lo = 0 then k acc (x :: xs) else none
    else if lo = 0 then k acc (x :: xs) else none

/-- Greedy `[p]*` followed by the continuation `k`. -/
def starGreedy {α : Type} (p : Char → Bool) :
    JSString → JSString → (JSString → JSString → Option α) → Option α
  | acc, [], k => k acc []
  | acc, x :: xs, k =>
    if p x then
      match starGreedy p (x :: acc) xs k with
      | some r => some r
      | none => k acc (x :: xs)
    else k acc (x :: xs)

/-- Backtracking matcher. `ci` is the `i` flag, `ctx` the character before the
start of the attempt, `acc` the characters matched so far (last one first),
the next argument the rest of the input, `k` what has to match after. -/
def Re.run {α : Type} (ci : Bool) (ctx : Option Char) :
    Re → JSString → JSString → (JSString → JSString → Option α) → Option α
  | .eps, acc, s, k => k acc s
  | .chr _, _, [], _ => none
  | .chr c, acc, x :: xs, k =>
    if x = c || (ci && x.toLower = c.toLower) then k (x :: acc) xs else none
  | .cls _, _, [], _ => none
  | .cls p, acc, x :: xs, k => if p x then k (x :: acc) xs else none
  | .seq a b, acc, s, k => a.run ci ctx acc s (fun acc1 s1 => b.run ci ctx acc1 s1 k)
  | .alt a b, acc, s, k =>
    match a.run ci ctx acc s k with
    | some r => some r
    | none => b.run ci ctx acc s k
  | .opt a, acc, s, k =>
    match a.run ci ctx acc s k with
    | some r => some r
    | none => k acc s
  | .rep p lo hi, acc, s, k => repGreedy p lo hi acc s k
  | .star p, acc, s, k => starGreedy p acc s k
  | .wordB, acc, s, k =>
    if atWordBoundary (match acc with | [] => ctx | c :: _ => some c) s.head? then k acc s
    else none

/-- The pattern of a literal string. -/
def Re.lit : JSString → Re
  | [] => .eps
  | c :: cs => .seq (.chr c) (Re.lit cs)

/-- Concatenation of a list of patterns. -/
def Re.cat : List Re → Re
  | [] => .eps
  | r :: rs => .seq r (Re.cat rs)

/-- One attempt of a pattern at the current position: the matched text. -/
def Re.matchAt (ci : Bool) (r : Re) (ctx : Option Char) (s : JSString) : Option JSString :=
  r.run ci ctx [] s (fun acc _ => some acc.reverse)

/-- Source: `RegExp.prototype.test` of a pattern without the `g` flag: is there a match
starting anywhere in the input. -/
def Re.test (ci : Bool) (r : Re) : Option Char → JSString → Bool
  | ctx, [] => (r.matchAt ci ctx []).isSome
  | ctx, x :: xs => (r.matchAt ci ctx (x :: xs)).isSome || Re.test ci r (some x) xs

/-- The scan of a global pattern (`match` or `replace` with the `g` flag):
`tryAt ctx rest` is the attempt at one position and gives the length of the
match and what is kept of it. After a match the scan resumes at its end, after
a failure one position further. `skip` counts the positions still inside the
last match. -/
def scanAll {β : Type} (tryAt : Option Char → JSString → Option (Nat × β)) :
    Nat → Option Char → JSString → List β
  | 0, ctx, [] =>
    match tryAt ctx [] with
    | some (_, b) => [b]
    | none => []
  | _ + 1, _, [] => []
  | 0, ctx, x :: xs =>
    match tryAt ctx (x :: xs) with
    | some (n, b) => b :: scanAll tryAt (n - 1) (some x) xs
    | none => scanAll tryAt 0 (some x) xs
  | skip + 1, _, x :: xs => scanAll tryAt skip (some x) xs

/-- The scan of a whole pattern with the `g` flag: the list of matched texts
(`String.prototype.match`). -/
def Re.matchAll (ci : Bool) (r : Re) (s : JSString) : List JSString :=
  scanAll (fun ctx rest => (r.matchAt ci ctx rest).map (fun m => (m.length, m))) 0 none s

/-! ## Data model -/

/-- The permissions of a member, as answered by `member.permissions.has`. -/
structure Permissions where
  /-- the answer of `has('Administrator')` -/
  administrator : Bool
  /-- the answer of `has('ManageMessages')` -/
  manageMessages : Bool

/-- A guild member; a field is `none` when the property is missing. -/
structure Member where
  /-- the ids of `member.roles.cache` -/
  roles : Option (List JSString)
  /-- the `member.permissions` object -/
  permissions : Option Permissions

/-- An incoming message; a field is `none` when the property is missing. -/
structure Message where
  /-- the id of `message.guild` -/
  guildId : Option JSString
  /-- the id of `message.author` -/
  authorId : Option JSString
  /-- the `message.member` object -/
  member : Option Member
  /-- the text `message.content` -/
  content : Option JSString

/-- A call to the chat platform attempted by a handler. -/
inductive Action where
  /-- The call `message.delete()` -/
  | delete
  /-- The call `message.reply(...)` -/
  | reply
  /-- The call `member.send(...)`, with the reason (anti-spam) or the link (link protection) shown -/
  | dm (text : JSString)
  /-- The call `member.timeout(ms, ...)` -/
  | timeout (ms : Nat)
  /-- The call `member.kick(...)` -/
  | kick
  /-- The call `member.ban(...)` -/
  | ban
  /-- The call `logViolation(...)` -/
  | logViolation
  deriving DecidableEq

/-- Which platform calls fail (reject) when attempted. -/
structure Platform where
  /-- The call `message.delete()` rejects -/
  deleteFails : Bool
  /-- The call `message.reply()` rejects -/
  replyFails : Bool
  /-- The call `member.send()` rejects -/
  dmFails : Bool
  /-- The call `member.timeout()` rejects -/
  timeoutFails : Bool
  /-- The call `member.kick()` rejects -/
  kickFails : Bool
  /-- The call `member.ban()` rejects -/
  banFails : Bool

/-- The `config` object of the anti-spam feature as stored; `none` is a missing
(null or undefined) property. -/
structure SpamConfig where
  max_messages : Option Nat
  time_window : Option Nat
  duplicate_threshold : Option Nat
  mentions_per_message : Option Nat
  same_user_tag_threshold : Option Nat
  whitelist_roles : Option (List JSString)
  whitelist_users : Option (List JSString)
  punishment : Option JSString

/-- The `anti_spam` entry of the server settings. -/
structure SpamFeature where
  enabled : Bool
  config : Option SpamConfig

/-- The `config` object of link protection as stored. An entry of
`whitelist_domains` is `none` when it is not a string. -/
structure LinkConfig where
  whitelist_users : Option (List JSString)
  whitelist_roles : Option (List JSString)
  whitelist_domains : Option (List (Option JSString))
  punishment : Option JSString
  block_suspicious : Bool
  allow_media_links : Bool
  log_violations : Bool
  bypass_permissions : Option (List JSString)

/-- The `link_protection` entry of the server settings. -/
structure LinkFeature where
  enabled : Bool
  config : Option LinkConfig

/-- The object returned by `database.getServerSettings`. -/
structure Settings where
  link_protection : Option LinkFeature
  anti_spam : Option SpamFeature

/-- The outcome of `await database.getServerSettings(id)`. -/
inductive Fetched where
  /-- the promise rejects -/
  | rejected
  /-- the promise resolves, to null or to a settings object -/
  | resolved (settings : Option Settings)

/-! ## Anti-spam: activity state -/

/-- One recorded message `{ t, c }`: time of receipt and normalized content. -/
structure MsgEntry where
  t : Int
  c : JSString
  deriving DecidableEq

/-- The `tagHistory` map of a user: for each target id, the times at which the
target was tagged. A key that is absent from the map reads as the empty list
that `ensureTagHistory` would create. -/
abbrev TagHistory := JSString → List Int

/-- The activity record of one user in one guild. -/
structure UserState where
  messages : List MsgEntry
  lastPrune : Int
  tagHistory : TagHistory

/-- The record created by `getGuildUserState` for a new key. -/
def UserState.fresh : UserState := ⟨[], 0, fun _ => []⟩

/-- The `userActivity` map, guild id then user id. A key that is absent from
the map reads as the fresh record that `getGuildUserState` would create. -/
abbrev Activity := JSString → JSString → UserState

/-- The empty `userActivity` map of the constructor. -/
def Activity.empty : Activity := fun _ _ => UserState.fresh

/-- The map after the record of one key has been replaced. -/
def Activity.set (a : Activity) (g u : JSString) (st : UserState) : Activity :=
  fun g1 u1 => if g1 = g ∧ u1 = u then st else a g1 u1

/-- Source: `pruneOld(state, now, maxAgeMs)`. -/
def pruneOld (st : UserState) (now maxAgeMs : Int) : UserState :=
  { st with messages := st.messages.filter (fun m => now - m.t ≤ maxAgeMs), lastPrune := now }

/-- Source: `ensureTagHistory(state, targetId)`: the history of the target. -/
def tagGet (h : TagHistory) (uid : JSString) : List Int := h uid

/-- Source: `state.tagHistory.set(uid, v)`. -/
def tagSet (h : TagHistory) (uid : JSString) (v : List Int) : TagHistory :=
  fun k => if k = uid then v else h k

/-- Source: `pruneTagHistory(state, now, maxAgeMs)`: every history is filtered; an
emptied one is deleted, which reads as empty. -/
def pruneTagHistory (h : TagHistory) (now maxAgeMs : Int) : TagHistory :=
  fun k => (h k).filter (fun t => now - t ≤ maxAgeMs)

/-! ## Anti-spam: rules -/

/-- The effective configuration `cfg` built by `handleMessage`. -/
structure SpamCfg where
  max_messages : Nat
  time_window : Nat
  duplicate_threshold : Nat
  mentions_per_message : Nat
  same_user_tag_threshold : Nat
  whitelist_roles : List JSString
  whitelist_users : List JSString
  punishment : JSString

/-- The defaults applied to the stored configuration. -/
def SpamCfg.ofFeature (f : SpamFeature) : SpamCfg where
  max_messages := (f.config.bind (·.max_messages)).getD 5
  time_window := (f.config.bind (·.time_window)).getD 5
  duplicate_threshold := (f.config.bind (·.duplicate_threshold)).getD 3
  mentions_per_message := (f.config.bind (·.mentions_per_message)).getD 5
  same_user_tag_threshold := (f.config.bind (·.same_user_tag_threshold)).getD 5
  whitelist_roles := (f.config.bind (·.whitelist_roles)).getD []
  whitelist_users := (f.config.bind (·.whitelist_users)).getD []
  punishment :=
    match f.config.bind (·.punishment) with
    | some p => if p.isEmpty then "delete".toList else p
    | none => "delete".toList

/-- Source: `AntiSpamHandler.isUserWhitelisted`. -/
def AntiSpam.isUserWhitelisted (userId : JSString) (member : Option Member) (cfg : SpamCfg) : Bool :=
  if cfg.whitelist_users.contains userId then true
  else
    match member.bind (·.roles) with
    | some userRoles => cfg.whitelist_roles.any (fun rid => userRoles.contains rid)
    | none => false

/-- The normalized content `(message.content || '').trim().slice(0, 2000)`. -/
def normalizeContent (content : Option JSString) : JSString :=
  jsSlice0 2000 (jsTrim (content.getD []))

/-- Source: `windowMs = Math.max(5, cfg.time_window) * 1000`. -/
def windowMs (cfg : SpamCfg) : Int := ((max 5 cfg.time_window : Nat) : Int) * 1000

/-- The record after the current message has been pushed and the list pruned. -/
def recordMessage (cfg : SpamCfg) (st : UserState) (now : Int) (content : JSString) : UserState :=
  pruneOld { st with messages := st.messages ++ [⟨now, content⟩] } now (max (windowMs cfg) 30000)

/-- Source: `rateCount`: the recorded messages within the configured window. -/
def rateCount (cfg : SpamCfg) (st : UserState) (now : Int) : Nat :=
  (st.messages.filter (fun m => now - m.t ≤ windowMs cfg)).length

/-- Source: `dupCount`: the messages of the last 30 seconds with the same content. -/
def dupCount (st : UserState) (now : Int) (content : JSString) : Nat :=
  ((st.messages.filter (fun m => now - m.t ≤ 30000)).filter (fun m => m.c = content)).length

/-- The pattern `<@!?` before the captured id of a user mention. -/
def userMentionOpen : Re := Re.cat [.chr '<', .chr '@', .opt (.chr '!')]

/-- One attempt of `/<@!?(\d{17,20})>/`: length of the match, matched text and
captured id. -/
def userMentionAt (ctx : Option Char) (s : JSString) : Option (Nat × JSString × JSString) :=
  userMentionOpen.run false ctx [] s (fun acc1 s1 =>
    (Re.rep Char.isDigit 17 20).run false ctx [] s1 (fun g s2 =>
      (Re.chr '>').run false ctx (g ++ acc1) s2 (fun acc3 _ =>
        some (acc3.length, acc3.reverse, g.reverse))))

/-- The matches of `/<@!?(\d{17,20})>/g` in the content, each with its
captured id. -/
def userMentionScan (content : JSString) : List (JSString × JSString) :=
  scanAll userMentionAt 0 none content

/-- Source: `userMentionMatches`. -/
def userMentionMatches (content : JSString) : List JSString :=
  (userMentionScan content).map (·.1)

/-- Source: `mentionedUserIds`: the captured id of every occurrence. -/
def mentionedUserIds (content : JSString) : List JSString :=
  (userMentionScan content).map (·.2)

/-- The pattern `/<@&(\d{17,20})>/`. -/
def roleMentionRe : Re :=
  Re.cat [.chr '<', .chr '@', .chr '&', .rep Char.isDigit 17 20, .chr '>']

/-- Source: `roleMentionMatches`. -/
def roleMentionMatches (content : JSString) : List JSString :=
  roleMentionRe.matchAll false content

/-- The pattern `/@everyone|@here/`. -/
def everyoneRe : Re := .alt (Re.lit "@everyone".toList) (Re.lit "@here".toList)

/-- Source: `everyoneMatches`. -/
def everyoneMatches (content : JSString) : List JSString :=
  everyoneRe.matchAll false content

/-- Source: `mentionCount`. -/
def mentionCount (content : JSString) : Nat :=
  (userMentionMatches content).length + (roleMentionMatches content).length +
    (everyoneMatches content).length

/-- Source: `TAG_WINDOW`, five minutes in milliseconds. -/
def TAG_WINDOW : Int := 5 * 60 * 1000

/-- Source: `sameUserThreshold = Math.max(1, parseInt(cfg.same_user_tag_threshold ?? 5, 10))`. -/
def sameUserThreshold (cfg : SpamCfg) : Nat := max 1 cfg.same_user_tag_threshold

/-- The loop of rule 4 over the mentioned ids: each occurrence is pushed on
the history of its target, the history is pruned to the tag window and stored,
and the loop stops at the first target whose pruned history is longer than the
threshold. -/
def tagLoop (now : Int) (threshold : Nat) : List JSString → TagHistory → Option JSString × TagHistory
  | [], h => (none, h)
  | uid :: rest, h =>
    let pruned := (tagGet h uid ++ [now]).filter (fun t => now - t ≤ TAG_WINDOW)
    let h1 := tagSet h uid pruned
    if pruned.length > threshold then (some uid, h1) else tagLoop now threshold rest h1

/-- The verdict of the four rules on one message. -/
inductive Verdict where
  /-- no rule fires -/
  | pass
  /-- rule 1, message flood -/
  | flood
  /-- rule 2, repeated identical messages -/
  | duplicate
  /-- rule 3, too many mentions, with the count -/
  | mentions (count : Nat)
  /-- rule 4, excessive tagging of one target -/
  | sameTarget (uid : JSString)
  deriving DecidableEq

/-- The body of `handleMessage` from the recording on, for the record of the
author: the verdict and the record left behind. -/
def spamRules (cfg : SpamCfg) (now : Int) (st0 : UserState) (content : JSString) :
    Verdict × UserState :=
  let st := recordMessage cfg st0 now content
  if rateCount cfg st now > cfg.max_messages then (.flood, st)
  else if content ≠ [] ∧ dupCount st now content ≥ cfg.duplicate_threshold then (.duplicate, st)
  else if mentionCount content > cfg.mentions_per_message then (.mentions (mentionCount content), st)
  else if sameUserThreshold cfg > 0 ∧ (userMentionMatches content).length > 0 then
    match tagLoop now (sameUserThreshold cfg) (mentionedUserIds content) st.tagHistory with
    | (some uid, h) => (.sameTarget uid, { st with tagHistory := h })
    | (none, h) => (.pass, { st with tagHistory := pruneTagHistory h now TAG_WINDOW })
  else (.pass, st)

/-- The reason text handed to `handleViolation`. -/
def Verdict.reason : Verdict → JSString
  | .pass => []
  | .flood => "Message flood (rate limit exceeded)".toList
  | .duplicate => "Repeated identical messages".toList
  | .mentions n => "Too many mentions (".toList ++ Nat.toDigits 10 n ++ ") in one message".toList
  | .sameTarget uid =>
    "Excessive tagging the same user (<@".toList ++ uid ++ ">) within 5 minutes".toList

/-- The punishment handed to `handleViolation`: the configured one, except for
rule 4, which forces `delete_warn`. -/
def Verdict.punishment (cfg : SpamCfg) : Verdict → JSString
  | .sameTarget _ => "delete_warn".toList
  | _ => cfg.punishment

/-- Source: `AntiSpamHandler.applyPunishment`: the platform calls attempted. Each call
sits in its own `try`, so a failure changes nothing of what follows. -/
def AntiSpam.applyPunishment (_pf : Platform) (member : Option Member)
    (punishment reason : JSString) : List Action :=
  match member with
  | none => []
  | some _ =>
    let shouldDm :=
      ["delete_warn".toList, "timeout_10m".toList, "kick".toList, "ban".toList].contains punishment
    (if shouldDm then [Action.dm reason] else []) ++
      (if punishment = "timeout".toList ∨ punishment = "timeout_10m".toList then
        [Action.timeout (10 * 60 * 1000)]
      else if punishment = "kick".toList then [Action.kick]
      else if punishment = "ban".toList then [Action.ban]
      else [])

/-- Source: `AntiSpamHandler.handleViolation`: delete first, then punish. -/
def AntiSpam.handleViolation (pf : Platform) (message : Message) (punishment reason : JSString) :
    List Action :=
  Action.delete :: AntiSpam.applyPunishment pf message.member punishment reason

/-- What one call of `AntiSpamHandler.handleMessage` does. -/
structure SpamOutcome where
  /-- the returned boolean -/
  allowed : Bool
  /-- the platform calls attempted, in order -/
  actions : List Action
  /-- the activity map after the call -/
  activity : Activity
  /-- the verdict of the rules, `pass` when they were not reached -/
  verdict : Verdict
  /-- the punishment handed to the executor, when a rule fired -/
  punished : Option JSString

/-- Source: `AntiSpamHandler.handleMessage`, with the fetched settings, the clock and
the activity map as inputs. Every early exit and every caught error returns
`true` and leaves the map as it was. -/
def AntiSpam.handleMessage (pf : Platform) (fetched : Fetched) (now : Int) (act : Activity)
    (message : Message) : SpamOutcome :=
  let allow : SpamOutcome := ⟨true, [], act, .pass, none⟩
  match message.guildId with
  | none => allow
  | some gid =>
    match fetched with
    | .rejected => allow
    | .resolved settings =>
      match settings.bind (·.anti_spam) with
      | none => allow
      | some feature =>
        if !feature.enabled then allow
        else
          let cfg := SpamCfg.ofFeature feature
          match message.authorId with
          | none => allow
          | some uid =>
            if AntiSpam.isUserWhitelisted uid message.member cfg then allow
            else
              let r := spamRules cfg now (act gid uid) (normalizeContent message.content)
              let act1 := act.set gid uid r.2
              match r.1 with
              | .pass => ⟨true, [], act1, .pass, none⟩
              | v =>
                ⟨false, AntiSpam.handleViolation pf message (v.punishment cfg) v.reason, act1, v,
                  some (v.punishment cfg)⟩

/-- The activity map after a sequence of messages, each with its time of
receipt, has been handled in order. -/
def AntiSpam.runAll (pf : Platform) (fetched : Fetched) :
    Activity → List (Int × Message) → Activity
  | act, [] => act
  | act, (now, m) :: rest =>
    AntiSpam.runAll pf fetched (AntiSpam.handleMessage pf fetched now act m).activity rest

/-- The record of one user after a sequence of messages of that user, each
given by its time of receipt and its normalized content. -/
def userRun (cfg : SpamCfg) : UserState → List (Int × JSString) → UserState
  | st, [] => st
  | st, (now, c) :: rest => userRun cfg (spamRules cfg now st c).2 rest

/-- The time of receipt and normalized content of an event. -/
def eventEntry (e : Int × Message) : Int × JSString := (e.1, normalizeContent e.2.content)

/-- The fetched settings carry an enabled anti-spam policy whose effective
configuration is `cfg`. -/
def SpamActive (fetched : Fetched) (cfg : SpamCfg) : Prop :=
  ∃ settings feature, fetched = .resolved (some settings) ∧ settings.anti_spam = some feature ∧
    feature.enabled = true ∧ SpamCfg.ofFeature feature = cfg

/-- The message is sent in guild `g` by user `u`, who is not whitelisted. -/
def FromUser (cfg : SpamCfg) (g u : JSString) (m : Message) : Prop :=
  m.guildId = some g ∧ m.authorId = some u ∧ AntiSpam.isUserWhitelisted u m.member cfg = false

/-- Every rule passes on every message of the sequence, handled in order from
the given record. -/
def allPass (cfg : SpamCfg) : UserState → List (Int × JSString) → Bool
  | _, [] => true
  | st, (now, c) :: rest =>
    decide ((spamRules cfg now st c).1 = .pass) && allPass cfg (spamRules cfg now st c).2 rest

/-- Every message of the sequence, handled in order from the given activity
map, is allowed. -/
def AntiSpam.allAllowed (pf : Platform) (fetched : Fetched) :
    Activity → List (Int × Message) → Bool
  | _, [] => true
  | act, (now, m) :: rest =>
    (AntiSpam.handleMessage pf fetched now act m).allowed &&
      AntiSpam.allAllowed pf fetched (AntiSpam.handleMessage pf fetched now act m).activity rest

/-- The number of times the messages of the sequence tag the user `v`, every
occurrence counted. -/
def tagCount (v : JSString) (evs : List (Int × Message)) : Nat :=
  (evs.map (fun x => (mentionedUserIds (normalizeContent x.2.content)).count v)).sum

/-! ## Link protection: classification -/

/-- The class `[-a-zA-Z0-9@:%._\+~#=]` of `urlRegex`. -/
def isUrlHostChar (c : Char) : Bool :=
  c.isAlphanum || "-@:%._+~#=".toList.contains c

/-- The class `[a-zA-Z0-9()]` of `urlRegex`. -/
def isUrlTldChar (c : Char) : Bool :=
  c.isAlphanum || c == '(' || c == ')'

/-- The class `[-a-zA-Z0-9()@:%_\+.~#?&//=]` of `urlRegex`. -/
def isUrlTailChar (c : Char) : Bool :=
  c.isAlphanum || "-()@:%_+.~#?&/=".toList.contains c

/-- The pattern `urlRegex`:
`https?:\/\/(www\.)?[-a-zA-Z0-9@:%._\+~#=]{1,256}\.[a-zA-Z0-9()]{1,6}\b([-a-zA-Z0-9()@:%_\+.~#?&//=]*)`. -/
def urlRegex : Re :=
  Re.cat [Re.lit "http".toList, .opt (.chr 's'), Re.lit "://".toList, .opt (Re.lit "www.".toList),
    .rep isUrlHostChar 1 256, .chr '.', .rep isUrlTldChar 1 6, .wordB, .star isUrlTailChar]

/-- Source: `extractUrls(content)`: the matches of `urlRegex`, a global pattern. -/
def extractUrls (content : JSString) : List JSString :=
  urlRegex.matchAll false content

/-- The part `^https?:\/\/(?:www\.)?` of `domainRegex`, before the capture. -/
def domainOpen : Re :=
  Re.cat [Re.lit "http".toList, .opt (.chr 's'), Re.lit "://".toList, .opt (Re.lit "www.".toList)]

/-- The class `[^\/]` of `domainRegex`. -/
def notSlash (c : Char) : Bool := c != '/'

/-- Source: `url.match(domainRegex)`, with `domainRegex = /^https?:\/\/(?:www\.)?([^\/]+)/`:
the captured host when the pattern matches at the start of the url. -/
def domainMatch (url : JSString) : Option JSString :=
  domainOpen.run false none [] url (fun _ s1 =>
    (Re.seq (.cls notSlash) (.star notSlash)).run false none [] s1 (fun g _ => some g.reverse))

/-- The test `whitelist_domains.some(w => domain.includes(w.toLowerCase()) ||
w.toLowerCase().includes(domain))` of `shouldBlockUrl`, entry by entry, with
`String.prototype.toLowerCase` as the parameter `lower`. An entry that is not a
string has no `toLowerCase`: the call throws, which is the result `none`. -/
def domainWhitelistedWith (lower : JSString → JSString) (domain : JSString) :
    List (Option JSString) → Option Bool
  | [] => some false
  | none :: _ => none
  | some w :: rest =>
    if jsIncludes domain (lower w) || jsIncludes (lower w) domain then some true
    else domainWhitelistedWith lower domain rest

/-- Source: `mediaExtensions`. -/
def mediaExtensions : List JSString :=
  [".jpg".toList, ".jpeg".toList, ".png".toList, ".gif".toList, ".webp".toList, ".mp4".toList,
    ".mp3".toList, ".wav".toList, ".pdf".toList]

/-- Source: `isMediaLink(url)`, with `String.prototype.toLowerCase` as the parameter
`lower`. -/
def isMediaLinkWith (lower : JSString → JSString) (url : JSString) : Bool :=
  mediaExtensions.any (fun ext => jsIncludes (lower url) ext)

/-- Source: `isMediaLink(url)`, with the ASCII lower-casing. -/
def isMediaLink (url : JSString) : Bool := isMediaLinkWith toLowerCase url

/-- The class `.` of a pattern without the `s` flag: no line terminator. -/
def isDotChar (c : Char) : Bool :=
  !(c == '\n' || c == '\r' || c.toNat == 8232 || c.toNat == 8233)

/-- Source: `suspiciousPatterns`, all with the `i` flag:
`/bit\.ly|tinyurl|t\.co|goo\.gl|ow\.ly|short\.link/`,
`/discord\.gg\/[a-zA-Z0-9]+/` and `/free.*nitro|discord.*gift/`. -/
def suspiciousPatterns : List Re :=
  [.alt (Re.lit "bit.ly".toList) (.alt (Re.lit "tinyurl".toList) (.alt (Re.lit "t.co".toList)
      (.alt (Re.lit "goo.gl".toList) (.alt (Re.lit "ow.ly".toList) (Re.lit "short.link".toList))))),
    Re.cat [Re.lit "discord.gg/".toList, .cls Char.isAlphanum, .star Char.isAlphanum],
    .alt (Re.cat [Re.lit "free".toList, .star isDotChar, Re.lit "nitro".toList])
      (Re.cat [Re.lit "discord".toList, .star isDotChar, Re.lit "gift".toList])]

/-- Source: `isSuspiciousUrl(url)`. -/
def isSuspiciousUrl (url : JSString) : Bool :=
  suspiciousPatterns.any (fun pattern => pattern.test true none url)

/-- Source: `LinkProtectionHandler.shouldBlockUrl`: `true` is block, `false` is allow.
`String.prototype.toLowerCase`, which the method calls on the host, on every
whitelist entry and on the url, is the parameter `lower`. An error raised in
the body is caught by the method, which then returns `false`. -/
def LinkProtection.shouldBlockUrlWith (lower : JSString → JSString) (url : JSString)
    (config : LinkConfig) : Bool :=
  match domainMatch url with
  | none => false
  | some host =>
    let domain := lower host
    let listed : Option Bool :=
      match config.whitelist_domains with
      | none => some false
      | some l => domainWhitelistedWith lower domain l
    match listed with
    | none => false
    | some true => false
    | some false =>
      if config.allow_media_links && isMediaLinkWith lower url then false
      else if config.block_suspicious && isSuspiciousUrl url then true
      else true

/-- Source: `LinkProtectionHandler.shouldBlockUrl`, with the ASCII lower-casing: the
result of the method when the host, the url and the string entries of the
whitelist consist of ASCII code units. -/
def LinkProtection.shouldBlockUrl (url : JSString) (config : LinkConfig) : Bool :=
  LinkProtection.shouldBlockUrlWith toLowerCase url config

/-! ## Link protection: handler -/

/-- Source: `LinkProtectionHandler.hasBypassPermissions`. -/
def LinkProtection.hasBypassPermissions (member : Option Member) (config : LinkConfig) : Bool :=
  match member.bind (·.permissions) with
  | none => false
  | some perms =>
    let bypassPerms :=
      config.bypass_permissions.getD ["ADMINISTRATOR".toList, "MANAGE_MESSAGES".toList]
    bypassPerms.any (fun perm =>
      if perm = "ADMINISTRATOR".toList then perms.administrator
      else if perm = "MANAGE_MESSAGES".toList then perms.manageMessages
      else false)

/-- Source: `LinkProtectionHandler.isUserWhitelisted`. -/
def LinkProtection.isUserWhitelisted (userId : JSString) (member : Option Member)
    (config : LinkConfig) : Bool :=
  let byUser :=
    match config.whitelist_users with
    | some l => decide (l.length > 0) && l.contains userId
    | none => false
  if byUser then true
  else
    match config.whitelist_roles, member.bind (·.roles) with
    | some l, some userRoles =>
      decide (l.length > 0) && l.any (fun roleId => userRoles.contains roleId)
    | _, _ => false

/-- Source: `LinkProtectionHandler.applyPunishment`: the platform calls attempted. -/
def LinkProtection.applyPunishment (_pf : Platform) (member : Option Member)
    (punishment blockedUrl : JSString) : List Action :=
  match member with
  | none => []
  | some _ =>
    let shouldDm :=
      ["delete_warn".toList, "timeout".toList, "kick".toList, "ban".toList].contains punishment
    (if shouldDm then [Action.dm blockedUrl] else []) ++
      (if punishment = "timeout".toList then [Action.timeout (5 * 60 * 1000)]
      else if punishment = "kick".toList then [Action.kick]
      else if punishment = "ban".toList then [Action.ban]
      else [])

/-- Source: `LinkProtectionHandler.handleViolation`: the platform calls attempted. When
the deletion fails a reply is sent instead, and when that reply fails too the
outer `catch` ends the pipeline. -/
def LinkProtection.handleViolation (pf : Platform) (message : Message) (blockedUrl : JSString)
    (config : LinkConfig) : List Action :=
  let punishment :=
    match config.punishment with
    | some p => if p.isEmpty then "delete".toList else p
    | none => "delete".toList
  let rest := LinkProtection.applyPunishment pf message.member punishment blockedUrl ++
    (if config.log_violations then [Action.logViolation] else [])
  if pf.deleteFails then
    if pf.replyFails then [Action.delete, Action.reply]
    else Action.delete :: Action.reply :: rest
  else Action.delete :: rest

/-- The urls handed to `shouldBlockUrl` by the loop of `handleMessage`, up to
and including the first one that is blocked. -/
def checkedUrls (config : LinkConfig) : List JSString → List JSString
  | [] => []
  | url :: rest =>
    if LinkProtection.shouldBlockUrl url config then [url] else url :: checkedUrls config rest

/-- What one call of `LinkProtectionHandler.handleMessage` does. -/
structure LinkOutcome where
  /-- the returned boolean -/
  allowed : Bool
  /-- the platform calls attempted, in order -/
  actions : List Action
  /-- the urls handed to `shouldBlockUrl`, in order -/
  checked : List JSString
  /-- the url that was blocked -/
  blocked : Option JSString

/-- Source: `LinkProtectionHandler.handleMessage`, with the fetched settings as an
input. Every early exit and every caught error returns `true`. -/
def LinkProtection.handleMessage (pf : Platform) (fetched : Fetched) (message : Message) :
    LinkOutcome :=
  let allow : LinkOutcome := ⟨true, [], [], none⟩
  match message.authorId, message.guildId with
  | some uid, some _ =>
    match fetched with
    | .rejected => allow
    | .resolved none => allow
    | .resolved (some settings) =>
      match settings.link_protection with
      | none => allow
      | some feature =>
        if !feature.enabled then allow
        else
          match feature.config with
          | none => allow
          | some config =>
            if LinkProtection.hasBypassPermissions message.member config then allow
            else if LinkProtection.isUserWhitelisted uid message.member config then allow
            else
              match message.content with
              | none => allow
              | some content =>
                let urls := extractUrls content
                match urls.find? (fun url => LinkProtection.shouldBlockUrl url config) with
                | none => ⟨true, [], checkedUrls config urls, none⟩
                | some url =>
                  ⟨false, LinkProtection.handleViolation pf message url config,
                    checkedUrls config urls, some url⟩
  | _, _ => allow

/-! ## Notions used in the statements -/

/-- The `config` object of the link-protection policy in the fetched settings. -/
def linkConfigOf : Fetched → Option LinkConfig
  | .resolved (some settings) => settings.link_protection.bind (·.config)
  | _ => none

/-- The `config` object of the anti-spam policy in the fetched settings. -/
def spamConfigOf : Fetched → Option SpamConfig
  | .resolved (some settings) => settings.anti_spam.bind (·.config)
  | _ => none

/-- The user id is in the list of whitelisted users, or the member holds a
role of the list of whitelisted roles. -/
def Listed (uid : JSString) (member : Option Member) (users roles : Option (List JSString)) :
    Prop :=
  uid ∈ users.getD [] ∨ ∃ r ∈ roles.getD [], r ∈ (member.bind (·.roles)).getD []

/-- A link-protection policy, enabled, with the given domain whitelist,
punishment and list of bypass permissions; suspicious links are blocked, media
links are not exempted and violations are not logged. -/
def sampleLinkSettings (domains : List JSString) (punishment : JSString)
    (bypass : Option (List JSString)) : Fetched :=
  .resolved (some ⟨some ⟨true, some ⟨some [], some [], some (domains.map some), some punishment,
    true, false, false, bypass⟩⟩, none⟩)

/-- A message with the given text, sent in guild `g1` by user `u1`, a member
without roles who holds the Administrator permission only. -/
def sampleAdminMessage (text : JSString) : Message :=
  ⟨some "g1".toList, some "u1".toList, some ⟨some [], some ⟨true, false⟩⟩, some text⟩

/-! ## Sample data -/

/-- A lower-casing that follows the Unicode mapping on the Kelvin sign U+212A,
which it maps to `k`, and is the ASCII lower-casing on every other code unit. -/
def sampleLower (s : JSString) : JSString :=
  s.map (fun c => if c = Char.ofNat 8490 then 'k' else c.toLower)

/-- A platform on which every call succeeds. -/
def samplePlatform : Platform := ⟨false, false, false, false, false, false⟩

/-- An enabled anti-spam policy with the given thresholds and punishment and
empty whitelists. -/
def sampleSpamFeature (maxMessages timeWindow dupThreshold mentions sameTag : Nat)
    (punishment : JSString) : SpamFeature :=
  ⟨true, some ⟨some maxMessages, some timeWindow, some dupThreshold, some mentions, some sameTag,
    some [], some [], some punishment⟩⟩

/-- Settings that carry only the given anti-spam policy. -/
def sampleSpamSettings (f : SpamFeature) : Fetched := .resolved (some ⟨none, some f⟩)

/-- A message with the given text, sent in guild `g1` by user `u1`, a member
without roles or permissions. -/
def sampleMessage (text : JSString) : Message :=
  ⟨some "g1".toList, some "u1".toList, some ⟨some [], some ⟨false, false⟩⟩, some text⟩

/-! ## The bodies of the two handlers, with raised errors made explicit -/

/-- The steps of `LinkProtectionHandler.handleMessage` that read a property of the
message, of the settings or of the configuration, and at which an error can
therefore be raised by a malformed object. The url loop is not among them:
`shouldBlockUrl` and `handleViolation` catch their own errors. -/
inductive LinkStep where
  /-- the first log line, which reads `message.author.tag` and `message.guild.name` -/
  | log
  /-- the call `await database.getServerSettings(...)` -/
  | fetch
  /-- the log line that reads `settings.link_protection` -/
  | readSettings
  /-- the call `hasBypassPermissions(message.member, config)` -/
  | bypass
  /-- the call `isUserWhitelisted(message.author.id, message.member, config)` -/
  | whitelist
  /-- the call `extractUrls(message.content)` -/
  | extract

/-- The body of the `try` block of `LinkProtectionHandler.handleMessage`. The value
`.error ()` is a raised error: the ones the inputs of this model cause (a
message without author or guild, a rejected fetch, null settings, a missing
`config` object, a message without content), and, where `fault` holds of a
step, an error raised at that step by a cause outside the model. -/
def LinkProtection.handleMessageTry (fault : LinkStep → Bool) (pf : Platform) (fetched : Fetched)
    (message : Message) : Except Unit LinkOutcome :=
  let allow : LinkOutcome := ⟨true, [], [], none⟩
  if fault .log then .error ()
  else
    match message.authorId, message.guildId with
    | some uid, some _ =>
      if fault .fetch then .error ()
      else
        match fetched with
        | .rejected => .error ()
        | .resolved none => .error ()
        | .resolved (some settings) =>
          if fault .readSettings then .error ()
          else
            match settings.link_protection with
            | none => .ok allow
            | some feature =>
              if !feature.enabled then .ok allow
              else if fault .bypass then .error ()
              else
                match feature.config with
                | none => .error ()
                | some config =>
                  if LinkProtection.hasBypassPermissions message.member config then .ok allow
                  else if fault .whitelist then .error ()
                  else if LinkProtection.isUserWhitelisted uid message.member config then
                    .ok allow
                  else if fault .extract then .error ()
                  else
                    match message.content with
                    | none => .error ()
                    | some content =>
                      let urls := extractUrls content
                      match urls.find? (fun url => LinkProtection.shouldBlockUrl url config) with
                      | none => .ok ⟨true, [], checkedUrls config urls, none⟩
                      | some url =>
                        .ok ⟨false, LinkProtection.handleViolation pf message url config,
                          checkedUrls config urls, some url⟩
    | _, _ => .error ()

/-- Source: `LinkProtectionHandler.handleMessage` as the `try` body under its `catch`,
which returns `true`. -/
def LinkProtection.handleMessageCaught (fault : LinkStep → Bool) (pf : Platform)
    (fetched : Fetched) (message : Message) : LinkOutcome :=
  match LinkProtection.handleMessageTry fault pf fetched message with
  | .ok r => r
  | .error _ => ⟨true, [], [], none⟩

/-- The steps of `AntiSpamHandler.handleMessage` that read a property of the message
or of the stored configuration, and at which an error can therefore be raised
by a malformed object. They all come before the activity record is touched;
the rules work on values the handler has built itself, and `handleViolation`
catches its own errors. -/
inductive SpamStep where
  /-- the call `await database.getServerSettings(...)` -/
  | fetch
  /-- the construction of `cfg`, which calls `.map(String)` on the stored user list -/
  | config
  /-- the call `isUserWhitelisted(message.author.id, message.member, cfg)` -/
  | whitelist
  /-- the normalization `(message.content || '').trim().slice(0, 2000)` -/
  | normalize

/-- The body of the `try` block of `AntiSpamHandler.handleMessage`. The value
`.error ()` is a raised error: the ones the inputs of this model cause (a
rejected fetch, a message without author), and, where `fault` holds of a step,
an error raised at that step by a cause outside the model. -/
def AntiSpam.handleMessageTry (fault : SpamStep → Bool) (pf : Platform) (fetched : Fetched)
    (now : Int) (act : Activity) (message : Message) : Except Unit SpamOutcome :=
  let allow : SpamOutcome := ⟨true, [], act, .pass, none⟩
  match message.guildId with
  | none => .ok allow
  | some gid =>
    if fault .fetch then .error ()
    else
      match fetched with
      | .rejected => .error ()
      | .resolved settings =>
        match settings.bind (·.anti_spam) with
        | none => .ok allow
        | some feature =>
          if !feature.enabled then .ok allow
          else if fault .config then .error ()
          else
            let cfg := SpamCfg.ofFeature feature
            match message.authorId with
            | none => .error ()
            | some uid =>
              if fault .whitelist then .error ()
              else if AntiSpam.isUserWhitelisted uid message.member cfg then .ok allow
              else if fault .normalize then .error ()
              else
                let r := spamRules cfg now (act gid uid) (normalizeContent message.content)
                let act1 := act.set gid uid r.2
                match r.1 with
                | .pass => .ok ⟨true, [], act1, .pass, none⟩
                | v =>
                  .ok ⟨false, AntiSpam.handleViolation pf message (v.punishment cfg) v.reason,
                    act1, v, some (v.punishment cfg)⟩

/-- Source: `AntiSpamHandler.handleMessage` as the `try` body under its `catch`, which
returns `true`. -/
def AntiSpam.handleMessageCaught (fault : SpamStep → Bool) (pf : Platform) (fetched : Fetched)
    (now : Int) (act : Activity) (message : Message) : SpamOutcome :=
  match AntiSpam.handleMessageTry fault pf fetched now act message with
  | .ok r => r
  | .error _ => ⟨true, [], act, .pass, none⟩

/-! ## Member verification: stored policy and platform view -/

/-- The `config` object of member verification. An id that is null, undefined
or empty is `none`; a flag holds when the stored property is `true`. -/
structure VerifConfig where
  member_role_id : Option JSString
  channel_id : Option JSString
  message_id : Option JSString
  unverified_role_id : Option JSString
  pending_disable : Bool
  manual_disable : Bool
  auto_create_channel : Bool
  deriving DecidableEq

/-- The object `{}`, which is also the default configuration of the database. -/
def VerifConfig.empty : VerifConfig := ⟨none, none, none, none, false, false, false⟩

/-- The `member_verification` entry of the server settings. -/
structure VerifFeature where
  enabled : Bool
  config : Option VerifConfig
  deriving DecidableEq

/-- Source: `database.updateMemberVerificationSetting(serverId, enabled, config)`: the
feature object that is stored. A disable that carries `pending_disable` keeps
the ids of the stored configuration. -/
def updateMemberVerificationSetting (current : Option VerifFeature) (enabled : Bool)
    (config : VerifConfig) : VerifFeature :=
  let effective : VerifConfig :=
    if !enabled && config.pending_disable then
      match (current.getD ⟨false, some VerifConfig.empty⟩).config with
      | some c => { c with pending_disable := true }
      | none => config
    else config
  ⟨enabled, some ⟨effective.member_role_id, effective.channel_id, effective.message_id,
    effective.unverified_role_id, config.pending_disable, config.manual_disable,
    config.auto_create_channel⟩⟩

/-- The outcome of a platform lookup `fetch(id)`. -/
inductive Lookup (α : Type) where
  /-- the promise rejects with an error of the given code -/
  | fails (code : Nat)
  /-- the promise resolves to null -/
  | missing
  /-- the promise resolves to the resource -/
  | found (a : α)

/-- The resource a lookup under `.catch(() => null)` yields. -/
def Lookup.orNull {α : Type} : Lookup α → Option α
  | .found a => some a
  | _ => none

/-- A role of the guild: its id, whether the bot may delete it, and the ids of
the members that hold it. -/
structure RoleInfo where
  id : JSString
  deletable : Bool
  members : List JSString

/-- A message of a channel. -/
structure MsgInfo where
  id : JSString
  deletable : Bool

/-- A channel of the guild, with its message cache and the answers of
`channel.messages.fetch`. -/
structure ChannelInfo where
  id : JSString
  textBased : Bool
  deletable : Bool
  messages : List MsgInfo
  messagesFetch : JSString → Lookup MsgInfo

/-- The guild as the handler sees it during one run: the role and channel
caches, which are collections keyed by id, and the answers of `guild.roles.fetch`
and `guild.channels.fetch`. A fetch of the same id gives the same answer
throughout a run; a resource the run creates is added to the cache. -/
structure GuildView where
  id : JSString
  roles : List RoleInfo
  rolesFetch : JSString → Lookup RoleInfo
  channels : List ChannelInfo
  channelsFetch : JSString → Lookup ChannelInfo

/-- Source: `guild.roles.cache.get(id)`. -/
def GuildView.roleCached (g : GuildView) (id : JSString) : Option RoleInfo :=
  g.roles.find? (fun r => decide (r.id = id))

/-- Source: `guild.channels.cache.get(id)`. -/
def GuildView.channelCached (g : GuildView) (id : JSString) : Option ChannelInfo :=
  g.channels.find? (fun c => decide (c.id = id))

/-- Source: `channel.messages.cache.get(id)`. -/
def ChannelInfo.messageCached (c : ChannelInfo) (id : JSString) : Option MsgInfo :=
  c.messages.find? (fun m => decide (m.id = id))

/-- The guild after `guild.roles.create` has resolved: the new role is in the cache. -/
def GuildView.addRole (g : GuildView) (r : RoleInfo) : GuildView :=
  { g with roles := r :: g.roles }

/-- The guild after `guild.channels.create` has resolved: the new channel is in
the cache. -/
def GuildView.addChannel (g : GuildView) (c : ChannelInfo) : GuildView :=
  { g with channels := c :: g.channels }

/-- Source: `guild.roles.cache.get(id) || await guild.roles.fetch(id).catch(() => null)`. -/
def GuildView.roleOrNull (g : GuildView) (id : JSString) : Option RoleInfo :=
  match g.roleCached id with
  | some r => some r
  | none => (g.rolesFetch id).orNull

/-- Source: `guild.channels.cache.get(id) || await guild.channels.fetch(id).catch(() => null)`. -/
def GuildView.channelOrNull (g : GuildView) (id : JSString) : Option ChannelInfo :=
  match g.channelCached id with
  | some c => some c
  | none => (g.channelsFetch id).orNull

/-- The places at which the verification handler reads the server settings. -/
inductive ReadSite where
  /-- the first statement of `ensureForGuild` -/
  | ensure
  /-- the refresh after the channel has been created -/
  | refresh
  /-- the read of `disableAndPurge` -/
  | purge
  /-- the read of an event handler, of `handleMemberJoin` or of `handleVerifyButton` -/
  | handler

/-- The places at which the verification handler writes the server settings. -/
inductive WriteSite where
  /-- after the channel has been created -/
  | setup
  /-- after the Unverified role has been created -/
  | role
  /-- after the verification message has been sent -/
  | message
  /-- the write of `disableAndPurge` -/
  | purge

/-- What the database and the platform answer during one run: which reads and
writes of the settings reject, and what the creating calls resolve to, `none`
being a rejection. -/
structure VOracle where
  readFails : ReadSite → Bool
  writeFails : WriteSite → Bool
  /-- the role `guild.roles.create` resolves to -/
  roleCreate : Option RoleInfo
  /-- the channel `guild.channels.create` resolves to -/
  channelCreate : Option ChannelInfo
  /-- the id of the message `channel.send` resolves to -/
  send : Option JSString

/-- The calls that change the platform or the stored settings, as attempted by
the handler, and the invocations of `disableAndPurge`. -/
inductive VEvent where
  /-- the call `disableAndPurge(guild, reason)` -/
  | purge (reason : JSString)
  /-- the call `guild.roles.create` -/
  | createRole
  /-- the call `guild.channels.create` -/
  | createChannel
  /-- the call `channel.send` -/
  | sendMessage (channelId : JSString)
  /-- the call `msg.delete` -/
  | deleteMessage (channelId messageId : JSString)
  /-- the call `channel.delete` -/
  | deleteChannel (channelId : JSString)
  /-- the call `role.delete` -/
  | deleteRole (roleId : JSString)
  /-- the call `member.roles.remove` -/
  | removeRole (memberId roleId : JSString)
  /-- the call `database.updateFeatureSetting(guild.id, 'member_verification', enabled, cfg)` -/
  | writeSettings (enabled : Bool) (cfg : VerifConfig)
  deriving DecidableEq

/-- What the handler keeps between runs: the stored `member_verification` entry
and the `disableCooldowns` map. -/
structure VState where
  stored : Option VerifFeature
  disableCooldowns : JSString → Option Int

/-- What one run does: the events in order, and the state after it. -/
structure VResult where
  events : List VEvent
  state : VState

/-- The events of a first part of a run followed by the rest of the run. -/
def VResult.after (evs : List VEvent) (r : VResult) : VResult := ⟨evs ++ r.events, r.state⟩

/-- The state after `database.updateFeatureSetting` has resolved. -/
def VState.write (st : VState) (enabled : Bool) (cfg : VerifConfig) : VState :=
  { st with stored := some (updateMemberVerificationSetting st.stored enabled cfg) }

/-- The value `settings?.member_verification?.config || {}`. -/
def VState.config (st : VState) : VerifConfig :=
  (st.stored.bind (·.config)).getD VerifConfig.empty

/-! ## Member verification: disable and purge -/

/-- The test `reason.includes('pending_disable') || reason.includes('Manual disable')`. -/
def isManualDisable (reason : JSString) : Bool :=
  jsIncludes reason "pending_disable".toList || jsIncludes reason "Manual disable".toList

/-- The cooldown test of `disableAndPurge`: an automatic disable of the guild
was started less than five minutes ago. -/
def cooldownActive (st : VState) (guildId : JSString) (now : Int) : Bool :=
  match st.disableCooldowns guildId with
  | some lastDisable => decide (lastDisable ≠ 0) && decide (now - lastDisable < 300000)
  | none => false

/-- The first cleanup task of `disableAndPurge`: the verification message, then
the channel. A failing call ends the task or is skipped; the calls attempted are
the same. -/
def purgeChannel (g : GuildView) (cfg : VerifConfig) : List VEvent :=
  match cfg.channel_id with
  | none => []
  | some cid =>
    match g.channelOrNull cid with
    | none => []
    | some channel =>
      (match cfg.message_id with
        | some mid =>
          if channel.textBased then
            match (channel.messagesFetch mid).orNull with
            | some msg => if msg.deletable then [VEvent.deleteMessage channel.id mid] else []
            | none => []
          else []
        | none => []) ++
      (if channel.deletable then [VEvent.deleteChannel channel.id] else [])

/-- The second cleanup task of `disableAndPurge`: the Unverified role. A manual
disable deletes the role; an automatic one first removes it from each member
that holds it. -/
def purgeRole (g : GuildView) (manual : Bool) (cfg : VerifConfig) : List VEvent :=
  match cfg.unverified_role_id with
  | none => []
  | some rid =>
    match g.roleOrNull rid with
    | none => []
    | some role =>
      (if manual then [] else role.members.map (fun m => VEvent.removeRole m role.id)) ++
      (if role.deletable then [VEvent.deleteRole role.id] else [])

/-- Source: `VerificationHandler.disableAndPurge(guild, reason)` at time `now`. The
events start with the invocation itself. The two cleanup tasks run
interleaved; their calls are listed task by task, followed by the write that
clears the stored configuration. -/
def Verification.disableAndPurge (o : VOracle) (g : GuildView) (now : Int) (st : VState)
    (reason : JSString) : VResult :=
  let manual := isManualDisable reason
  if !manual && cooldownActive st g.id now then ⟨[VEvent.purge reason], st⟩
  else
    let st1 : VState :=
      if manual then st
      else { st with disableCooldowns := fun k => if k = g.id then some now else st.disableCooldowns k }
    if o.readFails .purge then ⟨[VEvent.purge reason], st1⟩
    else
      let cfg := st1.config
      let events := VEvent.purge reason :: (purgeChannel g cfg ++ purgeRole g manual cfg ++
        [VEvent.writeSettings false VerifConfig.empty])
      if o.writeFails .purge then ⟨events, st1⟩
      else ⟨events, st1.write false VerifConfig.empty⟩

/-! ## Member verification: ensureForGuild -/

/-- The tail of `ensureForGuild` that sends the verification message and stores
its id; a failure of the send or of the write leads to `disableAndPurge` with
the given reason. -/
def Verification.postMessage (o : VOracle) (g : GuildView) (now : Int) (st : VState)
    (cfg : VerifConfig) (channel : ChannelInfo) (reason : JSString) : VResult :=
  match o.send with
  | none =>
    (Verification.disableAndPurge o g now st reason).after [VEvent.sendMessage channel.id]
  | some sentId =>
    let cfg1 := { cfg with message_id := some sentId }
    if o.writeFails .message then
      (Verification.disableAndPurge o g now st reason).after
        [VEvent.sendMessage channel.id, VEvent.writeSettings true cfg1]
    else ⟨[VEvent.sendMessage channel.id, VEvent.writeSettings true cfg1], st.write true cfg1⟩

/-- The block of `ensureForGuild` that ensures the verification message exists. -/
def Verification.ensureMessage (o : VOracle) (g : GuildView) (now : Int) (st : VState)
    (cfg : VerifConfig) (channel : ChannelInfo) : VResult :=
  match cfg.message_id with
  | some mid =>
    let existing :=
      match channel.messageCached mid with
      | some m => some m
      | none => (channel.messagesFetch mid).orNull
    match existing with
    | some _ => ⟨[], st⟩
    | none =>
      Verification.postMessage o g now st cfg channel
        "Failed to recreate verification message".toList
  | none =>
    Verification.postMessage o g now st cfg channel "Failed to post verification message".toList

/-- The block of `ensureForGuild` that ensures the Unverified role exists, followed
by the message block. A lookup that rejects or resolves to null leads to the
creation of a role. -/
def Verification.ensureRole (o : VOracle) (g : GuildView) (now : Int) (st : VState)
    (cfg : VerifConfig) (channel : ChannelInfo) : VResult :=
  let unverifiedRole :=
    match cfg.unverified_role_id with
    | some rid => g.roleOrNull rid
    | none => none
  match unverifiedRole with
  | some _ => Verification.ensureMessage o g now st cfg channel
  | none =>
    match o.roleCreate with
    | none =>
      (Verification.disableAndPurge o g now st "Failed to ensure Unverified role".toList).after
        [VEvent.createRole]
    | some role =>
      let cfg1 := { cfg with unverified_role_id := some role.id }
      if o.writeFails .role then
        (Verification.disableAndPurge o (g.addRole role) now st
          "Failed to ensure Unverified role".toList).after
          [VEvent.createRole, VEvent.writeSettings true cfg1]
      else
        (Verification.ensureMessage o (g.addRole role) now (st.write true cfg1) cfg1 channel).after
          [VEvent.createRole, VEvent.writeSettings true cfg1]

/-- The outcome of the validating lookup of the channel: `none` when the fetch
rejects, otherwise the value of the variable `channel`. -/
def validateChannel (g : GuildView) (cid : JSString) : Option (Option ChannelInfo) :=
  match g.channelCached cid with
  | some c => some (some c)
  | none =>
    match g.channelsFetch cid with
    | .fails _ => none
    | .missing => some none
    | .found c => some (some c)

/-- The validating lookup of the Unverified role rejects. A lookup that
resolves to null is not tested. -/
def unverifiedRoleLookupThrows (g : GuildView) (cfg : VerifConfig) : Bool :=
  match cfg.unverified_role_id with
  | none => false
  | some rid =>
    match g.roleCached rid with
    | some _ => false
    | none =>
      match g.rolesFetch rid with
      | .fails _ => true
      | _ => false

/-- The validating fetch of the verification message finds it deleted: it
resolves to null, or rejects with code 10008 (Unknown Message). -/
def messageDeleted (cfg : VerifConfig) (channel : Option ChannelInfo) : Bool :=
  match cfg.message_id, channel with
  | some mid, some ch =>
    if ch.textBased then
      match ch.messagesFetch mid with
      | .found _ => false
      | .missing => true
      | .fails code => decide (code = 10008)
    else false
  | _, _ => false

/-- The part of `ensureForGuild` that follows the automatic creation of the
channel: the validation of the configured resources, then the blocks that
ensure the role and the message. The lookup of the member role is left out:
its result is not used, and a fetch that rejects is only logged. -/
def Verification.validate (o : VOracle) (g : GuildView) (now : Int) (st : VState)
    (cfg : VerifConfig) : VResult :=
  match cfg.channel_id with
  | none =>
    Verification.disableAndPurge o g now st "Missing required channel after setup".toList
  | some cid =>
    match validateChannel g cid with
    | none =>
      Verification.disableAndPurge o g now st "Verification channel was deleted by user".toList
    | some channel =>
      if unverifiedRoleLookupThrows g cfg then
        Verification.disableAndPurge o g now st "Unverified role was deleted by user".toList
      else if messageDeleted cfg channel then
        Verification.disableAndPurge o g now st "Verification message was deleted by user".toList
      else
        match channel with
        | none =>
          Verification.disableAndPurge o g now st "Verification channel not text-based".toList
        | some ch =>
          if !ch.textBased then
            Verification.disableAndPurge o g now st "Verification channel not text-based".toList
          else Verification.ensureRole o g now st cfg ch

/-- Source: `Object.assign(cfg, updatedCfg)` with the stored configuration: the ids
are overwritten, a flag is overwritten when the stored object carries it. -/
def objectAssign (cfg updated : VerifConfig) : VerifConfig :=
  ⟨updated.member_role_id, updated.channel_id, updated.message_id, updated.unverified_role_id,
    cfg.pending_disable || updated.pending_disable, cfg.manual_disable || updated.manual_disable,
    cfg.auto_create_channel || updated.auto_create_channel⟩

/-- The block of `ensureForGuild` that creates the verification channel when none
is configured and `auto_create_channel` is set, after making sure that there is
an Unverified role for its permissions; any failure leads to `disableAndPurge`. -/
def Verification.autoCreate (o : VOracle) (g : GuildView) (now : Int) (st : VState)
    (cfg : VerifConfig) : VResult :=
  let reason := "Failed to create verification channel".toList
  let existing :=
    match cfg.unverified_role_id with
    | some rid => g.roleOrNull rid
    | none => none
  let withRole (evs : List VEvent) (g1 : GuildView) (cfg1 : VerifConfig) : VResult :=
    match o.channelCreate with
    | none =>
      (Verification.disableAndPurge o g1 now st reason).after (evs ++ [VEvent.createChannel])
    | some channel =>
      let cfg2 := { cfg1 with channel_id := some channel.id }
      let g2 := g1.addChannel channel
      let evs2 := evs ++ [VEvent.createChannel, VEvent.writeSettings true cfg2]
      if o.writeFails .setup then (Verification.disableAndPurge o g2 now st reason).after evs2
      else
        let st1 := st.write true cfg2
        if o.readFails .refresh then
          (Verification.disableAndPurge o g2 now st1 reason).after evs2
        else
          let cfg3 :=
            match st1.stored.bind (·.config) with
            | some updated => objectAssign cfg2 updated
            | none => cfg2
          (Verification.validate o g2 now st1 cfg3).after evs2
  match existing with
  | some _ => withRole [] g cfg
  | none =>
    match o.roleCreate with
    | none => (Verification.disableAndPurge o g now st reason).after [VEvent.createRole]
    | some role =>
      withRole [VEvent.createRole] (g.addRole role) { cfg with unverified_role_id := some role.id }

/-- Source: `VerificationHandler.ensureForGuild(client, guild)` at time `now`. A read of
the settings that rejects ends the run in the outer `catch`. -/
def Verification.ensureForGuild (o : VOracle) (g : GuildView) (now : Int) (st : VState) :
    VResult :=
  if o.readFails .ensure then ⟨[], st⟩
  else
    let cfg := st.config
    let enabled :=
      match st.stored with
      | some feature => feature.enabled
      | none => false
    if !enabled then
      if cfg.message_id.isSome || cfg.unverified_role_id.isSome || cfg.pending_disable ||
          cfg.channel_id.isSome || cfg.member_role_id.isSome then
        Verification.disableAndPurge o g now st
          (if cfg.manual_disable then "Manual disable from dashboard".toList
          else "Cleanup after disable or resource removal".toList)
      else ⟨[], st⟩
    else
      match cfg.member_role_id with
      | none => Verification.disableAndPurge o g now st "Missing required member role".toList
      | some _ =>
        if cfg.channel_id.isNone && cfg.auto_create_channel then
          Verification.autoCreate o g now st cfg
        else Verification.validate o g now st cfg

/-- Source: the `channelDelete` event handler, run for the deleted channel. -/
def channelDelete (o : VOracle) (g : GuildView) (now : Int) (st : VState)
    (deletedChannelId : JSString) : VResult :=
  if o.readFails .handler then ⟨[], st⟩
  else
    match st.stored with
    | none => ⟨[], st⟩
    | some _ =>
      match st.config.channel_id with
      | some cid =>
        if deletedChannelId = cid then
          Verification.disableAndPurge o g now st "Verification channel deleted by user".toList
        else ⟨[], st⟩
      | none => ⟨[], st⟩

/-! ## Member verification: joining members and the verify button -/

/-- Which role calls on the member reject during one run. -/
structure MemberPlatform where
  /-- the first `member.roles.set` of `handleMemberJoin` rejects -/
  firstSetFails : Bool
  /-- the second `member.roles.set` of `handleMemberJoin` rejects -/
  secondSetFails : Bool
  /-- the call `member.roles.remove` of `handleVerifyButton` rejects -/
  removeFails : Bool
  /-- the call `member.roles.add` of `handleVerifyButton` rejects -/
  addFails : Bool
  /-- the call `interaction.reply` rejects -/
  replyFails : Bool

/-- The role calls and replies attempted for a member. -/
inductive MemberEvent where
  /-- the call `member.roles.set(roles)` -/
  | setRoles (roles : List JSString)
  /-- the call `member.roles.remove(roleId)` -/
  | remove (roleId : JSString)
  /-- the call `member.roles.add(roleId)` -/
  | add (roleId : JSString)
  /-- the reply `Verification is not enabled.` -/
  | replyNotEnabled
  /-- the reply `Member role not configured.` -/
  | replyNotConfigured
  /-- the reply that the member is already verified -/
  | replyAlreadyVerified
  /-- the reply with the success embed -/
  | replySuccess
  /-- the reply with the error embed -/
  | replyError
  deriving DecidableEq

/-- What a run does for a member: the calls attempted, in order, and the ids
of the roles the member holds afterwards. -/
structure MemberResult where
  events : List MemberEvent
  roles : List JSString

/-- The stored policy when it is present and enabled, as read by
`handleMemberJoin` and `handleVerifyButton`: the value `feature.config || {}`. -/
def enabledConfig (stored : Option VerifFeature) : Option VerifConfig :=
  match stored with
  | some feature => if feature.enabled then some (feature.config.getD VerifConfig.empty) else none
  | none => none

/-- Source: `VerificationHandler.handleMemberJoin(member)`, for a member who holds the
roles `held`. After the two seconds the member's role cache shows the roles
the member then holds. -/
def Verification.handleMemberJoin (o : VOracle) (mp : MemberPlatform) (g : GuildView)
    (stored : Option VerifFeature) (held : List JSString) : MemberResult :=
  if o.readFails .handler then ⟨[], held⟩
  else
    match enabledConfig stored with
    | none => ⟨[], held⟩
    | some cfg =>
      match cfg.unverified_role_id with
      | none => ⟨[], held⟩
      | some rid =>
        match g.roleCached rid with
        | none => ⟨[], held⟩
        | some unverifiedRole =>
          let first := [unverifiedRole.id]
          let held1 := if mp.firstSetFails then held else first
          let current := if held1.contains unverifiedRole.id then [unverifiedRole.id] else []
          let held2 := if mp.secondSetFails then held1 else current
          ⟨[MemberEvent.setRoles first, MemberEvent.setRoles current], held2⟩

/-- The interaction handed to `handleVerifyButton`. -/
structure Interaction where
  /-- the interaction comes from a guild -/
  inGuild : Bool
  /-- the test `interaction.isButton()` -/
  isButton : Bool
  customId : JSString

/-- The role `handleVerifyButton` removes: the Unverified role, when it is in the
role cache and the member holds it. -/
def removalTarget (unverifiedRole : Option RoleInfo) (held : List JSString) : Option JSString :=
  match unverifiedRole with
  | some r => if held.contains r.id then some r.id else none
  | none => none

/-- The roles held after `member.roles.remove` has resolved for the stated role. -/
def withoutRole (held : List JSString) : Option JSString → List JSString
  | some rid => held.filter (fun r => decide (r ≠ rid))
  | none => held

/-- Source: `VerificationHandler.handleVerifyButton(interaction)`, for a member who holds
the roles `held`. A reply that rejects changes nothing of what is attempted:
after the early replies the run is over, and the rejection of the success
reply is followed by the error reply. -/
def Verification.handleVerifyButton (o : VOracle) (mp : MemberPlatform) (g : GuildView)
    (stored : Option VerifFeature) (interaction : Interaction) (held : List JSString) :
    MemberResult :=
  if !interaction.inGuild || !interaction.isButton then ⟨[], held⟩
  else if interaction.customId ≠ "verify_simple".toList then ⟨[], held⟩
  else if o.readFails .handler then ⟨[], held⟩
  else
    match enabledConfig stored with
    | none => ⟨[MemberEvent.replyNotEnabled], held⟩
    | some cfg =>
      let memberRole := cfg.member_role_id.bind g.roleCached
      let unverifiedRole := cfg.unverified_role_id.bind g.roleCached
      match memberRole with
      | none => ⟨[MemberEvent.replyNotConfigured], held⟩
      | some memberRole =>
        if held.contains memberRole.id then ⟨[MemberEvent.replyAlreadyVerified], held⟩
        else
          let removal := removalTarget unverifiedRole held
          let removeEvents := (removal.map MemberEvent.remove).toList
          if removal.isSome && mp.removeFails then
            ⟨removeEvents ++ [MemberEvent.replyError], held⟩
          else
            let held1 := withoutRole held removal
            if mp.addFails then
              ⟨removeEvents ++ [MemberEvent.add memberRole.id, MemberEvent.replyError], held1⟩
            else if mp.replyFails then
              ⟨removeEvents ++ [MemberEvent.add memberRole.id, MemberEvent.replySuccess,
                MemberEvent.replyError], memberRole.id :: held1⟩
            else
              ⟨removeEvents ++ [MemberEvent.add memberRole.id, MemberEvent.replySuccess],
                memberRole.id :: held1⟩

/-! ## Member verification: sample data -/

/-- A database and platform on which every read, write and creating call
succeeds; the created role is `r9`, the created channel `c9`, the sent message
`m9`. -/
def sampleOracle : VOracle :=
  ⟨fun _ => false, fun _ => false, some ⟨"r9".toList, true, []⟩,
    some ⟨"c9".toList, true, true, [], fun _ => Lookup.fails 10008⟩, some "m9".toList⟩

/-- A configuration with member role `r1`, channel `c1`, message `m1` and
Unverified role `r2`. -/
def sampleVerifConfig : VerifConfig :=
  ⟨some "r1".toList, some "c1".toList, some "m1".toList, some "r2".toList, false, false, false⟩

/-- The text channel `c1`, with an empty message cache, whose message fetch
gives the stated answer. -/
def sampleChannel (fetch : Lookup MsgInfo) : ChannelInfo :=
  ⟨"c1".toList, true, true, [], fun _ => fetch⟩

/-- The guild `g1` with the roles `r1` and `r2`, the latter held by member `u7`,
and the stated channels in its cache; every fetch of a role or channel that is
not cached rejects. -/
def sampleGuild (channels : List ChannelInfo) : GuildView :=
  ⟨"g1".toList, [⟨"r1".toList, true, []⟩, ⟨"r2".toList, true, ["u7".toList]⟩],
    fun _ => Lookup.fails 10011, channels, fun _ => Lookup.fails 10003⟩

/-- The state in which the stated policy is stored and no disable has run yet. -/
def sampleState (feature : VerifFeature) : VState := ⟨some feature, fun _ => none⟩

/-- The run `r`, started in state `st` at time `now`, invoked `disableAndPurge` for
an automatic reason: under an active cooldown it did nothing else and the
stored policy is as it was; otherwise, when the read and the write of
`disableAndPurge` succeed, the stored policy is disabled with an empty
configuration. -/
def DisablesUnlessCooling (o : VOracle) (g : GuildView) (now : Int) (st : VState)
    (r : VResult) : Prop :=
  (∃ reason, isManualDisable reason = false ∧ r.events.head? = some (VEvent.purge reason)) ∧
  (cooldownActive st g.id now = true → r.events.length = 1 ∧ r.state.stored = st.stored) ∧
  (cooldownActive st g.id now = false → o.readFails ReadSite.purge = false →
    o.writeFails WriteSite.purge = false →
    r.state.stored = some ⟨false, some VerifConfig.empty⟩)

/-- The state after an automatic disable of guild `g1` at time 1000000 in which
the stated policy has then been stored again. -/
def sampleCoolingState (feature : VerifFeature) : VState :=
  { (channelDelete sampleOracle (sampleGuild []) 1000000
      (sampleState ⟨true, some sampleVerifConfig⟩) "c1".toList).state with
    stored := some feature }

/-- The guild `g1` after the Unverified role `r2` has been deleted: only the
role `r1` is cached and a role fetch gives the stated answer; the channel `c1`
with the message `m1` is live. -/
def sampleGuildRoleGone (fetch : Lookup RoleInfo) : GuildView :=
  ⟨"g1".toList, [⟨"r1".toList, true, []⟩], fun _ => fetch,
    [sampleChannel (Lookup.found ⟨"m1".toList, true⟩)], fun _ => Lookup.fails 10003⟩

/-- A platform on which every role call on the member and every reply succeeds. -/
def sampleMemberPlatform : MemberPlatform := ⟨false, false, false, false, false⟩

/-- The interaction of a click on the verify button in a guild. -/
def sampleInteraction : Interaction := ⟨true, true, "verify_simple".toList⟩

/-! ## Member verification: the cleanup of disableAndPurge, call by call -/

/-- Which deleting calls of `disableAndPurge` reject. -/
structure PurgeFaults where
  /-- the call `msg.delete()` rejects -/
  messageDelete : Bool
  /-- the call `channel.delete()` rejects, with an error of the given code -/
  channelDelete : Option Nat
  /-- the call `role.delete()` rejects -/
  roleDelete : Bool
  /-- the call `member.roles.remove` rejects for the given member -/
  roleRemove : JSString → Bool

/-- Source: the object `cleanupResults` that `disableAndPurge` fills in and logs. -/
structure CleanupResults where
  message : Bool
  channel : Bool
  unverifiedRole : Bool
  memberRoleUpdates : Nat
  config : Bool
  deriving DecidableEq

/-- The first cleanup task of `disableAndPurge` with the outcome of each call: the
calls attempted and the flags `message` and `channel` of `cleanupResults`. A
rejected `msg.delete()` is caught by the inner `try`, a rejected
`channel.delete()` by the `try` of the task, which counts the channel as
cleaned up when the code is 10003 (Unknown Channel). -/
def purgeChannelTask (pf : PurgeFaults) (g : GuildView) (cfg : VerifConfig) :
    List VEvent × Bool × Bool :=
  match cfg.channel_id with
  | none => ([], false, false)
  | some cid =>
    match g.channelOrNull cid with
    | none => ([], false, true)
    | some channel =>
      let messagePart : List VEvent × Bool :=
        match cfg.message_id with
        | some mid =>
          if channel.textBased then
            match (channel.messagesFetch mid).orNull with
            | some msg =>
              if msg.deletable then ([VEvent.deleteMessage channel.id mid], !pf.messageDelete)
              else ([], false)
            | none => ([], false)
          else ([], false)
        | none => ([], false)
      if channel.deletable then
        (messagePart.1 ++ [VEvent.deleteChannel channel.id], messagePart.2,
          match pf.channelDelete with
          | none => true
          | some code => decide (code = 10003))
      else (messagePart.1, messagePart.2, false)

/-- The second cleanup task of `disableAndPurge` with the outcome of each call:
the calls attempted, the flag `unverifiedRole` and the counter
`memberRoleUpdates` of `cleanupResults`. Each rejected `member.roles.remove` is
caught on its own, a rejected `role.delete()` by the `try` of the task. -/
def purgeRoleTask (pf : PurgeFaults) (g : GuildView) (manual : Bool) (cfg : VerifConfig) :
    List VEvent × Bool × Nat :=
  match cfg.unverified_role_id with
  | none => ([], false, 0)
  | some rid =>
    match g.roleOrNull rid with
    | none => ([], false, 0)
    | some role =>
      if manual then
        if role.deletable then
          ([VEvent.deleteRole role.id], !pf.roleDelete,
            if pf.roleDelete then 0 else role.members.length)
        else ([], false, 0)
      else
        let removals := role.members.map (fun m => VEvent.removeRole m role.id)
        let updates := (role.members.filter (fun m => !pf.roleRemove m)).length
        if role.deletable then (removals ++ [VEvent.deleteRole role.id], !pf.roleDelete, updates)
        else (removals, false, updates)

/-- Source: `VerificationHandler.disableAndPurge(guild, reason)` with the outcome of
every deleting call: the `cleanupResults` that are logged, `none` when the call
returns before the cleanup, and the run. -/
def Verification.disableAndPurgeDetailed (pf : PurgeFaults) (o : VOracle) (g : GuildView)
    (now : Int) (st : VState) (reason : JSString) : Option CleanupResults × VResult :=
  let manual := isManualDisable reason
  if !manual && cooldownActive st g.id now then (none, ⟨[VEvent.purge reason], st⟩)
  else
    let st1 : VState :=
      if manual then st
      else { st with disableCooldowns := fun k => if k = g.id then some now else st.disableCooldowns k }
    if o.readFails .purge then (none, ⟨[VEvent.purge reason], st1⟩)
    else
      let cfg := st1.config
      let channelTask := purgeChannelTask pf g cfg
      let roleTask := purgeRoleTask pf g manual cfg
      let events := VEvent.purge reason :: (channelTask.1 ++ roleTask.1 ++
        [VEvent.writeSettings false VerifConfig.empty])
      if o.writeFails .purge then
        (some ⟨channelTask.2.1, channelTask.2.2, roleTask.2.1, roleTask.2.2, false⟩,
          ⟨events, st1⟩)
      else
        (some ⟨channelTask.2.1, channelTask.2.2, roleTask.2.1, roleTask.2.2, true⟩,
          ⟨events, st1.write false VerifConfig.empty⟩)

/-- A platform on which every deleting call of the cleanup rejects. -/
def samplePurgeFaults : PurgeFaults := ⟨true, some 50013, true, fun _ => true⟩

/-! ## Member verification: entry points on partial payloads -/

/-- How a call of an asynchronous entry point ends. -/
inductive Settled where
  /-- the promise resolves -/
  | resolved
  /-- the promise rejects -/
  | rejected
  deriving DecidableEq

/-- Source: `VerificationHandler.ensureForGuild(client, guild)` for a payload whose guild
may be missing. Reading `guild.id` of a missing guild throws inside the `try`
block, and the `catch` logs the error. -/
def Verification.ensureForGuildEntry (o : VOracle) (guild : Option GuildView) (now : Int)
    (st : VState) : Settled × VResult :=
  match guild with
  | none => (.resolved, ⟨[], st⟩)
  | some g => (.resolved, Verification.ensureForGuild o g now st)

/-- Source: `VerificationHandler.disableAndPurge(guild, reason)` for a payload whose
guild may be missing. Reading `guild.id` of a missing guild throws inside the
`try` block before anything is done; the `catch` block builds its log line from
`guild.name`, which throws again, outside any `try`. -/
def Verification.disableAndPurgeEntry (o : VOracle) (guild : Option GuildView) (now : Int)
    (st : VState) (reason : JSString) : Settled × VResult :=
  match guild with
  | none => (.rejected, ⟨[VEvent.purge reason], st⟩)
  | some g => (.resolved, Verification.disableAndPurge o g now st reason)

/-- The member handed to `handleMemberJoin`: its guild, which may be missing, and
the roles it holds. -/
structure JoinPayload where
  guild : Option GuildView
  held : List JSString

/-- Source: `VerificationHandler.handleMemberJoin(member)` for a payload whose member or
guild may be missing. Reading `member.guild` or `guild.id` of a missing object
throws inside the `try` block, and the `catch` logs the error. -/
def Verification.handleMemberJoinEntry (o : VOracle) (mp : MemberPlatform)
    (member : Option JoinPayload) (stored : Option VerifFeature) : Settled × MemberResult :=
  match member with
  | none => (.resolved, ⟨[], []⟩)
  | some payload =>
    match payload.guild with
    | none => (.resolved, ⟨[], payload.held⟩)
    | some g => (.resolved, Verification.handleMemberJoin o mp g stored payload.held)

/-- Source: `VerificationHandler.handleVerifyButton(interaction)` for a payload whose guild
or member may be missing. A missing guild ends the call at its first test. The
three early replies are returned without `await`, so a reply that rejects
makes the call reject; a missing member throws at `member.roles` inside the
`try` block, and the `catch` logs the error. -/
def Verification.handleVerifyButtonEntry (o : VOracle) (mp : MemberPlatform)
    (guild : Option GuildView) (stored : Option VerifFeature) (interaction : Interaction)
    (member : Option (List JSString)) : Settled × MemberResult :=
  let nothing : Settled × MemberResult := (.resolved, ⟨[], member.getD []⟩)
  let early (e : MemberEvent) : Settled × MemberResult :=
    (if mp.replyFails then .rejected else .resolved, ⟨[e], member.getD []⟩)
  match guild with
  | none => nothing
  | some g =>
    if !interaction.isButton then nothing
    else if interaction.customId ≠ "verify_simple".toList then nothing
    else if o.readFails .handler then nothing
    else
      match enabledConfig stored with
      | none => early MemberEvent.replyNotEnabled
      | some cfg =>
        match cfg.member_role_id.bind g.roleCached with
        | none => early MemberEvent.replyNotConfigured
        | some memberRole =>
          match member with
          | none => nothing
          | some held =>
            if held.contains memberRole.id then early MemberEvent.replyAlreadyVerified
            else
              (.resolved, Verification.handleVerifyButton o mp g stored
                { interaction with inGuild := true } held)

/-- A message with the given text, sent in guild `g1` by user `u1`, whose member
object is missing. -/
def sampleMemberlessMessage (text : JSString) : Message :=
  ⟨some "g1".toList, some "u1".toList, none, some text⟩

/-! # Theorems -/

/-! ## Anti-spam: the handler on an active, non-whitelisted user -/

theorem handleMessage_active (pf : Platform) {fetched : Fetched} {cfg : SpamCfg} {g u : JSString}
    {m : Message} (ha : SpamActive fetched cfg) (hu : FromUser cfg g u m) (now : Int)
    (act : Activity) :
    (AntiSpam.handleMessage pf fetched now act m).verdict =
        (spamRules cfg now (act g u) (normalizeContent m.content)).1 ∧
      (AntiSpam.handleMessage pf fetched now act m).activity =
        act.set g u (spamRules cfg now (act g u) (normalizeContent m.content)).2 ∧
      (AntiSpam.handleMessage pf fetched now act m).allowed =
        decide ((spamRules cfg now (act g u) (normalizeContent m.content)).1 = .pass) ∧
      (AntiSpam.handleMessage pf fetched now act m).punished =
        (if (spamRules cfg now (act g u) (normalizeContent m.content)).1 = .pass then none
         else some ((spamRules cfg now (act g u) (normalizeContent m.content)).1.punishment cfg)) := by
  obtain ⟨settings, feature, rfl, hs, he, rfl⟩ := ha
  obtain ⟨hg, hau, hw⟩ := hu
  unfold AntiSpam.handleMessage
  simp only [hg, hau, hs, he, hw, Option.bind]
  cases h : (spamRules (SpamCfg.ofFeature feature) now (act g u) (normalizeContent m.content)).1 <;>
    simp

theorem Activity.set_same (a : Activity) (g u : JSString) (st : UserState) :
    a.set g u st g u = st := by
  simp [Activity.set]

theorem runAll_user {pf : Platform} {fetched : Fetched} {cfg : SpamCfg} {g u : JSString}
    (ha : SpamActive fetched cfg) :
    ∀ (evs : List (Int × Message)) (act : Activity), (∀ x ∈ evs, FromUser cfg g u x.2) →
      AntiSpam.runAll pf fetched act evs g u = userRun cfg (act g u) (evs.map eventEntry) := by
  intro evs
  induction evs with
  | nil => intro act _; rfl
  | cons e rest ih =>
    intro act h
    obtain ⟨now, m⟩ := e
    have hm : FromUser cfg g u m := h (now, m) (List.mem_cons_self _ _)
    have hact := (handleMessage_active pf ha hm now act).2.1
    simp only [AntiSpam.runAll, List.map_cons, userRun, eventEntry]
    rw [ih _ (fun x hx => h x (List.mem_cons_of_mem _ hx)), hact, Activity.set_same]

/-! ## Anti-spam: the recorded messages -/

theorem windowMs_nonneg (cfg : SpamCfg) : 0 ≤ windowMs cfg := by
  unfold windowMs
  positivity

theorem windowMs_of_floor {cfg : SpamCfg} (h : 5 ≤ cfg.time_window) :
    windowMs cfg = (cfg.time_window : Int) * 1000 := by
  unfold windowMs
  rw [max_eq_right h]

theorem spamRules_messages (cfg : SpamCfg) (now : Int) (st : UserState) (c : JSString) :
    (spamRules cfg now st c).2.messages =
      (st.messages ++ [(⟨now, c⟩ : MsgEntry)]).filter
        (fun m => now - m.t ≤ max (windowMs cfg) 30000) := by
  unfold spamRules
  simp only []
  split_ifs
  · rfl
  · rfl
  · rfl
  · split <;> rfl
  · rfl

theorem spamRules_verdict_flood (cfg : SpamCfg) (now : Int) (st : UserState) (c : JSString) :
    (spamRules cfg now st c).1 = .flood ↔
      rateCount cfg (recordMessage cfg st now c) now > cfg.max_messages := by
  unfold spamRules
  simp only []
  split_ifs with h1 h2 h3 h4
  · simp [h1]
  · simp [h1]
  · simp [h1]
  · split <;> simp [h1]
  · simp [h1]

/-- When the earlier entries and all the coming events lie within `B`
milliseconds of each other, and `B` is at most the pruning age, nothing is
pruned: the record holds every message. -/
theorem userRun_messages_of_close (cfg : SpamCfg) (B : Int) (hB : B ≤ max (windowMs cfg) 30000) :
    ∀ (evs : List (Int × JSString)) (st : UserState),
      (∀ m ∈ st.messages, ∀ e ∈ evs, e.1 - m.t ≤ B) →
      (∀ x ∈ evs, ∀ y ∈ evs, x.1 - y.1 ≤ B) →
      (userRun cfg st evs).messages = st.messages ++ evs.map (fun e => ⟨e.1, e.2⟩) := by
  intro evs
  induction evs with
  | nil => intro st _ _; simp [userRun]
  | cons e rest ih =>
    intro st h1 h2
    obtain ⟨now, c⟩ := e
    have hkeep : (spamRules cfg now st c).2.messages = st.messages ++ [⟨now, c⟩] := by
      rw [spamRules_messages, List.filter_eq_self]
      intro m hm
      rcases List.mem_append.1 hm with hm | hm
      · have := h1 m hm (now, c) (List.mem_cons_self _ _)
        simp only [decide_eq_true_eq]
        exact le_trans this hB
      · simp only [List.mem_singleton] at hm
        subst hm
        simp only [sub_self, decide_eq_true_eq]
        exact le_trans (windowMs_nonneg cfg) (le_max_left _ _)
    simp only [userRun]
    rw [ih, hkeep]
    · simp
    · intro m hm e he
      rw [hkeep] at hm
      rcases List.mem_append.1 hm with hm | hm
      · exact h1 m hm e (List.mem_cons_of_mem _ he)
      · simp only [List.mem_singleton] at hm
        subst hm
        exact h2 e (List.mem_cons_of_mem _ he) (now, c) (List.mem_cons_self _ _)
    · intro x hx y hy
      exact h2 x (List.mem_cons_of_mem _ hx) y (List.mem_cons_of_mem _ hy)

theorem userRun_messages_origin (cfg : SpamCfg) :
    ∀ (evs : List (Int × JSString)) (st : UserState), ∀ m ∈ (userRun cfg st evs).messages,
      m ∈ st.messages ∨ ∃ e ∈ evs, m.t = e.1 := by
  intro evs
  induction evs with
  | nil => intro st m hm; exact Or.inl hm
  | cons e rest ih =>
    intro st m hm
    obtain ⟨now, c⟩ := e
    simp only [userRun] at hm
    rcases ih _ m hm with h | ⟨e, he, hte⟩
    · rw [spamRules_messages] at h
      have h2 := (List.mem_filter.1 h).1
      rcases List.mem_append.1 h2 with h3 | h3
      · exact Or.inl h3
      · simp only [List.mem_singleton] at h3
        exact Or.inr ⟨(now, c), List.mem_cons_self _ _, by rw [h3]⟩
    · exact Or.inr ⟨e, List.mem_cons_of_mem _ he, hte⟩

theorem rateCount_record_all (cfg : SpamCfg) (st : UserState) (now : Int) (c : JSString)
    (h : ∀ m ∈ st.messages, now - m.t ≤ windowMs cfg) :
    rateCount cfg (recordMessage cfg st now c) now = st.messages.length + 1 := by
  have hw := windowMs_nonneg cfg
  have h1 : ∀ m ∈ st.messages ++ [(⟨now, c⟩ : MsgEntry)], now - m.t ≤ windowMs cfg := by
    intro m hm
    rcases List.mem_append.1 hm with hm | hm
    · exact h m hm
    · simp only [List.mem_singleton] at hm
      subst hm
      simpa using hw
  unfold rateCount recordMessage pruneOld
  simp only []
  rw [List.filter_eq_self.2, List.filter_eq_self.2]
  · simp
  · intro m hm
    simpa using le_trans (h1 m hm) (le_max_left _ _)
  · intro m hm
    simpa using h1 m (List.mem_filter.1 hm).1

theorem rateCount_record_none (cfg : SpamCfg) (st : UserState) (now : Int) (c : JSString)
    (h : ∀ m ∈ st.messages, windowMs cfg < now - m.t) :
    rateCount cfg (recordMessage cfg st now c) now = 1 := by
  have hw := windowMs_nonneg cfg
  unfold rateCount recordMessage pruneOld
  simp only [List.filter_filter, List.filter_append]
  have h0 : st.messages.filter
      (fun m => decide (now - m.t ≤ windowMs cfg) && decide (now - m.t ≤ max (windowMs cfg) 30000))
      = [] := by
    rw [List.filter_eq_nil_iff]
    intro m hm
    have := h m hm
    simp only [Bool.and_eq_true, decide_eq_true_eq, not_and]
    intro h1
    omega
  rw [h0]
  simp [hw]

theorem handleMessage_flood_iff (pf : Platform) {fetched : Fetched} {cfg : SpamCfg}
    {g u : JSString} (ha : SpamActive fetched cfg) (act : Activity)
    (pre : List (Int × Message)) (e : Int × Message)
    (hu : ∀ x ∈ pre ++ [e], FromUser cfg g u x.2) :
    (AntiSpam.handleMessage pf fetched e.1 (AntiSpam.runAll pf fetched act pre) e.2).verdict = .flood ↔
      rateCount cfg (recordMessage cfg (userRun cfg (act g u) (pre.map eventEntry)) e.1
        (normalizeContent e.2.content)) e.1 > cfg.max_messages := by
  have he : FromUser cfg g u e.2 := hu e (by simp)
  have hpre : ∀ x ∈ pre, FromUser cfg g u x.2 := fun x hx => hu x (by simp [hx])
  rw [(handleMessage_active pf ha he e.1 _).1, runAll_user ha pre act hpre,
    spamRules_verdict_flood]

/-- C1. Flood rule. With `max_messages = N ≥ 1` and `time_window = W ≥ 5`, for a
non-whitelisted user of a guild with anti-spam enabled and no earlier recorded
message: when the messages handled so far and the current one all lie within
`W` seconds of each other, the flood rule does not fire while at most `N`
messages have been handled and fires on message `N + 1`, which is blocked;
and when consecutive messages are more than `W` seconds apart, the flood rule
fires on none of them. -/
theorem flood_rule_fires_exactly_past_max_messages (pf : Platform) (fetched : Fetched)
    (cfg : SpamCfg) (g u : JSString) (act : Activity) (ha : SpamActive fetched cfg)
    (hN : 1 ≤ cfg.max_messages) (hW : 5 ≤ cfg.time_window)
    (hfresh : (act g u).messages = []) :
    (∀ (pre : List (Int × Message)) (e : Int × Message),
      (∀ x ∈ pre ++ [e], FromUser cfg g u x.2) →
      (∀ x ∈ pre ++ [e], ∀ y ∈ pre ++ [e], x.1 - y.1 ≤ (cfg.time_window : Int) * 1000) →
      (pre.length < cfg.max_messages →
        (AntiSpam.handleMessage pf fetched e.1 (AntiSpam.runAll pf fetched act pre) e.2).verdict
          ≠ .flood) ∧
      (pre.length = cfg.max_messages →
        (AntiSpam.handleMessage pf fetched e.1 (AntiSpam.runAll pf fetched act pre) e.2).verdict
          = .flood ∧
        (AntiSpam.handleMessage pf fetched e.1 (AntiSpam.runAll pf fetched act pre) e.2).allowed
          = false)) ∧
    (∀ (pre : List (Int × Message)) (e : Int × Message),
      (∀ x ∈ pre ++ [e], FromUser cfg g u x.2) →
      List.Chain' (fun a b : Int × Message => a.1 + (cfg.time_window : Int) * 1000 < b.1)
        (pre ++ [e]) →
      (AntiSpam.handleMessage pf fetched e.1 (AntiSpam.runAll pf fetched act pre) e.2).verdict
        ≠ .flood) := by
  have hwin := windowMs_of_floor hW
  constructor
  · intro pre e hu hclose
    have he : FromUser cfg g u e.2 := hu e (by simp)
    have hmsgs : (userRun cfg (act g u) (pre.map eventEntry)).messages =
        (pre.map eventEntry).map (fun e => (⟨e.1, e.2⟩ : MsgEntry)) := by
      rw [userRun_messages_of_close cfg (windowMs cfg) (le_max_left _ _), hfresh, List.nil_append]
      · intro m hm
        rw [hfresh] at hm
        simp at hm
      · intro x hx y hy
        obtain ⟨x1, hx1, rfl⟩ := List.mem_map.1 hx
        obtain ⟨y1, hy1, rfl⟩ := List.mem_map.1 hy
        rw [hwin]
        exact hclose x1 (by simp [hx1]) y1 (by simp [hy1])
    have hcount : rateCount cfg (recordMessage cfg (userRun cfg (act g u) (pre.map eventEntry)) e.1
        (normalizeContent e.2.content)) e.1 = pre.length + 1 := by
      rw [rateCount_record_all, hmsgs]
      · simp
      · intro m hm
        rw [hmsgs] at hm
        simp only [List.map_map, List.mem_map, Function.comp] at hm
        obtain ⟨x, hx, rfl⟩ := hm
        rw [hwin]
        exact hclose e (by simp) x (by simp [hx])
    have hiff := handleMessage_flood_iff pf ha act pre e hu
    rw [hcount] at hiff
    refine ⟨fun hlt hfl => ?_, fun heq => ?_⟩
    · have := hiff.1 hfl
      omega
    · have hv := hiff.2 (by omega)
      refine ⟨hv, ?_⟩
      have hall := (handleMessage_active pf ha he e.1
        (AntiSpam.runAll pf fetched act pre)).2.2.1
      rw [(handleMessage_active pf ha he e.1 _).1] at hv
      rw [hall, hv]
      rfl
  · intro pre e hu hchain hfl
    have hiff := handleMessage_flood_iff pf ha act pre e hu
    have hcount : rateCount cfg (recordMessage cfg (userRun cfg (act g u) (pre.map eventEntry)) e.1
        (normalizeContent e.2.content)) e.1 = 1 := by
      apply rateCount_record_none
      intro m hm
      haveI : IsTrans (Int × Message)
          (fun a b : Int × Message => a.1 + (cfg.time_window : Int) * 1000 < b.1) :=
        ⟨fun a b c h1 h2 => by
          have : (0 : Int) ≤ (cfg.time_window : Int) * 1000 := by positivity
          show a.1 + (cfg.time_window : Int) * 1000 < c.1
          have h1' : a.1 + (cfg.time_window : Int) * 1000 < b.1 := h1
          have h2' : b.1 + (cfg.time_window : Int) * 1000 < c.1 := h2
          omega⟩
      have hpw := List.chain'_iff_pairwise.1 hchain
      rw [List.pairwise_append] at hpw
      rcases userRun_messages_origin cfg _ _ m hm with h | ⟨x, hx, hxt⟩
      · rw [hfresh] at h
        simp at h
      · obtain ⟨x1, hx1, rfl⟩ := List.mem_map.1 hx
        have := hpw.2.2 x1 hx1 e (by simp)
        rw [hwin, hxt]
        simp only [eventEntry]
        omega
    rw [hcount] at hiff
    have := hiff.1 hfl
    omega

theorem flood_rule_fires_exactly_past_max_messages_witness :
    (AntiSpam.handleMessage samplePlatform
        (sampleSpamSettings (sampleSpamFeature 1 5 3 5 5 "delete".toList)) 1000
        (AntiSpam.runAll samplePlatform
          (sampleSpamSettings (sampleSpamFeature 1 5 3 5 5 "delete".toList)) Activity.empty
          [(0, sampleMessage "hi".toList)])
        (sampleMessage "there".toList)).verdict = .flood ∧
      (AntiSpam.handleMessage samplePlatform
        (sampleSpamSettings (sampleSpamFeature 1 5 3 5 5 "delete".toList)) 5001
        (AntiSpam.runAll samplePlatform
          (sampleSpamSettings (sampleSpamFeature 1 5 3 5 5 "delete".toList)) Activity.empty
          [(0, sampleMessage "hi".toList)])
        (sampleMessage "there".toList)).verdict ≠ .flood :=
  have h := flood_rule_fires_exactly_past_max_messages samplePlatform
    (sampleSpamSettings (sampleSpamFeature 1 5 3 5 5 "delete".toList))
    (SpamCfg.ofFeature (sampleSpamFeature 1 5 3 5 5 "delete".toList)) "g1".toList "u1".toList
    Activity.empty ⟨_, _, rfl, rfl, rfl, rfl⟩ (by decide) (by decide) rfl
  ⟨((h.1 [(0, sampleMessage "hi".toList)] (1000, sampleMessage "there".toList)
      (by
        intro x hx
        simp only [List.cons_append, List.nil_append, List.mem_cons, List.mem_singleton,
          List.not_mem_nil, or_false] at hx
        rcases hx with rfl | rfl <;> exact ⟨rfl, rfl, by decide⟩)
      (by
        intro x hx y hy
        simp only [List.cons_append, List.nil_append, List.mem_cons, List.mem_singleton,
          List.not_mem_nil, or_false] at hx hy
        rcases hx with rfl | rfl <;> rcases hy with rfl | rfl <;> decide)).2 rfl).1,
    h.2 [(0, sampleMessage "hi".toList)] (5001, sampleMessage "there".toList)
      (by
        intro x hx
        simp only [List.cons_append, List.nil_append, List.mem_cons, List.mem_singleton,
          List.not_mem_nil, or_false] at hx
        rcases hx with rfl | rfl <;> exact ⟨rfl, rfl, by decide⟩)
      (by
        simp only [List.cons_append, List.nil_append, List.chain'_cons, List.chain'_singleton,
          and_true]
        decide)⟩

/-! ## Anti-spam: duplicates -/

theorem spamRules_verdict_duplicate (cfg : SpamCfg) (now : Int) (st : UserState) (c : JSString) :
    (spamRules cfg now st c).1 = .duplicate ↔
      ¬ rateCount cfg (recordMessage cfg st now c) now > cfg.max_messages ∧ c ≠ [] ∧
        dupCount (recordMessage cfg st now c) now c ≥ cfg.duplicate_threshold := by
  unfold spamRules
  simp only []
  split_ifs with h1 h2 h3 h4
  · simp [h1]
  · simp [h1, h2.1, h2.2]
  · simp only [reduceCtorEq, false_iff]
    tauto
  · split <;> simp only [reduceCtorEq, false_iff] <;> tauto
  · simp only [reduceCtorEq, false_iff]
    tauto

theorem dupCount_record_all (cfg : SpamCfg) (st : UserState) (now : Int) (c : JSString)
    (h : ∀ m ∈ st.messages, now - m.t ≤ 30000) :
    dupCount (recordMessage cfg st now c) now c =
      (st.messages.filter (fun m => m.c = c)).length + 1 := by
  have hw := windowMs_nonneg cfg
  have h1 : ∀ m ∈ st.messages ++ [(⟨now, c⟩ : MsgEntry)], now - m.t ≤ 30000 := by
    intro m hm
    rcases List.mem_append.1 hm with hm | hm
    · exact h m hm
    · simp only [List.mem_singleton] at hm
      subst hm
      simp
  have e1 : (st.messages ++ [(⟨now, c⟩ : MsgEntry)]).filter
      (fun m => now - m.t ≤ max (windowMs cfg) 30000) = st.messages ++ [⟨now, c⟩] := by
    rw [List.filter_eq_self]
    intro m hm
    simpa using le_trans (h1 m hm) (le_max_right _ _)
  have e2 : (st.messages ++ [(⟨now, c⟩ : MsgEntry)]).filter (fun m => now - m.t ≤ 30000) =
      st.messages ++ [⟨now, c⟩] := by
    rw [List.filter_eq_self]
    intro m hm
    simpa using h1 m hm
  unfold dupCount recordMessage pruneOld
  simp only []
  rw [e1, e2]
  simp [List.filter_append]

/-- C2. Duplicate rule. For a non-whitelisted user of a guild with anti-spam
enabled and no earlier recorded message, and a non-empty normalized content
`c`: when the messages handled so far and the current one all lie within 30
seconds of each other and the current one is the `k`-th with content `c`, the
duplicate rule does not fire while `k` is below `duplicate_threshold`, and
for `k = duplicate_threshold` it fires and the message is blocked, unless the
flood rule fired on that message. -/
theorem duplicate_rule_fires_on_threshold (pf : Platform) (fetched : Fetched)
    (cfg : SpamCfg) (g u : JSString) (act : Activity) (c : JSString)
    (pre : List (Int × Message)) (e : Int × Message)
    (ha : SpamActive fetched cfg) (hfresh : (act g u).messages = []) (hc : c ≠ [])
    (hu : ∀ x ∈ pre ++ [e], FromUser cfg g u x.2)
    (hclose : ∀ x ∈ pre ++ [e], ∀ y ∈ pre ++ [e], x.1 - y.1 ≤ 30000)
    (hec : normalizeContent e.2.content = c) :
    ((pre.filter (fun x => normalizeContent x.2.content = c)).length + 1 < cfg.duplicate_threshold →
      (AntiSpam.handleMessage pf fetched e.1 (AntiSpam.runAll pf fetched act pre) e.2).verdict
        ≠ .duplicate) ∧
    ((pre.filter (fun x => normalizeContent x.2.content = c)).length + 1 = cfg.duplicate_threshold →
      (AntiSpam.handleMessage pf fetched e.1 (AntiSpam.runAll pf fetched act pre) e.2).verdict
        ≠ .flood →
      (AntiSpam.handleMessage pf fetched e.1 (AntiSpam.runAll pf fetched act pre) e.2).verdict
        = .duplicate ∧
      (AntiSpam.handleMessage pf fetched e.1 (AntiSpam.runAll pf fetched act pre) e.2).allowed
        = false) := by
  have he : FromUser cfg g u e.2 := hu e (by simp)
  have hpre : ∀ x ∈ pre, FromUser cfg g u x.2 := fun x hx => hu x (by simp [hx])
  have hmsgs : (userRun cfg (act g u) (pre.map eventEntry)).messages =
      (pre.map eventEntry).map (fun e => (⟨e.1, e.2⟩ : MsgEntry)) := by
    rw [userRun_messages_of_close cfg 30000 (le_max_right _ _), hfresh, List.nil_append]
    · intro m hm
      rw [hfresh] at hm
      simp at hm
    · intro x hx y hy
      obtain ⟨x1, hx1, rfl⟩ := List.mem_map.1 hx
      obtain ⟨y1, hy1, rfl⟩ := List.mem_map.1 hy
      exact hclose x1 (by simp [hx1]) y1 (by simp [hy1])
  have hcount : dupCount (recordMessage cfg (userRun cfg (act g u) (pre.map eventEntry)) e.1 c)
      e.1 c = (pre.filter (fun x => normalizeContent x.2.content = c)).length + 1 := by
    rw [dupCount_record_all, hmsgs]
    · simp only [List.map_map, List.filter_map, List.length_map]
      rfl
    · intro m hm
      rw [hmsgs] at hm
      simp only [List.map_map, List.mem_map, Function.comp] at hm
      obtain ⟨x, hx, rfl⟩ := hm
      exact hclose e (by simp) x (by simp [hx])
  have hv := (handleMessage_active pf ha he e.1 (AntiSpam.runAll pf fetched act pre)).1
  have hal := (handleMessage_active pf ha he e.1 (AntiSpam.runAll pf fetched act pre)).2.2.1
  rw [runAll_user ha pre act hpre, hec] at hv hal
  rw [hv, hal]
  have hdup := spamRules_verdict_duplicate cfg e.1 (userRun cfg (act g u) (pre.map eventEntry)) c
  have hfl := spamRules_verdict_flood cfg e.1 (userRun cfg (act g u) (pre.map eventEntry)) c
  rw [hcount] at hdup
  refine ⟨fun hlt hd => ?_, fun heq hnf => ?_⟩
  · have := (hdup.1 hd).2.2
    omega
  · have hd : (spamRules cfg e.1 (userRun cfg (act g u) (pre.map eventEntry)) c).1 = .duplicate :=
      hdup.2 ⟨fun h => hnf (hfl.2 h), hc, by omega⟩
    rw [hd]
    exact ⟨rfl, rfl⟩

theorem duplicate_rule_fires_on_threshold_witness :
    (AntiSpam.handleMessage samplePlatform
        (sampleSpamSettings (sampleSpamFeature 5 5 2 5 5 "delete".toList)) 1000
        (AntiSpam.runAll samplePlatform
          (sampleSpamSettings (sampleSpamFeature 5 5 2 5 5 "delete".toList)) Activity.empty
          [(0, sampleMessage "buy now".toList)])
        (sampleMessage " buy now ".toList)).verdict = .duplicate ∧
      (AntiSpam.handleMessage samplePlatform
        (sampleSpamSettings (sampleSpamFeature 5 5 2 5 5 "delete".toList)) 1000
        (AntiSpam.runAll samplePlatform
          (sampleSpamSettings (sampleSpamFeature 5 5 2 5 5 "delete".toList)) Activity.empty
          [(0, sampleMessage "buy now".toList)])
        (sampleMessage " buy now ".toList)).allowed = false :=
  (duplicate_rule_fires_on_threshold samplePlatform
    (sampleSpamSettings (sampleSpamFeature 5 5 2 5 5 "delete".toList))
    (SpamCfg.ofFeature (sampleSpamFeature 5 5 2 5 5 "delete".toList)) "g1".toList "u1".toList
    Activity.empty "buy now".toList [(0, sampleMessage "buy now".toList)]
    (1000, sampleMessage " buy now ".toList) ⟨_, _, rfl, rfl, rfl, rfl⟩ rfl (by decide)
    (by
      intro x hx
      simp only [List.cons_append, List.nil_append, List.mem_cons, List.mem_singleton,
        List.not_mem_nil, or_false] at hx
      rcases hx with rfl | rfl <;> exact ⟨rfl, rfl, by decide⟩)
    (by
      intro x hx y hy
      simp only [List.cons_append, List.nil_append, List.mem_cons, List.mem_singleton,
        List.not_mem_nil, or_false] at hx hy
      rcases hx with rfl | rfl <;> rcases hy with rfl | rfl <;> decide)
    (by decide)).2 (by decide) (by decide)

/-! ## Anti-spam: normalization -/

theorem dropWhile_ws_append_left (ws l : JSString) (h : ∀ c ∈ ws, isJSWhitespace c = true) :
    (ws ++ l).dropWhile isJSWhitespace = l.dropWhile isJSWhitespace := by
  rw [List.dropWhile_append, List.dropWhile_eq_nil_iff.2 h]
  rfl

theorem jsTrim_drop_right (l ws : JSString) (h : ∀ c ∈ ws, isJSWhitespace c = true) :
    ((l ++ ws).reverse.dropWhile isJSWhitespace).reverse =
      (l.reverse.dropWhile isJSWhitespace).reverse := by
  rw [List.reverse_append, dropWhile_ws_append_left]
  intro c hc
  exact h c (List.mem_reverse.1 hc)

theorem jsTrim_pad (ws1 ws2 s : JSString) (h1 : ∀ c ∈ ws1, isJSWhitespace c = true)
    (h2 : ∀ c ∈ ws2, isJSWhitespace c = true) : jsTrim (ws1 ++ s ++ ws2) = jsTrim s := by
  unfold jsTrim
  rw [List.append_assoc, dropWhile_ws_append_left _ _ h1]
  induction s with
  | nil =>
    rw [List.nil_append, List.dropWhile_eq_nil_iff.2 h2]
    rfl
  | cons x xs ih =>
    rw [List.cons_append, List.dropWhile_cons, List.dropWhile_cons]
    split_ifs with hx
    · exact ih
    · exact jsTrim_drop_right (x :: xs) ws2 h2

theorem recordMessage_mem_new (cfg : SpamCfg) (st : UserState) (now : Int) (c : JSString) :
    (⟨now, c⟩ : MsgEntry) ∈ (recordMessage cfg st now c).messages := by
  unfold recordMessage pruneOld
  simp only [List.mem_filter, List.mem_append, List.mem_singleton, or_true, sub_self,
    decide_eq_true_eq, true_and]
  exact le_trans (windowMs_nonneg cfg) (le_max_left _ _)

theorem dupCount_two_of_close (cfg : SpamCfg) (st : UserState) (t1 t2 : Int) (c : JSString)
    (h : t2 - t1 ≤ 30000) :
    2 ≤ dupCount (recordMessage cfg (recordMessage cfg st t1 c) t2 c) t2 c := by
  have hw := windowMs_nonneg cfg
  have hsub : List.Sublist [(⟨t1, c⟩ : MsgEntry), ⟨t2, c⟩]
      ((recordMessage cfg st t1 c).messages ++ [(⟨t2, c⟩ : MsgEntry)]) :=
    List.Sublist.append (List.singleton_sublist.2 (recordMessage_mem_new cfg st t1 c))
      (List.Sublist.refl _)
  have h3 := ((hsub.filter (fun m => decide (t2 - m.t ≤ max (windowMs cfg) 30000))).filter
    (fun m => decide (t2 - m.t ≤ 30000))).filter (fun m => decide (m.c = c))
  have hlen := h3.length_le
  have hmax : t2 - t1 ≤ max (windowMs cfg) 30000 := le_trans h (le_max_right _ _)
  have hmax0 : (0 : Int) ≤ max (windowMs cfg) 30000 := le_trans hw (le_max_left _ _)
  simp only [List.filter_cons, List.filter_nil, hmax, h, sub_self, hmax0, decide_True,
    if_true, List.length_cons, List.length_nil] at hlen
  unfold dupCount
  simpa [recordMessage, pruneOld] using hlen

/-- C3, counterexample. Two texts that differ only in letter case, and two that
differ only in inner white space, have different normalized contents, and the
second message of such a pair is not counted as a repeat of the first: with
`duplicate_threshold = 2` it passes. -/
theorem normalization_keeps_case_and_inner_space :
    toLowerCase "Hello".toList = toLowerCase "hello".toList ∧
      normalizeContent (some "Hello".toList) ≠ normalizeContent (some "hello".toList) ∧
      (AntiSpam.handleMessage samplePlatform
        (sampleSpamSettings (sampleSpamFeature 5 5 2 5 5 "delete".toList)) 1000
        (AntiSpam.runAll samplePlatform
          (sampleSpamSettings (sampleSpamFeature 5 5 2 5 5 "delete".toList)) Activity.empty
          [(0, sampleMessage "hello".toList)])
        (sampleMessage "Hello".toList)).allowed = true ∧
      "a b".toList.filter (fun c => !isJSWhitespace c) =
        "a  b".toList.filter (fun c => !isJSWhitespace c) ∧
      normalizeContent (some "a b".toList) ≠ normalizeContent (some "a  b".toList) ∧
      (AntiSpam.handleMessage samplePlatform
        (sampleSpamSettings (sampleSpamFeature 5 5 2 5 5 "delete".toList)) 1000
        (AntiSpam.runAll samplePlatform
          (sampleSpamSettings (sampleSpamFeature 5 5 2 5 5 "delete".toList)) Activity.empty
          [(0, sampleMessage "a b".toList)])
        (sampleMessage "a  b".toList)).allowed = true := by
  refine ⟨?_, ?_, ?_, ?_, ?_, ?_⟩ <;> decide

/-- C3, amended. Two message texts that differ only in leading and trailing
white space have the same normalized content, and each counts toward the
duplicate count of the other: whichever of the two is recorded first, when the
other follows within 30 seconds its duplicate count is at least 2. -/
theorem normalization_collapses_outer_whitespace (ws1 ws2 s : JSString)
    (h1 : ∀ c ∈ ws1, isJSWhitespace c = true) (h2 : ∀ c ∈ ws2, isJSWhitespace c = true) :
    normalizeContent (some (ws1 ++ s ++ ws2)) = normalizeContent (some s) ∧
    ∀ (cfg : SpamCfg) (st : UserState) (t1 t2 : Int), t2 - t1 ≤ 30000 →
      2 ≤ dupCount
          (recordMessage cfg (recordMessage cfg st t1 (normalizeContent (some (ws1 ++ s ++ ws2))))
            t2 (normalizeContent (some s)))
          t2 (normalizeContent (some s)) ∧
      2 ≤ dupCount
          (recordMessage cfg (recordMessage cfg st t1 (normalizeContent (some s)))
            t2 (normalizeContent (some (ws1 ++ s ++ ws2))))
          t2 (normalizeContent (some (ws1 ++ s ++ ws2))) := by
  have heq : normalizeContent (some (ws1 ++ s ++ ws2)) = normalizeContent (some s) := by
    simp only [normalizeContent, Option.getD_some, jsTrim_pad ws1 ws2 s h1 h2]
  refine ⟨heq, fun cfg st t1 t2 h => ?_⟩
  rw [heq]
  exact ⟨dupCount_two_of_close cfg st t1 t2 _ h, dupCount_two_of_close cfg st t1 t2 _ h⟩

theorem normalization_collapses_outer_whitespace_witness :
    normalizeContent (some (" \t".toList ++ "Buy now".toList ++ "\n".toList)) =
      normalizeContent (some "Buy now".toList) :=
  (normalization_collapses_outer_whitespace " \t".toList "\n".toList "Buy now".toList
    (by decide) (by decide)).1

/-! ## Anti-spam: mentions -/

theorem spamRules_verdict_mentions (cfg : SpamCfg) (now : Int) (st : UserState) (c : JSString)
    (n : Nat) :
    (spamRules cfg now st c).1 = .mentions n ↔
      (spamRules cfg now st c).1 ≠ .flood ∧ (spamRules cfg now st c).1 ≠ .duplicate ∧
        mentionCount c > cfg.mentions_per_message ∧ n = mentionCount c := by
  unfold spamRules
  simp only []
  split_ifs with h1 h2 h3 h4
  · simp
  · simp
  · simp only [Verdict.mentions.injEq, ne_eq, reduceCtorEq, not_false_eq_true, true_and]
    constructor
    · intro h
      exact ⟨h3, h.symm⟩
    · intro h
      exact h.2.symm
  · split <;> simp only [reduceCtorEq, false_iff] <;> tauto
  · simp only [reduceCtorEq, false_iff]
    tauto

/-- C4. Mentions rule. What is counted are the occurrences, in the normalized
content, of user mentions `<@id>` and `<@!id>`, of role mentions `<@&id>` (ids
of 17 to 20 digits) and of the literals `@everyone` and `@here`; each occurrence
counts on its own, also when it repeats an earlier one. For a non-whitelisted
user of a guild with anti-spam enabled: a message with exactly
`mentions_per_message` occurrences does not fire the mentions rule, and a
message with one more, on which neither the flood nor the duplicate rule fired,
is blocked by the mentions rule. -/
theorem mentions_rule_blocks_above_limit (pf : Platform) (fetched : Fetched) (cfg : SpamCfg)
    (g u : JSString) (now : Int) (act : Activity) (m : Message)
    (ha : SpamActive fetched cfg) (hu : FromUser cfg g u m) :
    (mentionCount (normalizeContent m.content) = cfg.mentions_per_message →
      ∀ n, (AntiSpam.handleMessage pf fetched now act m).verdict ≠ .mentions n) ∧
    (mentionCount (normalizeContent m.content) = cfg.mentions_per_message + 1 →
      (AntiSpam.handleMessage pf fetched now act m).verdict ≠ .flood →
      (AntiSpam.handleMessage pf fetched now act m).verdict ≠ .duplicate →
      (AntiSpam.handleMessage pf fetched now act m).verdict
          = .mentions (cfg.mentions_per_message + 1) ∧
        (AntiSpam.handleMessage pf fetched now act m).allowed = false) ∧
    (∀ c, mentionCount c =
      (userMentionMatches c).length + (roleMentionMatches c).length +
        (everyoneMatches c).length) ∧
    (userMentionMatches
        "hi <@123456789012345678>, <@!12345678901234567890> and <@&123456789012345678>".toList =
      ["<@123456789012345678>".toList, "<@!12345678901234567890>".toList] ∧
      roleMentionMatches
        "hi <@123456789012345678>, <@&12345678901234567> and <@&123456789012345678>".toList =
      ["<@&12345678901234567>".toList, "<@&123456789012345678>".toList] ∧
      everyoneMatches "@here @everyone, <@123456789012345678> @here".toList =
      ["@here".toList, "@everyone".toList, "@here".toList]) ∧
    (mentionCount "<@123456789012345678> <@&123456789012345678> @everyone @here".toList = 4 ∧
      mentionCount "@everyone@everyone <@&123456789012345678><@&123456789012345678>".toList = 4 ∧
      mentionCount "<@&1234567890123456> <@&123456789012345678901> @Everyone @ here".toList
        = 0) := by
  have hv := (handleMessage_active pf ha hu now act).1
  have hal := (handleMessage_active pf ha hu now act).2.2.1
  rw [hv, hal]
  refine ⟨fun heq n hn => ?_, fun heq hnf hnd => ?_, fun _ => rfl, ?_, ?_⟩
  · have := ((spamRules_verdict_mentions cfg now _ _ n).1 hn).2.2.1
    omega
  · have hm := (spamRules_verdict_mentions cfg now (act g u) (normalizeContent m.content)
      (cfg.mentions_per_message + 1)).2 ⟨hnf, hnd, by omega, heq.symm⟩
    rw [hm]
    exact ⟨rfl, rfl⟩
  · refine ⟨?_, ?_, ?_⟩ <;> decide
  · refine ⟨?_, ?_, ?_⟩ <;> decide

theorem mentions_rule_blocks_above_limit_witness :
    ((AntiSpam.handleMessage samplePlatform
        (sampleSpamSettings (sampleSpamFeature 5 5 3 4 5 "delete".toList)) 0 Activity.empty
        (sampleMessage
          "<@123456789012345678> <@!123456789012345678> <@&123456789012345678> @everyone @here".toList)).verdict
          = .mentions 5 ∧
      (AntiSpam.handleMessage samplePlatform
        (sampleSpamSettings (sampleSpamFeature 5 5 3 4 5 "delete".toList)) 0 Activity.empty
        (sampleMessage
          "<@123456789012345678> <@!123456789012345678> <@&123456789012345678> @everyone @here".toList)).allowed
          = false) ∧
      (∀ n, (AntiSpam.handleMessage samplePlatform
        (sampleSpamSettings (sampleSpamFeature 5 5 3 5 5 "delete".toList)) 0 Activity.empty
        (sampleMessage
          "<@123456789012345678> <@!123456789012345678> <@&123456789012345678> @everyone @here".toList)).verdict
          ≠ .mentions n) :=
  ⟨(mentions_rule_blocks_above_limit samplePlatform
    (sampleSpamSettings (sampleSpamFeature 5 5 3 4 5 "delete".toList))
    (SpamCfg.ofFeature (sampleSpamFeature 5 5 3 4 5 "delete".toList)) "g1".toList "u1".toList 0
    Activity.empty
    (sampleMessage
      "<@123456789012345678> <@!123456789012345678> <@&123456789012345678> @everyone @here".toList)
    ⟨_, _, rfl, rfl, rfl, rfl⟩ ⟨rfl, rfl, by decide⟩).2.1 (by decide) (by decide) (by decide),
   (mentions_rule_blocks_above_limit samplePlatform
    (sampleSpamSettings (sampleSpamFeature 5 5 3 5 5 "delete".toList))
    (SpamCfg.ofFeature (sampleSpamFeature 5 5 3 5 5 "delete".toList)) "g1".toList "u1".toList 0
    Activity.empty
    (sampleMessage
      "<@123456789012345678> <@!123456789012345678> <@&123456789012345678> @everyone @here".toList)
    ⟨_, _, rfl, rfl, rfl, rfl⟩ ⟨rfl, rfl, by decide⟩).1 (by decide)⟩

/-! ## Anti-spam: tagging the same target -/

theorem tagLoop_cons (now : Int) (T : Nat) (uid : JSString) (rest : List JSString)
    (h : TagHistory) :
    tagLoop now T (uid :: rest) h =
      if ((tagGet h uid ++ [now]).filter (fun t => now - t ≤ TAG_WINDOW)).length > T then
        (some uid, tagSet h uid ((tagGet h uid ++ [now]).filter (fun t => now - t ≤ TAG_WINDOW)))
      else
        tagLoop now T rest
          (tagSet h uid ((tagGet h uid ++ [now]).filter (fun t => now - t ≤ TAG_WINDOW))) := rfl

theorem pruned_push (now : Int) (l : List Int) :
    (l ++ [now]).filter (fun t => now - t ≤ TAG_WINDOW) =
      l.filter (fun t => now - t ≤ TAG_WINDOW) ++ [now] := by
  simp [List.filter_append, TAG_WINDOW]

/-- Tags older than the tag window have no influence on the loop of rule 4. -/
theorem tagLoop_old_tags_ignored (now : Int) (T : Nat) :
    ∀ (ids : List JSString) (h h1 : TagHistory),
      (∀ k, (h k).filter (fun t => now - t ≤ TAG_WINDOW) =
        (h1 k).filter (fun t => now - t ≤ TAG_WINDOW)) →
      (tagLoop now T ids h).1 = (tagLoop now T ids h1).1 := by
  intro ids
  induction ids with
  | nil => intro h h1 _; rfl
  | cons uid rest ih =>
    intro h h1 heq
    have hp : (tagGet h uid ++ [now]).filter (fun t => now - t ≤ TAG_WINDOW) =
        (tagGet h1 uid ++ [now]).filter (fun t => now - t ≤ TAG_WINDOW) := by
      rw [pruned_push, pruned_push]
      simp only [tagGet, heq uid]
    rw [tagLoop_cons, tagLoop_cons, hp]
    split_ifs with hfire
    · rfl
    · apply ih
      intro k
      simp only [tagSet]
      split_ifs
      · rfl
      · exact heq k

theorem tagLoop_fired_mem (now : Int) (T : Nat) (uid : JSString) :
    ∀ (ids : List JSString) (h : TagHistory), (tagLoop now T ids h).1 = some uid → uid ∈ ids := by
  intro ids
  induction ids with
  | nil => intro h hf; simp [tagLoop] at hf
  | cons x rest ih =>
    intro h hf
    rw [tagLoop_cons] at hf
    split_ifs at hf with hfire
    · simp only [Option.some.injEq] at hf
      simp [hf]
    · exact List.mem_cons_of_mem _ (ih _ hf)

/-- When the loop of rule 4 ends without firing, every mentioned target has
gained one tag per occurrence on top of its tags still in the window, and
none of these totals exceeds the threshold. -/
theorem tagLoop_none (now : Int) (T : Nat) :
    ∀ (ids : List JSString) (h : TagHistory), (tagLoop now T ids h).1 = none →
      ∀ k, (tagLoop now T ids h).2 k =
          (if k ∈ ids then
            (h k).filter (fun t => now - t ≤ TAG_WINDOW) ++ List.replicate (ids.count k) now
          else h k) ∧
        (k ∈ ids → ((h k).filter (fun t => now - t ≤ TAG_WINDOW)).length + ids.count k ≤ T) := by
  intro ids
  induction ids with
  | nil => intro h _ k; simp [tagLoop]
  | cons uid rest ih =>
    intro h hn k
    rw [tagLoop_cons] at hn ⊢
    rw [pruned_push] at hn ⊢
    by_cases hfire :
        ((tagGet h uid).filter (fun t => now - t ≤ TAG_WINDOW) ++ [now]).length > T
    · rw [if_pos hfire] at hn
      simp at hn
    rw [if_neg hfire] at hn ⊢
    simp only [tagGet] at hn hfire ⊢
    have hrec := ih _ hn k
    simp only [List.length_append, List.length_singleton, not_lt] at hfire
    by_cases hk : k = uid
    · subst hk
      have hset : tagSet h k ((h k).filter (fun t => now - t ≤ TAG_WINDOW) ++ [now]) k =
          (h k).filter (fun t => now - t ≤ TAG_WINDOW) ++ [now] := by simp [tagSet]
      have hidem : ((h k).filter (fun t => now - t ≤ TAG_WINDOW) ++ [now]).filter
          (fun t => now - t ≤ TAG_WINDOW) = (h k).filter (fun t => now - t ≤ TAG_WINDOW) ++ [now] := by
        simp [List.filter_append, List.filter_filter, TAG_WINDOW]
      rw [hset, hidem] at hrec
      simp only [List.mem_cons, true_or, if_true, List.count_cons_self, forall_true_left]
      by_cases hmem : k ∈ rest
      · simp only [hmem, if_true, forall_true_left] at hrec
        refine ⟨?_, ?_⟩
        · rw [hrec.1, List.append_assoc, List.singleton_append, ← List.replicate_succ]
        · have := hrec.2
          simp only [List.length_append, List.length_singleton] at this
          omega
      · simp only [hmem, if_false] at hrec
        rw [List.count_eq_zero_of_not_mem hmem]
        refine ⟨?_, ?_⟩
        · rw [hrec.1]
          rfl
        · omega
    · have hset : tagSet h uid ((h uid).filter (fun t => now - t ≤ TAG_WINDOW) ++ [now]) k = h k := by
        simp [tagSet, hk]
      rw [hset] at hrec
      have hc : (uid :: rest).count k = rest.count k := by
        rw [List.count_cons_of_ne hk]
      simp only [List.mem_cons, hk, false_or, hc]
      exact hrec

theorem mentionedUserIds_eq_nil_iff (c : JSString) :
    mentionedUserIds c = [] ↔ (userMentionMatches c).length = 0 := by
  simp [mentionedUserIds, userMentionMatches]

theorem sameUserThreshold_pos (cfg : SpamCfg) : sameUserThreshold cfg > 0 := by
  unfold sameUserThreshold
  exact lt_of_lt_of_le Nat.one_pos (le_max_left _ _)

theorem spamRules_verdict_rule4 (cfg : SpamCfg) (now : Int) (st : UserState) (c : JSString)
    (h1 : (spamRules cfg now st c).1 ≠ .flood) (h2 : (spamRules cfg now st c).1 ≠ .duplicate)
    (h3 : ∀ n, (spamRules cfg now st c).1 ≠ .mentions n) :
    (spamRules cfg now st c).1 =
      match (tagLoop now (sameUserThreshold cfg) (mentionedUserIds c) st.tagHistory).1 with
      | some uid => .sameTarget uid
      | none => .pass := by
  revert h1 h2 h3
  unfold spamRules
  simp only []
  split_ifs with g1 g2 g3 g4
  · intro h1; exact absurd rfl h1
  · intro _ h2; exact absurd rfl h2
  · intro _ _ h3; exact absurd rfl (h3 _)
  · intro _ _ _
    have : (recordMessage cfg st now c).tagHistory = st.tagHistory := rfl
    rw [this]
    split <;> rename_i heq <;> simp [heq]
  · intro _ _ _
    have hnil : mentionedUserIds c = [] := by
      rw [mentionedUserIds_eq_nil_iff]
      have := sameUserThreshold_pos cfg
      simp only [gt_iff_lt, not_and, not_lt, Nat.le_zero] at g4
      exact g4 this
    rw [hnil]
    rfl

theorem spamRules_pass_tagHistory (cfg : SpamCfg) (now : Int) (st : UserState) (c : JSString)
    (hp : (spamRules cfg now st c).1 = .pass) (k : JSString) :
    (spamRules cfg now st c).2.tagHistory k =
      if mentionedUserIds c = [] then st.tagHistory k
      else (st.tagHistory k).filter (fun t => now - t ≤ TAG_WINDOW) ++
        List.replicate ((mentionedUserIds c).count k) now := by
  have hrec : (recordMessage cfg st now c).tagHistory = st.tagHistory := rfl
  unfold spamRules at hp ⊢
  simp only [] at hp ⊢
  by_cases g1 : rateCount cfg (recordMessage cfg st now c) now > cfg.max_messages
  · rw [if_pos g1] at hp
    simp at hp
  rw [if_neg g1] at hp ⊢
  by_cases g2 : c ≠ [] ∧ dupCount (recordMessage cfg st now c) now c ≥ cfg.duplicate_threshold
  · rw [if_pos g2] at hp
    simp at hp
  rw [if_neg g2] at hp ⊢
  by_cases g3 : mentionCount c > cfg.mentions_per_message
  · rw [if_pos g3] at hp
    simp at hp
  rw [if_neg g3] at hp ⊢
  by_cases g4 : sameUserThreshold cfg > 0 ∧ (userMentionMatches c).length > 0
  · rw [if_pos g4] at hp ⊢
    have hne : ¬ mentionedUserIds c = [] := by
      rw [mentionedUserIds_eq_nil_iff]
      omega
    rw [if_neg hne]
    rw [hrec] at hp ⊢
    cases heq : tagLoop now (sameUserThreshold cfg) (mentionedUserIds c) st.tagHistory with
    | mk fired h =>
      rw [heq] at hp
      cases fired with
      | some uid => simp at hp
      | none =>
        have hn : (tagLoop now (sameUserThreshold cfg) (mentionedUserIds c) st.tagHistory).1 =
            none := by rw [heq]
        have hh := (tagLoop_none now _ _ _ hn k).1
        rw [heq] at hh
        simp only [] at hh
        simp only [pruneTagHistory, hh]
        split_ifs with hk
        · simp [List.filter_append, List.filter_filter, TAG_WINDOW]
        · simp [List.count_eq_zero_of_not_mem hk]
  · rw [if_neg g4]
    have hnil : mentionedUserIds c = [] := by
      rw [mentionedUserIds_eq_nil_iff]
      have := sameUserThreshold_pos cfg
      simp only [gt_iff_lt, not_and, not_lt, Nat.le_zero] at g4
      exact g4 this
    rw [if_pos hnil]
    rfl

theorem allAllowed_user (pf : Platform) {fetched : Fetched} {cfg : SpamCfg} {g u : JSString}
    (ha : SpamActive fetched cfg) :
    ∀ (evs : List (Int × Message)) (act : Activity), (∀ x ∈ evs, FromUser cfg g u x.2) →
      AntiSpam.allAllowed pf fetched act evs = allPass cfg (act g u) (evs.map eventEntry) := by
  intro evs
  induction evs with
  | nil => intro act _; rfl
  | cons e rest ih =>
    intro act h
    obtain ⟨now, m⟩ := e
    have hm : FromUser cfg g u m := h (now, m) (List.mem_cons_self _ _)
    have hact := handleMessage_active pf ha hm now act
    simp only [AntiSpam.allAllowed, List.map_cons, allPass, eventEntry]
    rw [ih _ (fun x hx => h x (List.mem_cons_of_mem _ hx)), hact.2.1, hact.2.2.1,
      Activity.set_same]

/-- While every message passes and all of them lie within the tag window of
each other, the history of a target grows by one entry per occurrence. -/
theorem userRun_tags (cfg : SpamCfg) (v : JSString) :
    ∀ (evs : List (Int × JSString)) (st : UserState), allPass cfg st evs = true →
      (∀ t ∈ st.tagHistory v, ∀ e ∈ evs, e.1 - t ≤ TAG_WINDOW) →
      (∀ x ∈ evs, ∀ y ∈ evs, x.1 - y.1 ≤ TAG_WINDOW) →
      ∃ L, (userRun cfg st evs).tagHistory v = st.tagHistory v ++ L ∧
        L.length = (evs.map (fun x => (mentionedUserIds x.2).count v)).sum ∧
        ∀ t ∈ L, ∃ x ∈ evs, t = x.1 := by
  intro evs
  induction evs with
  | nil => intro st _ _ _; exact ⟨[], by simp [userRun]⟩
  | cons e rest ih =>
    intro st hall h1 h2
    obtain ⟨now, c⟩ := e
    simp only [allPass, Bool.and_eq_true, decide_eq_true_eq] at hall
    have hstep : (spamRules cfg now st c).2.tagHistory v =
        st.tagHistory v ++ List.replicate ((mentionedUserIds c).count v) now := by
      rw [spamRules_pass_tagHistory cfg now st c hall.1 v]
      split_ifs with hnil
      · simp [hnil]
      · rw [List.filter_eq_self.2]
        intro t ht
        simpa using h1 t ht (now, c) (List.mem_cons_self _ _)
    have h1' : ∀ t ∈ (spamRules cfg now st c).2.tagHistory v, ∀ e ∈ rest, e.1 - t ≤ TAG_WINDOW := by
      intro t ht e he
      rw [hstep] at ht
      rcases List.mem_append.1 ht with ht | ht
      · exact h1 t ht e (List.mem_cons_of_mem _ he)
      · rw [List.eq_of_mem_replicate ht]
        exact h2 e (List.mem_cons_of_mem _ he) (now, c) (List.mem_cons_self _ _)
    obtain ⟨L, hL, hlen, hmem⟩ := ih _ hall.2 h1'
      (fun x hx y hy => h2 x (List.mem_cons_of_mem _ hx) y (List.mem_cons_of_mem _ hy))
    refine ⟨List.replicate ((mentionedUserIds c).count v) now ++ L, ?_, ?_, ?_⟩
    · simp only [userRun]
      rw [hL, hstep, List.append_assoc]
    · simp [hlen]
    · intro t ht
      rcases List.mem_append.1 ht with ht | ht
      · exact ⟨(now, c), List.mem_cons_self _ _, List.eq_of_mem_replicate ht⟩
      · obtain ⟨x, hx, hxt⟩ := hmem t ht
        exact ⟨x, List.mem_cons_of_mem _ hx, hxt⟩

theorem handleMessage_active_actions (pf : Platform) {fetched : Fetched} {cfg : SpamCfg}
    {g u : JSString} {m : Message} (ha : SpamActive fetched cfg) (hu : FromUser cfg g u m)
    (now : Int) (act : Activity) :
    (AntiSpam.handleMessage pf fetched now act m).actions =
      if (spamRules cfg now (act g u) (normalizeContent m.content)).1 = .pass then []
      else AntiSpam.handleViolation pf m
        ((spamRules cfg now (act g u) (normalizeContent m.content)).1.punishment cfg)
        (spamRules cfg now (act g u) (normalizeContent m.content)).1.reason := by
  obtain ⟨settings, feature, rfl, hs, he, rfl⟩ := ha
  obtain ⟨hg, hau, hw⟩ := hu
  unfold AntiSpam.handleMessage
  simp only [hg, hau, hs, he, hw, Option.bind]
  cases h : (spamRules (SpamCfg.ofFeature feature) now (act g u) (normalizeContent m.content)).1 <;>
    simp

theorem spamRules_verdict_eq (cfg : SpamCfg) (now : Int) (st : UserState) (c : JSString) :
    (spamRules cfg now st c).1 =
      if rateCount cfg (recordMessage cfg st now c) now > cfg.max_messages then .flood
      else if c ≠ [] ∧ dupCount (recordMessage cfg st now c) now c ≥ cfg.duplicate_threshold then
        .duplicate
      else if mentionCount c > cfg.mentions_per_message then .mentions (mentionCount c)
      else
        match (tagLoop now (sameUserThreshold cfg) (mentionedUserIds c) st.tagHistory).1 with
        | some uid => .sameTarget uid
        | none => .pass := by
  by_cases g1 : rateCount cfg (recordMessage cfg st now c) now > cfg.max_messages
  · rw [if_pos g1]
    exact (spamRules_verdict_flood cfg now st c).2 g1
  rw [if_neg g1]
  by_cases g2 : c ≠ [] ∧ dupCount (recordMessage cfg st now c) now c ≥ cfg.duplicate_threshold
  · rw [if_pos g2]
    exact (spamRules_verdict_duplicate cfg now st c).2 ⟨g1, g2⟩
  rw [if_neg g2]
  have hnf : (spamRules cfg now st c).1 ≠ .flood :=
    fun h => g1 ((spamRules_verdict_flood cfg now st c).1 h)
  have hnd : (spamRules cfg now st c).1 ≠ .duplicate :=
    fun h => g2 ((spamRules_verdict_duplicate cfg now st c).1 h).2
  by_cases g3 : mentionCount c > cfg.mentions_per_message
  · rw [if_pos g3]
    exact (spamRules_verdict_mentions cfg now st c _).2 ⟨hnf, hnd, g3, rfl⟩
  rw [if_neg g3]
  exact spamRules_verdict_rule4 cfg now st c hnf hnd
    (fun n h => g3 ((spamRules_verdict_mentions cfg now st c n).1 h).2.2.1)

theorem tagCount_append (v : JSString) (pre : List (Int × Message)) (e : Int × Message) :
    tagCount v (pre ++ [e]) =
      tagCount v pre + (mentionedUserIds (normalizeContent e.2.content)).count v := by
  simp [tagCount]

/-- C5, amended. Same-target rule. With `same_user_tag_threshold = T ≥ 1` and any
configured punishment, for a non-whitelisted user with no recorded tag of the
target `v`: when the messages handled so far were all allowed, they and the
current message lie within 5 minutes of each other, the current message passes
rules 1 to 3 and tags `v`, and with it the tags of `v` (every occurrence
counted) number at least `T + 1`, then rule 4 fires on the current message for
one of the users it mentions, the punishment handed to the executor is
`delete_warn`, and the message is blocked. Moreover the verdict on a message
is the same whether or not the tags older than 5 minutes are kept in the
history: they are not counted. -/
theorem same_target_rule_forces_delete_warn (pf : Platform) (fetched : Fetched) (cfg : SpamCfg)
    (g u : JSString) (act : Activity) (v : JSString) (pre : List (Int × Message))
    (e : Int × Message) (ha : SpamActive fetched cfg) (hT : 1 ≤ cfg.same_user_tag_threshold)
    (hfresh : (act g u).tagHistory v = [])
    (hu : ∀ x ∈ pre ++ [e], FromUser cfg g u x.2)
    (hclose : ∀ x ∈ pre ++ [e], ∀ y ∈ pre ++ [e], x.1 - y.1 ≤ TAG_WINDOW)
    (hpre : AntiSpam.allAllowed pf fetched act pre = true)
    (h1 : (AntiSpam.handleMessage pf fetched e.1 (AntiSpam.runAll pf fetched act pre) e.2).verdict
      ≠ .flood)
    (h2 : (AntiSpam.handleMessage pf fetched e.1 (AntiSpam.runAll pf fetched act pre) e.2).verdict
      ≠ .duplicate)
    (h3 : ∀ n,
      (AntiSpam.handleMessage pf fetched e.1 (AntiSpam.runAll pf fetched act pre) e.2).verdict
        ≠ .mentions n)
    (hv : v ∈ mentionedUserIds (normalizeContent e.2.content))
    (hcount : cfg.same_user_tag_threshold + 1 ≤ tagCount v (pre ++ [e])) :
    (∃ uid ∈ mentionedUserIds (normalizeContent e.2.content),
      (AntiSpam.handleMessage pf fetched e.1 (AntiSpam.runAll pf fetched act pre) e.2).verdict
          = .sameTarget uid ∧
        (AntiSpam.handleMessage pf fetched e.1 (AntiSpam.runAll pf fetched act pre) e.2).actions
          = AntiSpam.handleViolation pf e.2 "delete_warn".toList (Verdict.sameTarget uid).reason) ∧
      (AntiSpam.handleMessage pf fetched e.1 (AntiSpam.runAll pf fetched act pre) e.2).punished
        = some "delete_warn".toList ∧
      (AntiSpam.handleMessage pf fetched e.1 (AntiSpam.runAll pf fetched act pre) e.2).allowed
        = false ∧
      ∀ (now : Int) (st : UserState) (c : JSString),
        (spamRules cfg now st c).1 =
          (spamRules cfg now
            { st with tagHistory := pruneTagHistory st.tagHistory now TAG_WINDOW } c).1 := by
  have he : FromUser cfg g u e.2 := hu e (by simp)
  have hpu : ∀ x ∈ pre, FromUser cfg g u x.2 := fun x hx => hu x (by simp [hx])
  have hact := handleMessage_active pf ha he e.1 (AntiSpam.runAll pf fetched act pre)
  have hacts := handleMessage_active_actions pf ha he e.1 (AntiSpam.runAll pf fetched act pre)
  rw [hact.1] at h1 h2 h3
  rw [hact.1, hact.2.2.1, hact.2.2.2, hacts]
  rw [runAll_user ha pre act hpu] at h1 h2 h3 ⊢
  have hall : allPass cfg (act g u) (pre.map eventEntry) = true := by
    rw [← allAllowed_user pf ha pre act hpu]
    exact hpre
  obtain ⟨L, hL, hlen, hmem⟩ := userRun_tags cfg v (pre.map eventEntry) (act g u) hall
    (by rw [hfresh]; intro t ht; simp at ht)
    (by
      intro x hx y hy
      obtain ⟨x1, hx1, rfl⟩ := List.mem_map.1 hx
      obtain ⟨y1, hy1, rfl⟩ := List.mem_map.1 hy
      exact hclose x1 (by simp [hx1]) y1 (by simp [hy1]))
  rw [hfresh, List.nil_append] at hL
  have hr4 := spamRules_verdict_rule4 cfg e.1 (userRun cfg (act g u) (pre.map eventEntry))
    (normalizeContent e.2.content) h1 h2 h3
  cases hfire : (tagLoop e.1 (sameUserThreshold cfg) (mentionedUserIds (normalizeContent e.2.content))
      (userRun cfg (act g u) (pre.map eventEntry)).tagHistory).1 with
  | none =>
    exfalso
    have hb := (tagLoop_none e.1 _ _ _ hfire v).2 hv
    rw [hL, List.filter_eq_self.2] at hb
    · rw [tagCount_append] at hcount
      have hsum : L.length = tagCount v pre := by
        rw [hlen, List.map_map]
        rfl
      have hthr : sameUserThreshold cfg = cfg.same_user_tag_threshold := by
        unfold sameUserThreshold
        exact max_eq_right hT
      omega
    · intro t ht
      obtain ⟨x, hx, rfl⟩ := hmem t ht
      obtain ⟨x1, hx1, rfl⟩ := List.mem_map.1 hx
      simpa [eventEntry] using hclose e (by simp) x1 (by simp [hx1])
  | some uid =>
    rw [hfire] at hr4
    simp only [] at hr4
    rw [hr4]
    refine ⟨⟨uid, tagLoop_fired_mem _ _ _ _ _ hfire, rfl, ?_⟩, ?_, ?_, ?_⟩
    · simp [Verdict.punishment]
    · simp [Verdict.punishment]
    · simp
    · intro now st c
      rw [spamRules_verdict_eq, spamRules_verdict_eq cfg now
        { st with tagHistory := pruneTagHistory st.tagHistory now TAG_WINDOW }]
      rw [tagLoop_old_tags_ignored now (sameUserThreshold cfg) (mentionedUserIds c) st.tagHistory
        (pruneTagHistory st.tagHistory now TAG_WINDOW)]
      · rfl
      · intro k
        simp [pruneTagHistory, List.filter_filter]

theorem same_target_rule_forces_delete_warn_witness :
    (AntiSpam.handleMessage samplePlatform
        (sampleSpamSettings (sampleSpamFeature 5 5 3 5 1 "ban".toList)) 1000
        (AntiSpam.runAll samplePlatform
          (sampleSpamSettings (sampleSpamFeature 5 5 3 5 1 "ban".toList)) Activity.empty
          [(0, sampleMessage "hi <@111111111111111111>".toList)])
        (sampleMessage "<@111111111111111111> again".toList)).punished
          = some "delete_warn".toList ∧
      (AntiSpam.handleMessage samplePlatform
        (sampleSpamSettings (sampleSpamFeature 5 5 3 5 1 "ban".toList)) 1000
        (AntiSpam.runAll samplePlatform
          (sampleSpamSettings (sampleSpamFeature 5 5 3 5 1 "ban".toList)) Activity.empty
          [(0, sampleMessage "hi <@111111111111111111>".toList)])
        (sampleMessage "<@111111111111111111> again".toList)).allowed = false := by
  have hv : (AntiSpam.handleMessage samplePlatform
      (sampleSpamSettings (sampleSpamFeature 5 5 3 5 1 "ban".toList)) 1000
      (AntiSpam.runAll samplePlatform
        (sampleSpamSettings (sampleSpamFeature 5 5 3 5 1 "ban".toList)) Activity.empty
        [(0, sampleMessage "hi <@111111111111111111>".toList)])
      (sampleMessage "<@111111111111111111> again".toList)).verdict
        = .sameTarget "111111111111111111".toList := by decide
  have h := same_target_rule_forces_delete_warn samplePlatform
    (sampleSpamSettings (sampleSpamFeature 5 5 3 5 1 "ban".toList))
    (SpamCfg.ofFeature (sampleSpamFeature 5 5 3 5 1 "ban".toList)) "g1".toList "u1".toList
    Activity.empty "111111111111111111".toList
    [(0, sampleMessage "hi <@111111111111111111>".toList)]
    (1000, sampleMessage "<@111111111111111111> again".toList)
    ⟨_, _, rfl, rfl, rfl, rfl⟩ (by decide) rfl
    (by
      intro x hx
      simp only [List.cons_append, List.nil_append, List.mem_cons, List.mem_singleton,
        List.not_mem_nil, or_false] at hx
      rcases hx with rfl | rfl <;> exact ⟨rfl, rfl, by decide⟩)
    (by
      intro x hx y hy
      simp only [List.cons_append, List.nil_append, List.mem_cons, List.mem_singleton,
        List.not_mem_nil, or_false] at hx hy
      rcases hx with rfl | rfl <;> rcases hy with rfl | rfl <;> decide)
    (by decide) (by rw [hv]; simp) (by rw [hv]; simp) (by intro n; rw [hv]; simp)
    (by decide) (by decide)
  exact ⟨h.2.1, h.2.2.1⟩

/-- C5, counterexample. With `same_user_tag_threshold = 1`, a first message tags
a user B twice and then a user A: it passes rules 1 to 3 and rule 4 fires for
B, before the tag of A is recorded. A second message, one second later, tags A
again: the user has now tagged A twice (T + 1) within 5 minutes, yet the
second message is allowed. -/
theorem same_target_tag_lost_after_other_target_fires :
    (AntiSpam.handleMessage samplePlatform
        (sampleSpamSettings (sampleSpamFeature 5 5 3 5 1 "ban".toList)) 0 Activity.empty
        (sampleMessage
          "<@222222222222222222> <@222222222222222222> <@111111111111111111>".toList)).verdict
          = .sameTarget "222222222222222222".toList ∧
      tagCount "111111111111111111".toList
        [(0, sampleMessage
            "<@222222222222222222> <@222222222222222222> <@111111111111111111>".toList),
          (1000, sampleMessage "<@111111111111111111>".toList)] = 1 + 1 ∧
      (AntiSpam.handleMessage samplePlatform
        (sampleSpamSettings (sampleSpamFeature 5 5 3 5 1 "ban".toList)) 1000
        (AntiSpam.runAll samplePlatform
          (sampleSpamSettings (sampleSpamFeature 5 5 3 5 1 "ban".toList)) Activity.empty
          [(0, sampleMessage
            "<@222222222222222222> <@222222222222222222> <@111111111111111111>".toList)])
        (sampleMessage "<@111111111111111111>".toList)).verdict = .pass ∧
      (AntiSpam.handleMessage samplePlatform
        (sampleSpamSettings (sampleSpamFeature 5 5 3 5 1 "ban".toList)) 1000
        (AntiSpam.runAll samplePlatform
          (sampleSpamSettings (sampleSpamFeature 5 5 3 5 1 "ban".toList)) Activity.empty
          [(0, sampleMessage
            "<@222222222222222222> <@222222222222222222> <@111111111111111111>".toList)])
        (sampleMessage "<@111111111111111111>".toList)).allowed = true := by
  refine ⟨?_, ?_, ?_, ?_⟩ <;> decide

/-! ## Link protection: the domain whitelist -/

theorem jsIncludes_iff_block (hay needle : JSString) :
    jsIncludes hay needle = true ↔ List.IsInfix needle hay := by
  induction hay with
  | nil =>
    simp only [jsIncludes, List.isEmpty_iff, List.infix_nil]
  | cons x xs ih =>
    simp only [jsIncludes, Bool.or_eq_true, List.isPrefixOf_iff_prefix, ih, List.infix_cons_iff]

theorem jsIncludes_self (s : JSString) : jsIncludes s s = true :=
  (jsIncludes_iff_block s s).2 (List.infix_refl s)

theorem domainWhitelistedWith_of_listed (lower : JSString → JSString) (domain w : JSString) :
    ∀ (l : List (Option JSString)), some w ∈ l →
      (jsIncludes domain (lower w) || jsIncludes (lower w) domain) = true →
      domainWhitelistedWith lower domain l ≠ some false := by
  intro l
  induction l with
  | nil => intro h; simp at h
  | cons x rest ih =>
    intro hmem hm
    cases x with
    | none => simp [domainWhitelistedWith]
    | some w1 =>
      simp only [domainWhitelistedWith]
      split_ifs with h1
      · simp
      · rcases List.mem_cons.1 hmem with heq | hmem
        · simp only [Option.some.injEq] at heq
          subst heq
          exact absurd hm h1
        · exact ih hmem hm

theorem domainWhitelistedWith_congr (lower lower1 : JSString → JSString) (domain : JSString) :
    ∀ (l : List (Option JSString)), (∀ w, some w ∈ l → lower w = lower1 w) →
      domainWhitelistedWith lower domain l = domainWhitelistedWith lower1 domain l := by
  intro l
  induction l with
  | nil => intro _; rfl
  | cons x rest ih =>
    intro h
    cases x with
    | none => rfl
    | some w =>
      simp only [domainWhitelistedWith, h w (List.mem_cons_self _ _)]
      rw [ih (fun w1 hw1 => h w1 (List.mem_cons_of_mem _ hw1))]

/-- The result of `shouldBlockUrl` depends on the lower-casing only through its
values on the host, on the url and on the string entries of the whitelist. The
ASCII instance therefore gives the result of the method whenever
`String.prototype.toLowerCase` agrees with the ASCII lower-casing on these
strings, as it does on strings of ASCII code units. -/
theorem shouldBlockUrlWith_congr (lower lower1 : JSString → JSString) (url : JSString)
    (config : LinkConfig)
    (hhost : ∀ host, domainMatch url = some host → lower host = lower1 host)
    (hurl : lower url = lower1 url)
    (hlist : ∀ l w, config.whitelist_domains = some l → some w ∈ l → lower w = lower1 w) :
    LinkProtection.shouldBlockUrlWith lower url config =
      LinkProtection.shouldBlockUrlWith lower1 url config := by
  unfold LinkProtection.shouldBlockUrlWith
  cases hd : domainMatch url with
  | none => rfl
  | some host =>
    simp only [isMediaLinkWith, hurl, hhost host hd]
    cases hl : config.whitelist_domains with
    | none => rfl
    | some l =>
      simp only [domainWhitelistedWith_congr lower lower1 (lower1 host) l
        (fun w hw => hlist l w hl hw)]

/-- C6. Whitelist wins. The function `lower` stands for
`String.prototype.toLowerCase`, and the statement holds whatever function it
is. For a url from which `domainRegex` extracts a host, and a whitelist that
holds the string `w`: when the lower-cased host equals the lower-cased entry,
contains it or is contained in it, `shouldBlockUrl` returns allow (`false`),
whatever the values of `block_suspicious` and `allow_media_links`, whatever the
other entries of the whitelist, and whether or not the url matches a suspicious
pattern. For an entry stored in lower case the same holds with the entry as
stored. -/
theorem whitelisted_host_is_allowed (lower : JSString → JSString) (url host w : JSString)
    (config : LinkConfig) (l : List (Option JSString)) (hhost : domainMatch url = some host)
    (hl : config.whitelist_domains = some l) (hw : some w ∈ l)
    (hm : lower host = lower w ∨ jsIncludes (lower host) (lower w) = true ∨
      jsIncludes (lower w) (lower host) = true ∨
      (lower w = w ∧ (lower host = w ∨ jsIncludes (lower host) w = true ∨
        jsIncludes w (lower host) = true))) :
    LinkProtection.shouldBlockUrlWith lower url config = false := by
  have hm1 : (jsIncludes (lower host) (lower w) || jsIncludes (lower w) (lower host)) = true := by
    rcases hm with h | h | h | ⟨hs, h | h | h⟩
    · rw [h]; simp [jsIncludes_self]
    · simp [h]
    · simp [h]
    · rw [hs, h]; simp [jsIncludes_self]
    · rw [hs]; simp [h]
    · rw [hs]; simp [h]
  have hne := domainWhitelistedWith_of_listed lower (lower host) w l hw hm1
  unfold LinkProtection.shouldBlockUrlWith
  simp only [hhost, hl]
  cases hd : domainWhitelistedWith lower (lower host) l with
  | none => rfl
  | some b =>
    cases b with
    | true => rfl
    | false => exact absurd hd hne

theorem whitelisted_host_is_allowed_witness :
    (isSuspiciousUrl "https://www.Bit.ly/free-nitro".toList = true ∧
      LinkProtection.shouldBlockUrlWith toLowerCase "https://www.Bit.ly/free-nitro".toList
        ⟨none, none, some [some "discord.com".toList, some "bit.ly".toList], none, true, false,
          true, none⟩ = false) ∧
      LinkProtection.shouldBlockUrlWith sampleLower "http://kick.com/x".toList
        ⟨none, none, some [some (Char.ofNat 8490 :: "ick.com".toList)], none, true, false,
          true, none⟩ = false :=
  ⟨⟨by decide,
    whitelisted_host_is_allowed toLowerCase "https://www.Bit.ly/free-nitro".toList
      "Bit.ly".toList "bit.ly".toList _ _ (by decide) rfl (by decide) (Or.inl (by decide))⟩,
    whitelisted_host_is_allowed sampleLower "http://kick.com/x".toList "kick.com".toList
      (Char.ofNat 8490 :: "ick.com".toList) _ _ (by decide) rfl (by decide)
      (Or.inl (by decide))⟩

/-! ## Regular expressions: what a successful run has consumed -/

theorem repGreedy_sound {α : Type} (p : Char → Bool) (k : JSString → JSString → Option α)
    (v : α) :
    ∀ (hi lo : Nat) (acc s : JSString), repGreedy p lo hi acc s k = some v →
      ∃ w s1, s = w ++ s1 ∧ k (w.reverse ++ acc) s1 = some v := by
  intro hi
  induction hi with
  | zero =>
    intro lo acc s h
    simp only [repGreedy] at h
    split_ifs at h
    exact ⟨[], s, rfl, h⟩
  | succ hi ih =>
    intro lo acc s h
    cases s with
    | nil =>
      simp only [repGreedy] at h
      split_ifs at h
      exact ⟨[], [], rfl, h⟩
    | cons x xs =>
      simp only [repGreedy] at h
      split_ifs at h with hp h0 h0
      · cases hr : repGreedy p (lo - 1) hi (x :: acc) xs k with
        | some r =>
          rw [hr] at h
          simp only [Option.some.injEq] at h
          subst h
          obtain ⟨w, s1, hs, hk⟩ := ih _ _ _ hr
          exact ⟨x :: w, s1, by rw [hs]; rfl, by simpa using hk⟩
        | none =>
          rw [hr] at h
          exact ⟨[], x :: xs, rfl, h⟩
      · cases hr : repGreedy p (lo - 1) hi (x :: acc) xs k with
        | some r =>
          rw [hr] at h
          simp only [Option.some.injEq] at h
          subst h
          obtain ⟨w, s1, hs, hk⟩ := ih _ _ _ hr
          exact ⟨x :: w, s1, by rw [hs]; rfl, by simpa using hk⟩
        | none =>
          rw [hr] at h
          simp at h
      · exact ⟨[], x :: xs, rfl, h⟩

theorem starGreedy_sound {α : Type} (p : Char → Bool) (k : JSString → JSString → Option α)
    (v : α) :
    ∀ (s acc : JSString), starGreedy p acc s k = some v →
      ∃ w s1, s = w ++ s1 ∧ k (w.reverse ++ acc) s1 = some v := by
  intro s
  induction s with
  | nil =>
    intro acc h
    exact ⟨[], [], rfl, h⟩
  | cons x xs ih =>
    intro acc h
    simp only [starGreedy] at h
    split_ifs at h with hp
    · cases hr : starGreedy p (x :: acc) xs k with
      | some r =>
        rw [hr] at h
        simp only [Option.some.injEq] at h
        subst h
        obtain ⟨w, s1, hs, hk⟩ := ih _ hr
        exact ⟨x :: w, s1, by rw [hs]; rfl, by simpa using hk⟩
      | none =>
        rw [hr] at h
        exact ⟨[], x :: xs, rfl, h⟩
    · exact ⟨[], x :: xs, rfl, h⟩

/-- A successful run has consumed a block `w` at the front of the input, and
the continuation has succeeded on the rest with `w` pushed on what was
matched before. -/
theorem Re.run_sound {α : Type} (ci : Bool) (ctx : Option Char) (v : α) :
    ∀ (r : Re) (acc s : JSString) (k : JSString → JSString → Option α),
      r.run ci ctx acc s k = some v →
      ∃ w s1, s = w ++ s1 ∧ k (w.reverse ++ acc) s1 = some v := by
  intro r
  induction r with
  | eps =>
    intro acc s k h
    exact ⟨[], s, rfl, h⟩
  | chr c =>
    intro acc s k h
    cases s with
    | nil => simp [Re.run] at h
    | cons x xs =>
      simp only [Re.run] at h
      split_ifs at h
      exact ⟨[x], xs, rfl, h⟩
  | cls p =>
    intro acc s k h
    cases s with
    | nil => simp [Re.run] at h
    | cons x xs =>
      simp only [Re.run] at h
      split_ifs at h
      exact ⟨[x], xs, rfl, h⟩
  | seq a b iha ihb =>
    intro acc s k h
    simp only [Re.run] at h
    obtain ⟨w1, s1, hs1, h1⟩ := iha _ _ _ h
    obtain ⟨w2, s2, hs2, h2⟩ := ihb _ _ _ h1
    refine ⟨w1 ++ w2, s2, by rw [hs1, hs2, List.append_assoc], ?_⟩
    simpa using h2
  | alt a b iha ihb =>
    intro acc s k h
    simp only [Re.run] at h
    cases hr : a.run ci ctx acc s k with
    | some r =>
      rw [hr] at h
      simp only [Option.some.injEq] at h
      subst h
      exact iha _ _ _ hr
    | none =>
      rw [hr] at h
      exact ihb _ _ _ h
  | opt a iha =>
    intro acc s k h
    simp only [Re.run] at h
    cases hr : a.run ci ctx acc s k with
    | some r =>
      rw [hr] at h
      simp only [Option.some.injEq] at h
      subst h
      exact iha _ _ _ hr
    | none =>
      rw [hr] at h
      exact ⟨[], s, rfl, h⟩
  | rep p lo hi =>
    intro acc s k h
    exact repGreedy_sound p k v hi lo acc s h
  | star p =>
    intro acc s k h
    exact starGreedy_sound p k v s acc h
  | wordB =>
    intro acc s k h
    simp only [Re.run] at h
    split_ifs at h
    exact ⟨[], s, rfl, h⟩

theorem Re.run_lit_inv {α : Type} (ctx : Option Char) (v : α)
    (k : JSString → JSString → Option α) :
    ∀ (l acc s : JSString), (Re.lit l).run false ctx acc s k = some v →
      ∃ s1, s = l ++ s1 ∧ k (l.reverse ++ acc) s1 = some v := by
  intro l
  induction l with
  | nil =>
    intro acc s h
    exact ⟨s, rfl, h⟩
  | cons c cs ih =>
    intro acc s h
    cases s with
    | nil => simp [Re.lit, Re.run] at h
    | cons x xs =>
      simp only [Re.lit, Re.run, Bool.false_and, Bool.or_false, decide_eq_true_eq] at h
      split_ifs at h with hx
      subst hx
      obtain ⟨s1, hs1, h1⟩ := ih _ _ h
      exact ⟨s1, by rw [hs1]; rfl, by simpa using h1⟩

theorem scanAll_mem {β : Type} (tryAt : Option Char → JSString → Option (Nat × β)) (b : β) :
    ∀ (s : JSString) (skip : Nat) (ctx : Option Char), b ∈ scanAll tryAt skip ctx s →
      ∃ ctx1 s1 n, tryAt ctx1 s1 = some (n, b) := by
  intro s
  induction s with
  | nil =>
    intro skip ctx h
    cases skip with
    | zero =>
      simp only [scanAll] at h
      cases ht : tryAt ctx [] with
      | none => rw [ht] at h; simp at h
      | some r =>
        rw [ht] at h
        simp only [List.mem_singleton] at h
        exact ⟨ctx, [], r.1, by rw [ht, h]⟩
    | succ n => simp [scanAll] at h
  | cons x xs ih =>
    intro skip ctx h
    cases skip with
    | zero =>
      simp only [scanAll] at h
      cases ht : tryAt ctx (x :: xs) with
      | none =>
        rw [ht] at h
        exact ih _ _ h
      | some r =>
        rw [ht] at h
        rcases List.mem_cons.1 h with h | h
        · exact ⟨ctx, x :: xs, r.1, by rw [ht, h]⟩
        · exact ih _ _ h
    | succ n =>
      simp only [scanAll] at h
      exact ih _ _ h

/-! ## Link protection: extracted urls have a host -/

theorem isUrlHostChar_ne_slash (x : Char) (h : isUrlHostChar x = true) : x ≠ '/' := by
  intro hx
  subst hx
  revert h
  decide

theorem Re.run_opt_inv {α : Type} (ci : Bool) (ctx : Option Char) (a : Re) (acc s : JSString)
    (k : JSString → JSString → Option α) (v : α) (h : (Re.opt a).run ci ctx acc s k = some v) :
    a.run ci ctx acc s k = some v ∨ k acc s = some v := by
  simp only [Re.run] at h
  cases hr : a.run ci ctx acc s k with
  | some r =>
    rw [hr] at h
    exact Or.inl h
  | none =>
    rw [hr] at h
    exact Or.inr h

theorem Re.run_chr_inv {α : Type} (ctx : Option Char) (c : Char) (acc s : JSString)
    (k : JSString → JSString → Option α) (v : α) (h : (Re.chr c).run false ctx acc s k = some v) :
    ∃ xs, s = c :: xs ∧ k (c :: acc) xs = some v := by
  cases s with
  | nil => simp [Re.run] at h
  | cons x xs =>
    simp only [Re.run, Bool.false_and, Bool.or_false, decide_eq_true_eq] at h
    split_ifs at h with hx
    subst hx
    exact ⟨xs, rfl, h⟩

theorem repGreedy_pos_inv {α : Type} (p : Char → Bool) (lo hi : Nat) (acc s : JSString)
    (k : JSString → JSString → Option α) (v : α)
    (h : repGreedy p (lo + 1) (hi + 1) acc s k = some v) :
    ∃ x xs, s = x :: xs ∧ p x = true ∧ repGreedy p lo hi (x :: acc) xs k = some v := by
  cases s with
  | nil => simp [repGreedy] at h
  | cons x xs =>
    simp only [repGreedy, Nat.add_sub_cancel, Nat.add_one_ne_zero, ↓reduceIte] at h
    by_cases hp : p x = true
    · rw [if_pos hp] at h
      cases hr : repGreedy p lo hi (x :: acc) xs k with
      | some r =>
        rw [hr] at h
        simp only [Option.some.injEq] at h
        exact ⟨x, xs, rfl, hp, by rw [hr, h]⟩
      | none =>
        rw [hr] at h
        simp at h
    · rw [if_neg hp] at h
      simp at h

/-- The part of `urlRegex` after `(www\.)?`. -/
theorem urlHost_match_shape (ctx : Option Char) (acc s m : JSString)
    (h : (Re.cat [.rep isUrlHostChar 1 256, .chr '.', .rep isUrlTldChar 1 6, .wordB,
      .star isUrlTailChar]).run false ctx acc s (fun acc1 _ => some acc1.reverse) = some m) :
    ∃ x w, x ≠ '/' ∧ m = acc.reverse ++ x :: w := by
  have h1 : repGreedy isUrlHostChar (0 + 1) (255 + 1) acc s (fun acc1 s1 =>
      (Re.cat [.chr '.', .rep isUrlTldChar 1 6, .wordB, .star isUrlTailChar]).run false ctx acc1 s1
        (fun acc1 _ => some acc1.reverse)) = some m := h
  obtain ⟨x, xs, _, hp, h2⟩ := repGreedy_pos_inv _ _ _ _ _ _ _ h1
  obtain ⟨w, s1, _, h3⟩ := repGreedy_sound _ _ _ _ _ _ _ h2
  obtain ⟨w2, s2, _, h4⟩ := Re.run_sound _ _ _ _ _ _ _ h3
  simp only [Option.some.injEq] at h4
  refine ⟨x, w ++ w2, isUrlHostChar_ne_slash x hp, ?_⟩
  rw [← h4]
  simp

/-- The part of `urlRegex` after the scheme. -/
theorem urlAfterScheme_match_shape (ctx : Option Char) (acc s m : JSString)
    (h : (Re.cat [Re.lit "://".toList, .opt (Re.lit "www.".toList), .rep isUrlHostChar 1 256,
      .chr '.', .rep isUrlTldChar 1 6, .wordB, .star isUrlTailChar]).run false ctx acc s
        (fun acc1 _ => some acc1.reverse) = some m) :
    ∃ x w, x ≠ '/' ∧ m = acc.reverse ++ "://".toList ++ x :: w := by
  have h1 : (Re.lit "://".toList).run false ctx acc s (fun acc1 s1 =>
      (Re.opt (Re.lit "www.".toList)).run false ctx acc1 s1 (fun acc2 s2 =>
        (Re.cat [.rep isUrlHostChar 1 256, .chr '.', .rep isUrlTldChar 1 6, .wordB,
          .star isUrlTailChar]).run false ctx acc2 s2 (fun acc1 _ => some acc1.reverse)))
      = some m := h
  obtain ⟨s1, _, h2⟩ := Re.run_lit_inv _ _ _ _ _ _ h1
  rcases Re.run_opt_inv _ _ _ _ _ _ _ h2 with h3 | h3
  · obtain ⟨s2, _, h4⟩ := Re.run_lit_inv _ _ _ _ _ _ h3
    obtain ⟨w, s3, _, h5⟩ := Re.run_sound _ _ _ _ _ _ _ h4
    simp only [Option.some.injEq] at h5
    refine ⟨'w', "ww.".toList ++ w, by decide, ?_⟩
    rw [← h5]
    simp
  · obtain ⟨x, w, hx, hm⟩ := urlHost_match_shape ctx _ _ _ h3
    refine ⟨x, w, hx, ?_⟩
    rw [hm]
    simp

/-- A match of `urlRegex` starts with `http://` or `https://`, followed by a
character that is not a slash. -/
theorem urlRegex_match_shape (ctx : Option Char) (s m : JSString)
    (h : urlRegex.matchAt false ctx s = some m) :
    ∃ x tail, x ≠ '/' ∧
      (m = "http://".toList ++ x :: tail ∨ m = "https://".toList ++ x :: tail) := by
  have h1 : (Re.lit "http".toList).run false ctx [] s (fun acc1 s1 =>
      (Re.opt (.chr 's')).run false ctx acc1 s1 (fun acc2 s2 =>
        (Re.cat [Re.lit "://".toList, .opt (Re.lit "www.".toList), .rep isUrlHostChar 1 256,
          .chr '.', .rep isUrlTldChar 1 6, .wordB, .star isUrlTailChar]).run false ctx acc2 s2
            (fun acc1 _ => some acc1.reverse))) = some m := h
  obtain ⟨s1, _, h2⟩ := Re.run_lit_inv _ _ _ _ _ _ h1
  rcases Re.run_opt_inv _ _ _ _ _ _ _ h2 with h3 | h3
  · obtain ⟨s2, _, h4⟩ := Re.run_chr_inv _ _ _ _ _ _ h3
    obtain ⟨x, w, hx, hm⟩ := urlAfterScheme_match_shape ctx _ _ _ h4
    refine ⟨x, w, hx, Or.inr ?_⟩
    rw [hm]
    rfl
  · obtain ⟨x, w, hx, hm⟩ := urlAfterScheme_match_shape ctx _ _ _ h3
    refine ⟨x, w, hx, Or.inl ?_⟩
    rw [hm]
    rfl

theorem Re.run_lit_append {α : Type} (ctx : Option Char) (k : JSString → JSString → Option α) :
    ∀ (l acc s : JSString), (Re.lit l).run false ctx acc (l ++ s) k = k (l.reverse ++ acc) s := by
  intro l
  induction l with
  | nil => intro acc s; rfl
  | cons c cs ih =>
    intro acc s
    have hstep : (Re.lit (c :: cs)).run false ctx acc ((c :: cs) ++ s) k =
        (Re.lit cs).run false ctx (c :: acc) (cs ++ s) k := by
      simp [Re.lit, Re.run]
    rw [hstep, ih]
    simp

theorem Re.run_opt_isSome {α : Type} (ci : Bool) (ctx : Option Char) (a : Re) (acc s : JSString)
    (k : JSString → JSString → Option α) (h : (k acc s).isSome = true) :
    ((Re.opt a).run ci ctx acc s k).isSome = true := by
  simp only [Re.run]
  cases a.run ci ctx acc s k with
  | some r => rfl
  | none => exact h

theorem starGreedy_isSome {α : Type} (p : Char → Bool) (k : JSString → JSString → Option α)
    (hk : ∀ acc s, (k acc s).isSome = true) :
    ∀ (s acc : JSString), (starGreedy p acc s k).isSome = true := by
  intro s
  induction s with
  | nil => intro acc; exact hk _ _
  | cons x xs ih =>
    intro acc
    simp only [starGreedy]
    split_ifs
    · have := ih (x :: acc)
      cases hr : starGreedy p (x :: acc) xs k with
      | some r => rfl
      | none => rw [hr] at this; simp at this
    · exact hk _ _

theorem Re.run_opt_chr_isSome {α : Type} (ctx : Option Char) (c : Char) (acc ys : JSString)
    (k : JSString → JSString → Option α) (h : (k (c :: acc) ys).isSome = true) :
    ((Re.opt (.chr c)).run false ctx acc (c :: ys) k).isSome = true := by
  simp only [Re.run, Bool.false_and, Bool.or_false, decide_True, if_true]
  cases hr : k (c :: acc) ys with
  | none => rw [hr] at h; simp at h
  | some r => rfl

/-- The capture `([^\/]+)` of `domainRegex` succeeds on an input that starts
with a character other than a slash. -/
theorem hostCapture_isSome (x : Char) (tail : JSString) (hx : x ≠ '/') :
    ((Re.seq (.cls notSlash) (.star notSlash)).run false none [] (x :: tail)
      (fun g _ => some g.reverse)).isSome = true := by
  have hp : notSlash x = true := by simp [notSlash, hx]
  simp only [Re.run, hp, if_true]
  exact starGreedy_isSome notSlash (fun g _ => some g.reverse) (fun _ _ => rfl) _ _

theorem domainMatch_after_scheme (acc : JSString) (x : Char) (tail : JSString) (hx : x ≠ '/') :
    ((Re.lit "://".toList).run false none acc ("://".toList ++ x :: tail) (fun a3 s3 =>
      (Re.opt (Re.lit "www.".toList)).run false none a3 s3 (fun _ s4 =>
        (Re.seq (.cls notSlash) (.star notSlash)).run false none [] s4
          (fun g _ => some g.reverse)))).isSome = true := by
  rw [Re.run_lit_append]
  exact Re.run_opt_isSome _ _ _ _ _ _ (hostCapture_isSome x tail hx)

/-- Source: `domainRegex` matches every text of the shape of a match of `urlRegex`. -/
theorem domainMatch_of_shape (x : Char) (tail : JSString) (hx : x ≠ '/') :
    (domainMatch ("http://".toList ++ x :: tail)).isSome = true ∧
      (domainMatch ("https://".toList ++ x :: tail)).isSome = true := by
  constructor
  · have e : domainMatch ("http://".toList ++ x :: tail) =
        (Re.lit "http".toList).run false none [] ("http".toList ++ ("://".toList ++ x :: tail))
          (fun a1 s1 => (Re.opt (.chr 's')).run false none a1 s1 (fun a2 s2 =>
            (Re.lit "://".toList).run false none a2 s2 (fun a3 s3 =>
              (Re.opt (Re.lit "www.".toList)).run false none a3 s3 (fun _ s4 =>
                (Re.seq (.cls notSlash) (.star notSlash)).run false none [] s4
                  (fun g _ => some g.reverse))))) := rfl
    rw [e, Re.run_lit_append]
    exact Re.run_opt_isSome _ _ _ _ _ _ (domainMatch_after_scheme _ x tail hx)
  · have e : domainMatch ("https://".toList ++ x :: tail) =
        (Re.lit "http".toList).run false none []
          ("http".toList ++ ('s' :: ("://".toList ++ x :: tail)))
          (fun a1 s1 => (Re.opt (.chr 's')).run false none a1 s1 (fun a2 s2 =>
            (Re.lit "://".toList).run false none a2 s2 (fun a3 s3 =>
              (Re.opt (Re.lit "www.".toList)).run false none a3 s3 (fun _ s4 =>
                (Re.seq (.cls notSlash) (.star notSlash)).run false none [] s4
                  (fun g _ => some g.reverse))))) := rfl
    rw [e, Re.run_lit_append]
    exact Re.run_opt_chr_isSome _ _ _ _ _ (domainMatch_after_scheme _ x tail hx)

/-- The host-extraction pattern never fails on an extracted url. -/
theorem extractUrls_has_host (content url : JSString) (h : url ∈ extractUrls content) :
    (domainMatch url).isSome = true := by
  unfold extractUrls Re.matchAll at h
  obtain ⟨ctx, s, n, ht⟩ := scanAll_mem _ _ _ _ _ h
  cases hm : urlRegex.matchAt false ctx s with
  | none => rw [hm] at ht; simp at ht
  | some m =>
    rw [hm] at ht
    simp only [Option.map_some', Option.some.injEq, Prod.mk.injEq] at ht
    obtain ⟨x, tail, hx, hshape⟩ := urlRegex_match_shape ctx s m hm
    rw [← ht.2]
    rcases hshape with hs | hs
    · rw [hs]; exact (domainMatch_of_shape x tail hx).1
    · rw [hs]; exact (domainMatch_of_shape x tail hx).2

/-! ## Link protection: default deny -/

theorem domainWhitelistedWith_of_unlisted (lower : JSString → JSString) (domain : JSString) :
    ∀ (l : List (Option JSString)), (∀ e ∈ l, e ≠ none) →
      (∀ w, some w ∈ l → jsIncludes domain (lower w) = false ∧
        jsIncludes (lower w) domain = false) →
      domainWhitelistedWith lower domain l = some false := by
  intro l
  induction l with
  | nil => intro _ _; rfl
  | cons x rest ih =>
    intro hwf hno
    cases x with
    | none => exact absurd rfl (hwf none (List.mem_cons_self _ _))
    | some w =>
      have hw := hno w (List.mem_cons_self _ _)
      simp only [domainWhitelistedWith, hw.1, hw.2, Bool.or_self, Bool.false_eq_true, if_false]
      exact ih (fun e he => hwf e (List.mem_cons_of_mem _ he))
        (fun w1 hw1 => hno w1 (List.mem_cons_of_mem _ hw1))

/-- C7. Default deny. The function `lower` stands for
`String.prototype.toLowerCase`, and the statement holds whatever function it
is. For a url returned by `extractUrls` the host-extraction pattern succeeds, so
the branch "no host, allow" is not taken; and when the domain whitelist holds
only strings, the lower-cased host neither contains nor is contained in any
lower-cased entry, and the media exemption does not apply, `shouldBlockUrl`
returns block. -/
theorem extracted_url_blocked_by_default (lower : JSString → JSString)
    (content url : JSString) (config : LinkConfig)
    (hurl : url ∈ extractUrls content)
    (hwf : ∀ l, config.whitelist_domains = some l → ∀ e ∈ l, e ≠ none)
    (hno : ∀ l host w, config.whitelist_domains = some l → domainMatch url = some host →
      some w ∈ l → jsIncludes (lower host) (lower w) = false ∧
        jsIncludes (lower w) (lower host) = false)
    (hmedia : ¬ (config.allow_media_links = true ∧ isMediaLinkWith lower url = true)) :
    (domainMatch url).isSome = true ∧
      LinkProtection.shouldBlockUrlWith lower url config = true := by
  have hsome := extractUrls_has_host content url hurl
  refine ⟨hsome, ?_⟩
  cases hd : domainMatch url with
  | none => rw [hd] at hsome; simp at hsome
  | some host =>
    have hlisted : (match config.whitelist_domains with
        | none => some false
        | some l => domainWhitelistedWith lower (lower host) l) = some false := by
      cases hl : config.whitelist_domains with
      | none => rfl
      | some l =>
        exact domainWhitelistedWith_of_unlisted lower _ l (hwf l hl)
          (fun w hw => hno l host w hl hd hw)
    unfold LinkProtection.shouldBlockUrlWith
    simp only [hd, hlisted]
    have hm : (config.allow_media_links && isMediaLinkWith lower url) = false := by
      cases h1 : config.allow_media_links <;> cases h2 : isMediaLinkWith lower url <;> simp_all
    simp [hm]

theorem extracted_url_blocked_by_default_witness :
    ((domainMatch "http://evil-shortener.biz/x".toList).isSome = true ∧
      LinkProtection.shouldBlockUrlWith toLowerCase "http://evil-shortener.biz/x".toList
        ⟨none, none, some [some "discord.com".toList], some "delete".toList, false, true, true,
          none⟩ = true) ∧
      ((domainMatch "http://evil-shortener.biz/x".toList).isSome = true ∧
        LinkProtection.shouldBlockUrlWith sampleLower "http://evil-shortener.biz/x".toList
          ⟨none, none, some [some (Char.ofNat 8490 :: "ick.com".toList)],
            some "delete".toList, false, true, true, none⟩ = true) :=
  ⟨extracted_url_blocked_by_default toLowerCase "check out http://evil-shortener.biz/x".toList
    "http://evil-shortener.biz/x".toList _ (by decide)
    (by
      intro l hl
      cases hl
      decide)
    (by
      intro l host w hl hd hw
      cases hl
      have hh : domainMatch "http://evil-shortener.biz/x".toList =
          some "evil-shortener.biz".toList := by decide
      rw [hh] at hd
      cases hd
      simp only [List.mem_singleton, Option.some.injEq] at hw
      subst hw
      decide)
    (by decide),
   extracted_url_blocked_by_default sampleLower "check out http://evil-shortener.biz/x".toList
    "http://evil-shortener.biz/x".toList _ (by decide)
    (by
      intro l hl
      cases hl
      decide)
    (by
      intro l host w hl hd hw
      cases hl
      have hh : domainMatch "http://evil-shortener.biz/x".toList =
          some "evil-shortener.biz".toList := by decide
      rw [hh] at hd
      cases hd
      simp only [List.mem_singleton, Option.some.injEq] at hw
      subst hw
      decide)
    (by decide)⟩

/-! ## Link protection: the media exemption -/

/-- C8, the code at the failing inputs. With `allow_media_links` set, a url
that is not whitelisted and has a media extension inside its host name, or in
the middle of its path, is allowed by the media rule, although its path does
not end in a media extension; with `allow_media_links` unset the same urls are
blocked. Both urls are extracted as they stand from a message text, and a
message that carries the first one is allowed by `handleMessage`. -/
theorem media_rule_accepts_extension_anywhere :
    isMediaLink "http://evil.pdf.example.com/x".toList = true ∧
      LinkProtection.shouldBlockUrl "http://evil.pdf.example.com/x".toList
        ⟨none, none, some [], none, true, true, false, none⟩ = false ∧
      LinkProtection.shouldBlockUrl "http://evil.pdf.example.com/x".toList
        ⟨none, none, some [], none, true, false, false, none⟩ = true ∧
      isMediaLink "http://example.com/a.png/payload.exe".toList = true ∧
      LinkProtection.shouldBlockUrl "http://example.com/a.png/payload.exe".toList
        ⟨none, none, some [], none, true, true, false, none⟩ = false ∧
      LinkProtection.shouldBlockUrl "http://example.com/a.png/payload.exe".toList
        ⟨none, none, some [], none, true, false, false, none⟩ = true ∧
      extractUrls "see http://evil.pdf.example.com/x".toList =
        ["http://evil.pdf.example.com/x".toList] ∧
      extractUrls "see http://example.com/a.png/payload.exe".toList =
        ["http://example.com/a.png/payload.exe".toList] ∧
      (LinkProtection.handleMessage samplePlatform
        (.resolved (some ⟨some ⟨true, some ⟨none, none, some [], none, true, true, false, none⟩⟩,
          none⟩))
        (sampleMessage "see http://evil.pdf.example.com/x".toList)).allowed = true := by
  refine ⟨?_, ?_, ?_, ?_, ?_, ?_, ?_, ?_, ?_⟩ <;> decide

/-! ## Whitelists and bypass permissions -/

theorem link_isUserWhitelisted_of_listed (uid : JSString) (member : Option Member)
    (config : LinkConfig) (h : Listed uid member config.whitelist_users config.whitelist_roles) :
    LinkProtection.isUserWhitelisted uid member config = true := by
  unfold LinkProtection.isUserWhitelisted
  simp only []
  rcases h with h | ⟨r, hr, hm⟩
  · cases hu : config.whitelist_users with
    | none => rw [hu] at h; simp at h
    | some l =>
      rw [hu] at h
      simp only [Option.getD_some] at h
      have hlen : l.length > 0 := List.length_pos_of_mem h
      simp [hlen, h]
  · cases hrs : config.whitelist_roles with
    | none => rw [hrs] at hr; simp at hr
    | some l =>
      rw [hrs] at hr
      simp only [Option.getD_some] at hr
      cases hmr : member.bind (·.roles) with
      | none => rw [hmr] at hm; simp at hm
      | some userRoles =>
        rw [hmr] at hm
        simp only [Option.getD_some] at hm
        have hlen : l.length > 0 := List.length_pos_of_mem hr
        have hany : (l.any fun roleId => userRoles.contains roleId) = true := by
          rw [List.any_eq_true]
          exact ⟨r, hr, by simpa using hm⟩
        split_ifs
        · rfl
        · simp only [hlen, hany, decide_True, Bool.and_self]

theorem spam_isUserWhitelisted_of_listed (uid : JSString) (member : Option Member)
    (feature : SpamFeature) (sconfig : SpamConfig) (hc : feature.config = some sconfig)
    (h : Listed uid member sconfig.whitelist_users sconfig.whitelist_roles) :
    AntiSpam.isUserWhitelisted uid member (SpamCfg.ofFeature feature) = true := by
  unfold AntiSpam.isUserWhitelisted SpamCfg.ofFeature
  simp only [hc, Option.some_bind]
  rcases h with h | ⟨r, hr, hm⟩
  · simp [h]
  · split_ifs
    · rfl
    · cases hmr : member.bind (·.roles) with
      | none => rw [hmr] at hm; simp at hm
      | some userRoles =>
        rw [hmr] at hm
        simp only [Option.getD_some] at hm
        simp only []
        rw [List.any_eq_true]
        exact ⟨r, hr, by simpa using hm⟩

theorem linkConfigOf_eq_some (fetched : Fetched) (config : LinkConfig)
    (h : linkConfigOf fetched = some config) :
    ∃ settings feature, fetched = .resolved (some settings) ∧
      settings.link_protection = some feature ∧ feature.config = some config := by
  cases fetched with
  | rejected => simp [linkConfigOf] at h
  | resolved s =>
    cases s with
    | none => simp [linkConfigOf] at h
    | some settings =>
      simp only [linkConfigOf] at h
      cases hf : settings.link_protection with
      | none => rw [hf] at h; simp at h
      | some feature =>
        rw [hf] at h
        exact ⟨settings, feature, rfl, hf, h⟩

theorem spamConfigOf_eq_some (fetched : Fetched) (sconfig : SpamConfig)
    (h : spamConfigOf fetched = some sconfig) :
    ∃ settings feature, fetched = .resolved (some settings) ∧
      settings.anti_spam = some feature ∧ feature.config = some sconfig := by
  cases fetched with
  | rejected => simp [spamConfigOf] at h
  | resolved s =>
    cases s with
    | none => simp [spamConfigOf] at h
    | some settings =>
      simp only [spamConfigOf] at h
      cases hf : settings.anti_spam with
      | none => rw [hf] at h; simp at h
      | some feature =>
        rw [hf] at h
        exact ⟨settings, feature, rfl, hf, h⟩

/-- C9. Whitelist exemption. For a message whose author id is in the
`whitelist_users` of a policy, or whose member holds a role of its
`whitelist_roles`, the handler of that policy returns true and attempts no
platform call (no deletion, no direct message, no punishment), whatever the
content; the anti-spam handler also leaves the activity map untouched, so the
prior activity of the user plays no part. -/
theorem whitelisted_author_is_exempt (pf : Platform) (fetched : Fetched) (now : Int)
    (act : Activity) (message : Message) (uid : JSString) (hid : message.authorId = some uid) :
    (∀ config, linkConfigOf fetched = some config →
      Listed uid message.member config.whitelist_users config.whitelist_roles →
      (LinkProtection.handleMessage pf fetched message).allowed = true ∧
        (LinkProtection.handleMessage pf fetched message).actions = []) ∧
    (∀ sconfig, spamConfigOf fetched = some sconfig →
      Listed uid message.member sconfig.whitelist_users sconfig.whitelist_roles →
      (AntiSpam.handleMessage pf fetched now act message).allowed = true ∧
        (AntiSpam.handleMessage pf fetched now act message).actions = [] ∧
        (AntiSpam.handleMessage pf fetched now act message).activity = act) := by
  constructor
  · intro config hcfg hl
    have hw := link_isUserWhitelisted_of_listed uid message.member config hl
    obtain ⟨settings, feature, rfl, hf, hc⟩ := linkConfigOf_eq_some fetched config hcfg
    unfold LinkProtection.handleMessage
    cases hg : message.guildId with
    | none => simp [hid]
    | some gid =>
      simp only [hid, hf, hc, hw]
      split_ifs <;> exact ⟨rfl, rfl⟩
  · intro sconfig hcfg hl
    obtain ⟨settings, feature, rfl, hf, hc⟩ := spamConfigOf_eq_some fetched sconfig hcfg
    have hw := spam_isUserWhitelisted_of_listed uid message.member feature sconfig hc hl
    unfold AntiSpam.handleMessage
    cases hg : message.guildId with
    | none => exact ⟨rfl, rfl, rfl⟩
    | some gid =>
      simp only [hid, hf, hw, Option.some_bind]
      split_ifs <;> exact ⟨rfl, rfl, rfl⟩

theorem whitelisted_author_is_exempt_witness :
    (LinkProtection.handleMessage samplePlatform
        (.resolved (some
          ⟨some ⟨true, some ⟨some ["u1".toList], none, some [], some "ban".toList, true, false,
            true, some []⟩⟩,
            some ⟨true, some ⟨some 0, some 5, some 1, some 0, some 1, some ["r1".toList], none,
              some "ban".toList⟩⟩⟩))
        ⟨some "g1".toList, some "u1".toList, some ⟨some ["r1".toList], none⟩,
          some "http://evil-shortener.biz/x @everyone".toList⟩).allowed = true ∧
      (AntiSpam.handleMessage samplePlatform
        (.resolved (some
          ⟨some ⟨true, some ⟨some ["u1".toList], none, some [], some "ban".toList, true, false,
            true, some []⟩⟩,
            some ⟨true, some ⟨some 0, some 5, some 1, some 0, some 1, some ["r1".toList], none,
              some "ban".toList⟩⟩⟩)) 0 Activity.empty
        ⟨some "g1".toList, some "u1".toList, some ⟨some ["r1".toList], none⟩,
          some "http://evil-shortener.biz/x @everyone".toList⟩).allowed = true :=
  have h := whitelisted_author_is_exempt samplePlatform
    (.resolved (some
      ⟨some ⟨true, some ⟨some ["u1".toList], none, some [], some "ban".toList, true, false,
        true, some []⟩⟩,
        some ⟨true, some ⟨some 0, some 5, some 1, some 0, some 1, some ["r1".toList], none,
          some "ban".toList⟩⟩⟩)) 0 Activity.empty
    ⟨some "g1".toList, some "u1".toList, some ⟨some ["r1".toList], none⟩,
      some "http://evil-shortener.biz/x @everyone".toList⟩ "u1".toList rfl
  ⟨(h.1 _ rfl (Or.inl (by decide))).1,
    (h.2 _ rfl (Or.inr ⟨"r1".toList, by decide, by decide⟩)).1⟩

theorem hasBypassPermissions_of_administrator (member : Member) (perms : Permissions)
    (config : LinkConfig) (hp : member.permissions = some perms)
    (hadmin : perms.administrator = true)
    (hb : config.bypass_permissions = none ∨
      ∃ l, config.bypass_permissions = some l ∧ "ADMINISTRATOR".toList ∈ l) :
    LinkProtection.hasBypassPermissions (some member) config = true := by
  unfold LinkProtection.hasBypassPermissions
  simp only [Option.some_bind, hp]
  rw [List.any_eq_true]
  refine ⟨"ADMINISTRATOR".toList, ?_, by simp [hadmin]⟩
  rcases hb with hb | ⟨l, hb, hl⟩
  · rw [hb]
    decide
  · rw [hb]
    exact hl

/-- C10, counterexample. With `bypass_permissions` stored as an empty list, a
member who holds the Administrator permission gets no bypass: the link of the
message is classified, the message is deleted and `handleMessage` returns
false. -/
theorem administrator_not_exempt_with_empty_bypass_list :
    (LinkProtection.handleMessage samplePlatform
        (sampleLinkSettings ["discord.com".toList] "delete".toList (some []))
        (sampleAdminMessage "check out http://evil-shortener.biz/x".toList)).allowed = false ∧
      (LinkProtection.handleMessage samplePlatform
        (sampleLinkSettings ["discord.com".toList] "delete".toList (some []))
        (sampleAdminMessage "check out http://evil-shortener.biz/x".toList)).checked
          = ["http://evil-shortener.biz/x".toList] ∧
      (LinkProtection.handleMessage samplePlatform
        (sampleLinkSettings ["discord.com".toList] "delete".toList (some []))
        (sampleAdminMessage "check out http://evil-shortener.biz/x".toList)).actions
          = [Action.delete] := by
  refine ⟨?_, ?_, ?_⟩ <;> decide

/-- C10, amended. Administrator bypass. For a link-protection configuration
whose `bypass_permissions` is absent (the default list applies) or contains
`ADMINISTRATOR`, and a message whose member holds the Administrator
permission, `handleMessage` returns true, hands no url to the classifier and
attempts no platform call. -/
theorem administrator_bypass_when_configured (pf : Platform) (fetched : Fetched)
    (message : Message) (member : Member) (perms : Permissions) (config : LinkConfig)
    (hm : message.member = some member) (hp : member.permissions = some perms)
    (hadmin : perms.administrator = true) (hcfg : linkConfigOf fetched = some config)
    (hb : config.bypass_permissions = none ∨
      ∃ l, config.bypass_permissions = some l ∧ "ADMINISTRATOR".toList ∈ l) :
    (LinkProtection.handleMessage pf fetched message).allowed = true ∧
      (LinkProtection.handleMessage pf fetched message).checked = [] ∧
      (LinkProtection.handleMessage pf fetched message).actions = [] := by
  have hby := hasBypassPermissions_of_administrator member perms config hp hadmin hb
  obtain ⟨settings, feature, rfl, hf, hc⟩ := linkConfigOf_eq_some fetched config hcfg
  unfold LinkProtection.handleMessage
  cases message.authorId with
  | none => exact ⟨rfl, rfl, rfl⟩
  | some uid =>
    cases message.guildId with
    | none => exact ⟨rfl, rfl, rfl⟩
    | some gid =>
      simp only [hf, hc, hm, hby]
      split_ifs <;> exact ⟨rfl, rfl, rfl⟩

theorem administrator_bypass_when_configured_witness :
    (LinkProtection.handleMessage samplePlatform
        (sampleLinkSettings ["discord.com".toList] "ban".toList (some ["ADMINISTRATOR".toList]))
        (sampleAdminMessage "check out http://evil-shortener.biz/x".toList)).allowed = true ∧
      (LinkProtection.handleMessage samplePlatform
        (sampleLinkSettings ["discord.com".toList] "ban".toList (some ["ADMINISTRATOR".toList]))
        (sampleAdminMessage "check out http://evil-shortener.biz/x".toList)).checked = [] ∧
      (LinkProtection.handleMessage samplePlatform
        (sampleLinkSettings ["discord.com".toList] "ban".toList (some ["ADMINISTRATOR".toList]))
        (sampleAdminMessage "check out http://evil-shortener.biz/x".toList)).actions = [] :=
  administrator_bypass_when_configured samplePlatform
    (sampleLinkSettings ["discord.com".toList] "ban".toList (some ["ADMINISTRATOR".toList]))
    (sampleAdminMessage "check out http://evil-shortener.biz/x".toList)
    ⟨some [], some ⟨true, false⟩⟩ ⟨true, false⟩ _ rfl rfl rfl rfl
    (Or.inr ⟨["ADMINISTRATOR".toList], rfl, by decide⟩)

/-! ## Punishment executors -/

/-- C12, the code at the failing input. For the level `timeout` the anti-spam
executor requests the timeout without attempting a direct message, while for
`timeout_10m`, which runs the same `case`, and in the link executor for
`timeout`, the direct message is attempted. For `kick` and `ban` both
executors attempt the direct message and then the call, whatever the outcome
of the direct message. -/
theorem antispam_timeout_sends_no_direct_message :
    (∀ (pf : Platform) (member : Member) (reason : JSString),
      AntiSpam.applyPunishment pf (some member) "timeout".toList reason =
          [Action.timeout 600000] ∧
        AntiSpam.applyPunishment pf (some member) "timeout_10m".toList reason =
          [Action.dm reason, Action.timeout 600000] ∧
        AntiSpam.applyPunishment pf (some member) "kick".toList reason =
          [Action.dm reason, Action.kick] ∧
        AntiSpam.applyPunishment pf (some member) "ban".toList reason =
          [Action.dm reason, Action.ban] ∧
        AntiSpam.applyPunishment pf (some member) "delete_warn".toList reason =
          [Action.dm reason] ∧
        AntiSpam.applyPunishment pf (some member) "delete".toList reason = []) ∧
    (∀ (pf : Platform) (member : Member) (url : JSString),
      LinkProtection.applyPunishment pf (some member) "timeout".toList url =
          [Action.dm url, Action.timeout 300000] ∧
        LinkProtection.applyPunishment pf (some member) "kick".toList url =
          [Action.dm url, Action.kick] ∧
        LinkProtection.applyPunishment pf (some member) "ban".toList url =
          [Action.dm url, Action.ban] ∧
        LinkProtection.applyPunishment pf (some member) "delete_warn".toList url =
          [Action.dm url] ∧
        LinkProtection.applyPunishment pf (some member) "delete".toList url = []) := by
  constructor
  · intro pf member reason
    refine ⟨?_, ?_, ?_, ?_, ?_, ?_⟩ <;> simp +decide [AntiSpam.applyPunishment]
  · intro pf member url
    refine ⟨?_, ?_, ?_, ?_, ?_⟩ <;> simp +decide [LinkProtection.applyPunishment]

/-- A message is refused by the link handler only through the violation
pipeline, for a url of its text that `shouldBlockUrl` blocks. -/
theorem link_blocked_inv (pf : Platform) (fetched : Fetched) (message : Message)
    (h : (LinkProtection.handleMessage pf fetched message).allowed = false) :
    ∃ config url content, linkConfigOf fetched = some config ∧
      message.content = some content ∧ url ∈ extractUrls content ∧
      LinkProtection.shouldBlockUrl url config = true ∧
      (LinkProtection.handleMessage pf fetched message).actions =
        LinkProtection.handleViolation pf message url config := by
  unfold LinkProtection.handleMessage at h ⊢
  cases ha : message.authorId with
  | none => rw [ha] at h; simp at h
  | some uid =>
    cases hg : message.guildId with
    | none => rw [ha, hg] at h; simp at h
    | some gid =>
      cases fetched with
      | rejected => rw [ha, hg] at h; simp at h
      | resolved s =>
        cases s with
        | none => rw [ha, hg] at h; simp at h
        | some settings =>
          cases hf : settings.link_protection with
          | none => rw [ha, hg] at h; simp [hf] at h
          | some feature =>
            cases hc : feature.config with
            | none =>
              rw [ha, hg] at h
              simp only [hf, hc] at h
              split_ifs at h
            | some config =>
              cases hm : message.content with
              | none =>
                rw [ha, hg] at h
                simp only [hf, hc, hm] at h
                split_ifs at h
              | some content =>
                rw [ha, hg] at h
                simp only [hf, hc, hm] at h ⊢
                cases hfind : List.find? (fun url => LinkProtection.shouldBlockUrl url config)
                    (extractUrls content) with
                | none =>
                  rw [hfind] at h
                  split_ifs at h
                | some url =>
                  rw [hfind] at h
                  have hmem := List.mem_of_find?_eq_some hfind
                  have hblock := List.find?_some hfind
                  refine ⟨config, url, content, ?_, rfl, hmem, hblock, ?_⟩
                  · simp [linkConfigOf, hf, hc]
                  · split_ifs at h ⊢
                    rfl

/-- C13, counterexample. In the scenario of the claim, on a platform where the
deletion of the message fails, the handler attempts the deletion and then a
reply to the message. -/
theorem link_delete_level_replies_when_deletion_fails :
    (LinkProtection.handleMessage ⟨true, false, false, false, false, false⟩
        (sampleLinkSettings ["discord.com".toList] "delete".toList none)
        (sampleMessage "check out http://evil-shortener.biz/x".toList)).allowed = false ∧
      (LinkProtection.handleMessage ⟨true, false, false, false, false, false⟩
        (sampleLinkSettings ["discord.com".toList] "delete".toList none)
        (sampleMessage "check out http://evil-shortener.biz/x".toList)).actions
          = [Action.delete, Action.reply] := by
  constructor <;> decide

/-- C13, amended. Punishment level `delete`. Whenever the link handler refuses a
message under a configuration whose punishment is `delete` (or is not set),
it attempts to delete the message and, apart from the entry in the violation
log, attempts nothing else when the deletion succeeds; when the deletion
fails it attempts a reply to the message. In neither case is there a direct
message, a timeout, a kick or a ban. -/
theorem link_delete_level_only_deletes (pf : Platform) (fetched : Fetched) (message : Message)
    (config : LinkConfig) (hcfg : linkConfigOf fetched = some config)
    (hp : config.punishment = some "delete".toList ∨ config.punishment = none)
    (hblocked : (LinkProtection.handleMessage pf fetched message).allowed = false) :
    (LinkProtection.handleMessage pf fetched message).actions.filter
        (fun a => decide (a ≠ Action.logViolation)) =
      (if pf.deleteFails then [Action.delete, Action.reply] else [Action.delete]) := by
  obtain ⟨config1, url, content, hc1, _, _, _, hact⟩ := link_blocked_inv pf fetched message hblocked
  rw [hcfg] at hc1
  simp only [Option.some.injEq] at hc1
  subst hc1
  rw [hact]
  have hnone : ∀ m, LinkProtection.applyPunishment pf m "delete".toList url = [] := by
    intro m
    cases m with
    | none => rfl
    | some mem => simp +decide [LinkProtection.applyPunishment]
  unfold LinkProtection.handleViolation
  rcases hp with hp | hp <;> rw [hp] <;> simp only [] <;>
    (have e : (if "delete".toList.isEmpty = true then "delete".toList else "delete".toList)
        = "delete".toList := by decide
     try rw [e]
     rw [hnone]
     cases pf.deleteFails <;> cases pf.replyFails <;> cases config.log_violations <;> decide)

theorem link_delete_level_only_deletes_witness :
    (LinkProtection.handleMessage samplePlatform
        (sampleLinkSettings ["discord.com".toList] "delete".toList none)
        (sampleMessage "check out http://evil-shortener.biz/x".toList)).actions.filter
        (fun a => decide (a ≠ Action.logViolation)) = [Action.delete] :=
  link_delete_level_only_deletes samplePlatform
    (sampleLinkSettings ["discord.com".toList] "delete".toList none)
    (sampleMessage "check out http://evil-shortener.biz/x".toList) _ rfl (Or.inl rfl) (by decide)

/-- C14. Timeout durations. For the punishment level `timeout` and a message of
a member, the link executor attempts a direct message and a timeout of
300000 ms, the anti-spam executor a timeout of 600000 ms; in the violation
pipeline of either handler the deletion of the message is the first call
attempted, before the timeout, and no timeout of another duration is ever
requested (in the link pipeline the punishment is skipped when the deletion
and the reply that replaces it both fail). -/
theorem timeout_durations_after_deletion (pf : Platform) (message : Message) (member : Member)
    (url reason : JSString) (config : LinkConfig) (hm : message.member = some member)
    (hp : config.punishment = some "timeout".toList) :
    LinkProtection.applyPunishment pf message.member "timeout".toList url =
        [Action.dm url, Action.timeout 300000] ∧
      AntiSpam.applyPunishment pf message.member "timeout".toList reason =
        [Action.timeout 600000] ∧
      AntiSpam.handleViolation pf message "timeout".toList reason =
        [Action.delete, Action.timeout 600000] ∧
      LinkProtection.handleViolation pf message url config =
        Action.delete ::
          (if pf.deleteFails then
            (if pf.replyFails then [Action.reply]
            else Action.reply :: Action.dm url :: Action.timeout 300000 ::
              (if config.log_violations then [Action.logViolation] else []))
          else Action.dm url :: Action.timeout 300000 ::
            (if config.log_violations then [Action.logViolation] else [])) := by
  have h1 : LinkProtection.applyPunishment pf message.member "timeout".toList url =
      [Action.dm url, Action.timeout 300000] := by
    rw [hm]
    simp +decide [LinkProtection.applyPunishment]
  have h2 : AntiSpam.applyPunishment pf message.member "timeout".toList reason =
      [Action.timeout 600000] := by
    rw [hm]
    simp +decide [AntiSpam.applyPunishment]
  refine ⟨h1, h2, ?_, ?_⟩
  · simp only [AntiSpam.handleViolation, h2]
  · have e : (if "timeout".toList.isEmpty = true then "delete".toList else "timeout".toList)
        = "timeout".toList := by decide
    simp only [LinkProtection.handleViolation, hp, e, h1]
    cases pf.deleteFails <;> cases pf.replyFails <;> simp

theorem timeout_durations_after_deletion_witness :
    AntiSpam.handleViolation samplePlatform (sampleMessage "spam".toList) "timeout".toList
        "Message flood (rate limit exceeded)".toList = [Action.delete, Action.timeout 600000] ∧
      LinkProtection.handleViolation samplePlatform
        (sampleMessage "check out http://evil-shortener.biz/x".toList)
        "http://evil-shortener.biz/x".toList
        ⟨none, none, some [], some "timeout".toList, true, false, false, none⟩ =
        [Action.delete, Action.dm "http://evil-shortener.biz/x".toList, Action.timeout 300000] :=
  have h := timeout_durations_after_deletion samplePlatform
    (sampleMessage "check out http://evil-shortener.biz/x".toList) ⟨some [], some ⟨false, false⟩⟩
    "http://evil-shortener.biz/x".toList "Message flood (rate limit exceeded)".toList
    ⟨none, none, some [], some "timeout".toList, true, false, false, none⟩ rfl rfl
  ⟨by decide, h.2.2.2⟩

/-! ## Fail-open -/

theorem link_handleMessageCaught_no_fault (pf : Platform) (fetched : Fetched) (message : Message) :
    LinkProtection.handleMessageCaught (fun _ => false) pf fetched message =
      LinkProtection.handleMessage pf fetched message := by
  unfold LinkProtection.handleMessageCaught LinkProtection.handleMessageTry
    LinkProtection.handleMessage
  simp only [Bool.false_eq_true, if_false]
  repeat' split
  all_goals first | rfl | simp_all

theorem spam_handleMessageCaught_no_fault (pf : Platform) (fetched : Fetched) (now : Int)
    (act : Activity) (message : Message) :
    AntiSpam.handleMessageCaught (fun _ => false) pf fetched now act message =
      AntiSpam.handleMessage pf fetched now act message := by
  unfold AntiSpam.handleMessageCaught AntiSpam.handleMessageTry AntiSpam.handleMessage
  simp only [Bool.false_eq_true, if_false]
  repeat' split
  all_goals first | rfl | simp_all

theorem link_try_ok_mono (fault : LinkStep → Bool) (pf : Platform) (fetched : Fetched)
    (message : Message) (r : LinkOutcome)
    (h : LinkProtection.handleMessageTry fault pf fetched message = .ok r) :
    LinkProtection.handleMessageTry (fun _ => false) pf fetched message = .ok r := by
  unfold LinkProtection.handleMessageTry at h ⊢
  simp only [Bool.false_eq_true, if_false]
  repeat' split at h
  all_goals first | cases h | skip
  all_goals simp_all

theorem spam_try_ok_mono (fault : SpamStep → Bool) (pf : Platform) (fetched : Fetched)
    (now : Int) (act : Activity) (message : Message) (r : SpamOutcome)
    (h : AntiSpam.handleMessageTry fault pf fetched now act message = .ok r) :
    AntiSpam.handleMessageTry (fun _ => false) pf fetched now act message = .ok r := by
  unfold AntiSpam.handleMessageTry at h ⊢
  simp only [Bool.false_eq_true, if_false]
  repeat' split at h
  all_goals first | cases h | skip
  all_goals first | (simp_all; done) | (dsimp only at h; split at h <;> simp_all)

theorem spam_blocked_verdict (pf : Platform) (fetched : Fetched) (now : Int) (act : Activity)
    (message : Message) (h : (AntiSpam.handleMessage pf fetched now act message).allowed = false) :
    (AntiSpam.handleMessage pf fetched now act message).verdict ≠ Verdict.pass := by
  unfold AntiSpam.handleMessage at h ⊢
  cases hg : message.guildId with
  | none => simp [hg] at h
  | some gid =>
    cases fetched with
    | rejected => simp [hg] at h
    | resolved settings =>
      cases hs : settings.bind (·.anti_spam) with
      | none => simp [hg, hs] at h
      | some feature =>
        cases he : feature.enabled with
        | false => simp [hg, hs, he] at h
        | true =>
          cases ha : message.authorId with
          | none => simp [hg, hs, he, ha] at h
          | some uid =>
            cases hw : AntiSpam.isUserWhitelisted uid message.member (SpamCfg.ofFeature feature) with
            | true => simp [hg, hs, he, ha, hw] at h
            | false =>
              simp only [hg, hs, he, ha, hw] at h ⊢
              generalize (spamRules _ now _ _).1 = v at h ⊢
              cases v <;> simp_all

theorem link_try_error_of_input (fault : LinkStep → Bool) (pf : Platform) (fetched : Fetched)
    (message : Message)
    (h : fetched = .rejected ∨ fetched = .resolved none ∨ message.authorId = none ∨
      message.guildId = none) :
    LinkProtection.handleMessageTry fault pf fetched message = .error () := by
  unfold LinkProtection.handleMessageTry
  cases hl : fault .log
  · cases ha : message.authorId with
    | none => simp
    | some uid =>
      cases hg : message.guildId with
      | none => simp
      | some gid =>
        cases hf : fault .fetch
        · rcases h with h | h | h | h
          · subst h; simp
          · subst h; simp
          · simp [ha] at h
          · simp [hg] at h
        · simp
  · simp

theorem spam_try_error_of_rejected (fault : SpamStep → Bool) (pf : Platform) (now : Int)
    (act : Activity) (message : Message) (hg : message.guildId ≠ none) :
    AntiSpam.handleMessageTry fault pf Fetched.rejected now act message = .error () := by
  unfold AntiSpam.handleMessageTry
  cases h : message.guildId with
  | none => exact absurd h hg
  | some gid => cases hf : fault .fetch <;> simp

theorem link_caught_false_inv (fault : LinkStep → Bool) (pf : Platform) (fetched : Fetched)
    (message : Message)
    (h : (LinkProtection.handleMessageCaught fault pf fetched message).allowed = false) :
    LinkProtection.handleMessageTry fault pf fetched message =
        .ok (LinkProtection.handleMessage pf fetched message) ∧
      (LinkProtection.handleMessage pf fetched message).allowed = false := by
  have hr : ∃ r, LinkProtection.handleMessageTry fault pf fetched message = .ok r ∧
      r.allowed = false := by
    unfold LinkProtection.handleMessageCaught at h
    split at h
    · exact ⟨_, ‹_›, h⟩
    · simp at h
  obtain ⟨r, hr, hfalse⟩ := hr
  have h0 := link_try_ok_mono fault pf fetched message r hr
  have h1 := link_handleMessageCaught_no_fault pf fetched message
  unfold LinkProtection.handleMessageCaught at h1
  rw [h0] at h1
  dsimp only at h1
  rw [← h1]
  exact ⟨hr, hfalse⟩

theorem spam_caught_false_inv (fault : SpamStep → Bool) (pf : Platform) (fetched : Fetched)
    (now : Int) (act : Activity) (message : Message)
    (h : (AntiSpam.handleMessageCaught fault pf fetched now act message).allowed = false) :
    AntiSpam.handleMessageTry fault pf fetched now act message =
        .ok (AntiSpam.handleMessage pf fetched now act message) ∧
      (AntiSpam.handleMessage pf fetched now act message).allowed = false := by
  have hr : ∃ r, AntiSpam.handleMessageTry fault pf fetched now act message = .ok r ∧
      r.allowed = false := by
    unfold AntiSpam.handleMessageCaught at h
    split at h
    · exact ⟨_, ‹_›, h⟩
    · simp at h
  obtain ⟨r, hr, hfalse⟩ := hr
  have h0 := spam_try_ok_mono fault pf fetched now act message r hr
  have h1 := spam_handleMessageCaught_no_fault pf fetched now act message
  unfold AntiSpam.handleMessageCaught at h1
  rw [h0] at h1
  dsimp only at h1
  rw [← h1]
  exact ⟨hr, hfalse⟩

/-- C11. Fail-open. Each handler is the body of its `try` block under a `catch`
that returns `true`. Whenever the body raises an error, at any step and for
any cause, the handler returns `true` and attempts no platform call, and the
anti-spam handler leaves the activity map as it was. A rejected settings
fetch, null settings and a message without author or guild raise such an error
in the link handler, a rejected fetch in the anti-spam handler. A handler
returns `false` only when its body ran to the end without an error and
produced the outcome of the evaluation without faults, in which a url was
found blocked, respectively a rule fired. -/
theorem handlers_fail_open (pf : Platform) (fetched : Fetched) (now : Int) (act : Activity)
    (message : Message) :
    (LinkProtection.handleMessage pf fetched message =
        LinkProtection.handleMessageCaught (fun _ => false) pf fetched message ∧
      AntiSpam.handleMessage pf fetched now act message =
        AntiSpam.handleMessageCaught (fun _ => false) pf fetched now act message) ∧
    (∀ fault e, LinkProtection.handleMessageTry fault pf fetched message = .error e →
      (LinkProtection.handleMessageCaught fault pf fetched message).allowed = true ∧
      (LinkProtection.handleMessageCaught fault pf fetched message).actions = []) ∧
    (∀ fault e, AntiSpam.handleMessageTry fault pf fetched now act message = .error e →
      (AntiSpam.handleMessageCaught fault pf fetched now act message).allowed = true ∧
      (AntiSpam.handleMessageCaught fault pf fetched now act message).actions = [] ∧
      (AntiSpam.handleMessageCaught fault pf fetched now act message).activity = act) ∧
    (∀ fault, (fetched = .rejected ∨ fetched = .resolved none ∨ message.authorId = none ∨
        message.guildId = none) →
      LinkProtection.handleMessageTry fault pf fetched message = .error ()) ∧
    (∀ fault, fetched = .rejected → message.guildId ≠ none →
      AntiSpam.handleMessageTry fault pf fetched now act message = .error ()) ∧
    (∀ fault, (LinkProtection.handleMessageCaught fault pf fetched message).allowed = false →
      LinkProtection.handleMessageTry fault pf fetched message =
          .ok (LinkProtection.handleMessage pf fetched message) ∧
        ∃ config url content, linkConfigOf fetched = some config ∧
          message.content = some content ∧ url ∈ extractUrls content ∧
          LinkProtection.shouldBlockUrl url config = true) ∧
    (∀ fault, (AntiSpam.handleMessageCaught fault pf fetched now act message).allowed = false →
      AntiSpam.handleMessageTry fault pf fetched now act message =
          .ok (AntiSpam.handleMessage pf fetched now act message) ∧
        (AntiSpam.handleMessage pf fetched now act message).verdict ≠ Verdict.pass) := by
  refine ⟨⟨(link_handleMessageCaught_no_fault pf fetched message).symm,
    (spam_handleMessageCaught_no_fault pf fetched now act message).symm⟩, ?_, ?_, ?_, ?_, ?_, ?_⟩
  · intro fault e h
    unfold LinkProtection.handleMessageCaught
    rw [h]
    exact ⟨rfl, rfl⟩
  · intro fault e h
    unfold AntiSpam.handleMessageCaught
    rw [h]
    exact ⟨rfl, rfl, rfl⟩
  · intro fault h
    exact link_try_error_of_input fault pf fetched message h
  · intro fault h hg
    subst h
    exact spam_try_error_of_rejected fault pf now act message hg
  · intro fault h
    obtain ⟨h1, h2⟩ := link_caught_false_inv fault pf fetched message h
    refine ⟨h1, ?_⟩
    obtain ⟨config, url, content, a, b, c, d, _⟩ := link_blocked_inv pf fetched message h2
    exact ⟨config, url, content, a, b, c, d⟩
  · intro fault h
    obtain ⟨h1, h2⟩ := spam_caught_false_inv fault pf fetched now act message h
    exact ⟨h1, spam_blocked_verdict pf fetched now act message h2⟩

theorem handlers_fail_open_witness :
    LinkProtection.handleMessageTry (fun _ => false) samplePlatform Fetched.rejected
        (sampleMessage "check out http://evil-shortener.biz/x".toList) = .error () ∧
      (LinkProtection.handleMessage samplePlatform Fetched.rejected
        (sampleMessage "check out http://evil-shortener.biz/x".toList)).allowed = true :=
  have h := handlers_fail_open samplePlatform Fetched.rejected 0 Activity.empty
    (sampleMessage "check out http://evil-shortener.biz/x".toList)
  have e := h.2.2.2.1 (fun _ => false) (Or.inl rfl)
  ⟨e, h.1.1 ▸ (h.2.1 (fun _ => false) () e).1⟩

/-! ## Member verification -/

theorem roleCached_id {g : GuildView} {id : JSString} {r : RoleInfo}
    (h : g.roleCached id = some r) : r.id = id := by
  have := List.find?_some h
  simpa using this

theorem validateChannel_of_orNull {g : GuildView} {cid : JSString} {ch : ChannelInfo}
    (h : g.channelOrNull cid = some ch) : validateChannel g cid = some (some ch) := by
  unfold GuildView.channelOrNull at h
  unfold validateChannel
  cases hc : g.channelCached cid with
  | some c => simp [hc] at h ⊢; exact h
  | none =>
    simp only [hc] at h ⊢
    cases hf : g.channelsFetch cid <;> simp [hf, Lookup.orNull] at h ⊢
    exact h

theorem unverifiedRoleLookupThrows_of_orNull {g : GuildView} {cfg : VerifConfig} {rid : JSString}
    {r : RoleInfo} (hr : cfg.unverified_role_id = some rid) (h : g.roleOrNull rid = some r) :
    unverifiedRoleLookupThrows g cfg = false := by
  unfold GuildView.roleOrNull at h
  unfold unverifiedRoleLookupThrows
  rw [hr]
  cases hc : g.roleCached rid with
  | some c => simp only [hc]
  | none =>
    simp only [hc] at h ⊢
    cases hf : g.rolesFetch rid <;> simp [hf, Lookup.orNull] at h ⊢

/-- C15. On a consistent guild `ensureForGuild` does nothing. When the read of the
settings succeeds, the stored policy is enabled with a member role configured,
the configured channel resolves (from the cache or by a fetch) to a text
channel, the configured Unverified role resolves, and the fetch of the
configured message finds it, the run attempts no role or channel creation or
deletion, no message send or delete, no settings write and no
`disableAndPurge`, and leaves the stored policy and the cooldown map as they
were; a second run, at any later time, does the same. -/
theorem ensureForGuild_idempotent_on_consistent_guild (o : VOracle) (g : GuildView)
    (now later : Int) (st : VState) (cfg : VerifConfig) (mrid cid rid mid : JSString)
    (ch : ChannelInfo) (r : RoleInfo) (m : MsgInfo)
    (hread : o.readFails ReadSite.ensure = false)
    (hstored : st.stored = some ⟨true, some cfg⟩)
    (hmember : cfg.member_role_id = some mrid)
    (hchannel : cfg.channel_id = some cid) (hlive : g.channelOrNull cid = some ch)
    (htext : ch.textBased = true)
    (hrole : cfg.unverified_role_id = some rid) (hrlive : g.roleOrNull rid = some r)
    (hmessage : cfg.message_id = some mid) (hmlive : ch.messagesFetch mid = Lookup.found m) :
    Verification.ensureForGuild o g now st = ⟨[], st⟩ ∧
      Verification.ensureForGuild o g later (Verification.ensureForGuild o g now st).state =
        ⟨[], st⟩ := by
  have key : ∀ t, Verification.ensureForGuild o g t st = ⟨[], st⟩ := by
    intro t
    have hcfg : st.config = cfg := by simp [VState.config, hstored]
    have hmsg : messageDeleted cfg (some ch) = false := by
      simp [messageDeleted, hmessage, htext, hmlive]
    have hens : Verification.ensureMessage o g t st cfg ch = ⟨[], st⟩ := by
      unfold Verification.ensureMessage
      rw [hmessage]
      cases hc : ch.messageCached mid <;> simp [hc, hmlive, Lookup.orNull]
    have hrl : Verification.ensureRole o g t st cfg ch = ⟨[], st⟩ := by
      unfold Verification.ensureRole
      simp only [hrole, hrlive]
      exact hens
    have hval : Verification.validate o g t st cfg = ⟨[], st⟩ := by
      unfold Verification.validate
      simp only [hchannel, validateChannel_of_orNull hlive,
        unverifiedRoleLookupThrows_of_orNull hrole hrlive, hmsg, htext]
      simpa using hrl
    unfold Verification.ensureForGuild
    simp only [hread, hcfg, hstored, hmember, hchannel]
    simpa using hval
  rw [key now]
  exact ⟨rfl, key later⟩

theorem ensureForGuild_idempotent_on_consistent_guild_witness :
    Verification.ensureForGuild sampleOracle
        (sampleGuild [sampleChannel (Lookup.found ⟨"m1".toList, true⟩)]) 1000
        (sampleState ⟨true, some sampleVerifConfig⟩) =
      ⟨[], sampleState ⟨true, some sampleVerifConfig⟩⟩ :=
  (ensureForGuild_idempotent_on_consistent_guild sampleOracle
    (sampleGuild [sampleChannel (Lookup.found ⟨"m1".toList, true⟩)]) 1000 2000
    (sampleState ⟨true, some sampleVerifConfig⟩) sampleVerifConfig "r1".toList "c1".toList
    "r2".toList "m1".toList (sampleChannel (Lookup.found ⟨"m1".toList, true⟩))
    ⟨"r2".toList, true, ["u7".toList]⟩ ⟨"m1".toList, true⟩ rfl rfl rfl rfl rfl rfl rfl rfl
    rfl rfl).1

theorem disableAndPurge_automatic (o : VOracle) (g : GuildView) (now : Int) (st : VState)
    (reason : JSString) (hauto : isManualDisable reason = false) :
    DisablesUnlessCooling o g now st (Verification.disableAndPurge o g now st reason) := by
  unfold DisablesUnlessCooling Verification.disableAndPurge
  refine ⟨⟨reason, hauto, ?_⟩, ?_, ?_⟩
  · simp only [hauto]
    split
    · rfl
    · split
      · rfl
      · split <;> rfl
  · intro hc
    simp [hauto, hc]
  · intro hc hr hw
    simp [hauto, hc, hr, hw, VState.write, updateMemberVerificationSetting, VerifConfig.empty]

theorem ensureForGuild_channel_gone (o : VOracle) (g : GuildView) (now : Int) (st : VState)
    (cfg : VerifConfig) (mrid cid : JSString)
    (hread : o.readFails ReadSite.ensure = false)
    (hstored : st.stored = some ⟨true, some cfg⟩)
    (hmember : cfg.member_role_id = some mrid)
    (hchannel : cfg.channel_id = some cid) (hgone : g.channelOrNull cid = none) :
    ∃ reason, isManualDisable reason = false ∧
      Verification.ensureForGuild o g now st = Verification.disableAndPurge o g now st reason := by
  have hcfg : st.config = cfg := by simp [VState.config, hstored]
  have hc : g.channelCached cid = none := by
    unfold GuildView.channelOrNull at hgone
    cases h : g.channelCached cid with
    | none => rfl
    | some c => simp [h] at hgone
  have hval : ∃ reason, isManualDisable reason = false ∧
      Verification.validate o g now st cfg = Verification.disableAndPurge o g now st reason := by
    unfold Verification.validate
    simp only [hchannel]
    unfold GuildView.channelOrNull at hgone
    simp only [hc] at hgone
    unfold validateChannel
    simp only [hc]
    cases hf : g.channelsFetch cid with
    | fails code =>
      exact ⟨"Verification channel was deleted by user".toList, by decide, rfl⟩
    | found c => simp [hf, Lookup.orNull] at hgone
    | missing =>
      simp only []
      by_cases hr : unverifiedRoleLookupThrows g cfg = true
      · exact ⟨"Unverified role was deleted by user".toList, by decide, by rw [if_pos hr]⟩
      · rw [if_neg hr]
        have hm : messageDeleted cfg none = false := by
          unfold messageDeleted
          cases cfg.message_id <;> rfl
        rw [hm]
        exact ⟨"Verification channel not text-based".toList, by decide, rfl⟩
  unfold Verification.ensureForGuild
  simp only [hread, hcfg, hstored, hmember, hchannel]
  simpa using hval

theorem channelDelete_configured (o : VOracle) (g : GuildView) (now : Int) (st : VState)
    (cfg : VerifConfig) (enabled : Bool) (cid : JSString)
    (hread : o.readFails ReadSite.handler = false)
    (hstored : st.stored = some ⟨enabled, some cfg⟩)
    (hchannel : cfg.channel_id = some cid) :
    channelDelete o g now st cid =
      Verification.disableAndPurge o g now st "Verification channel deleted by user".toList := by
  have hcfg : st.config = cfg := by simp [VState.config, hstored]
  unfold channelDelete
  simp [hread, hcfg, hstored, hchannel]

/-- C16, the claim fails under the cooldown. In guild `g1` an automatic disable
ran at time 1000000 and set the cooldown; verification was then enabled again
with channel `c1` and message `m1`, and the channel was deleted. One minute
after the disable, `ensureForGuild` and the `channelDelete` handler invoke
`disableAndPurge`, which returns at once: the stored policy stays enabled and
keeps `channel_id` and `message_id`. -/
theorem channel_drift_under_cooldown_keeps_message_id :
    (sampleCoolingState ⟨true, some sampleVerifConfig⟩).disableCooldowns "g1".toList =
        some 1000000 ∧
      ((sampleGuild []).channelOrNull "c1".toList).isNone = true ∧
      (Verification.ensureForGuild sampleOracle (sampleGuild []) 1060000
        (sampleCoolingState ⟨true, some sampleVerifConfig⟩)).events =
        [VEvent.purge "Verification channel was deleted by user".toList] ∧
      (Verification.ensureForGuild sampleOracle (sampleGuild []) 1060000
        (sampleCoolingState ⟨true, some sampleVerifConfig⟩)).state.stored =
        some ⟨true, some sampleVerifConfig⟩ ∧
      (channelDelete sampleOracle (sampleGuild []) 1060000
        (sampleCoolingState ⟨true, some sampleVerifConfig⟩) "c1".toList).events =
        [VEvent.purge "Verification channel deleted by user".toList] ∧
      (channelDelete sampleOracle (sampleGuild []) 1060000
        (sampleCoolingState ⟨true, some sampleVerifConfig⟩) "c1".toList).state.stored =
        some ⟨true, some sampleVerifConfig⟩ ∧
      sampleVerifConfig.message_id = some "m1".toList := by
  decide

/-- C16, as the code has it. When verification is enabled with a member role
configured and the configured channel resolves neither from the cache nor by a
fetch, `ensureForGuild`, and likewise the `channelDelete` handler run for that
channel, invokes `disableAndPurge` with an automatic reason. While the
five-minute cooldown of an earlier automatic disable is active the call does
nothing and the stored policy is as before; otherwise, when the read and the
write of `disableAndPurge` succeed, the stored policy is left disabled with an
empty configuration, so with `channel_id` and `message_id` cleared. -/
theorem channel_drift_disables_unless_cooling (o : VOracle) (g : GuildView) (now : Int)
    (st : VState) (cfg : VerifConfig) (mrid cid : JSString)
    (hread : o.readFails ReadSite.ensure = false)
    (hhandler : o.readFails ReadSite.handler = false)
    (hstored : st.stored = some ⟨true, some cfg⟩)
    (hmember : cfg.member_role_id = some mrid)
    (hchannel : cfg.channel_id = some cid) (hgone : g.channelOrNull cid = none) :
    DisablesUnlessCooling o g now st (Verification.ensureForGuild o g now st) ∧
      DisablesUnlessCooling o g now st (channelDelete o g now st cid) := by
  obtain ⟨reason, hauto, he⟩ :=
    ensureForGuild_channel_gone o g now st cfg mrid cid hread hstored hmember hchannel hgone
  rw [he, channelDelete_configured o g now st cfg true cid hhandler hstored hchannel]
  exact ⟨disableAndPurge_automatic o g now st reason hauto,
    disableAndPurge_automatic o g now st _ (by decide)⟩

theorem channel_drift_disables_unless_cooling_witness :
    (Verification.ensureForGuild sampleOracle (sampleGuild []) 1000000
        (sampleState ⟨true, some sampleVerifConfig⟩)).state.stored =
        some ⟨false, some VerifConfig.empty⟩ ∧
      (channelDelete sampleOracle (sampleGuild []) 1000000
        (sampleState ⟨true, some sampleVerifConfig⟩) "c1".toList).state.stored =
        some ⟨false, some VerifConfig.empty⟩ :=
  have h := channel_drift_disables_unless_cooling sampleOracle (sampleGuild []) 1000000
    (sampleState ⟨true, some sampleVerifConfig⟩) sampleVerifConfig "r1".toList "c1".toList
    rfl rfl rfl rfl rfl rfl
  ⟨h.1.2.2 rfl rfl rfl, h.2.2.2 rfl rfl rfl⟩

theorem purgeChannel_events (g : GuildView) (cfg : VerifConfig) :
    ∀ e ∈ purgeChannel g cfg,
      (∃ c m, e = VEvent.deleteMessage c m) ∨ ∃ c, e = VEvent.deleteChannel c := by
  intro e he
  unfold purgeChannel at he
  split at he
  · simp at he
  · split at he
    · simp at he
    · rcases List.mem_append.1 he with h | h
      · left
        split at h
        · split at h
          · split at h
            · split at h
              · simp at h
                exact ⟨_, _, h⟩
              · simp at h
            · simp at h
          · simp at h
        · simp at h
      · right
        split at h
        · simp at h
          exact ⟨_, h⟩
        · simp at h

theorem purgeRole_events (g : GuildView) (manual : Bool) (cfg : VerifConfig) :
    ∀ e ∈ purgeRole g manual cfg,
      (∃ m r, e = VEvent.removeRole m r) ∨ ∃ r, e = VEvent.deleteRole r := by
  intro e he
  unfold purgeRole at he
  split at he
  · simp at he
  · split at he
    · simp at he
    · rcases List.mem_append.1 he with h | h
      · left
        split at h
        · simp at h
        · obtain ⟨m, _, hm⟩ := List.mem_map.1 h
          exact ⟨_, _, hm.symm⟩
      · right
        split at h
        · simp at h
          exact ⟨_, h⟩
        · simp at h

/-- The events of `disableAndPurge` are the invocation, deletions, role removals
and the clearing write: nothing is created or sent. -/
theorem disableAndPurge_events (o : VOracle) (g : GuildView) (now : Int) (st : VState)
    (reason : JSString) :
    ∀ e ∈ (Verification.disableAndPurge o g now st reason).events,
      e ≠ VEvent.createRole ∧ e ≠ VEvent.createChannel ∧ ∀ c, e ≠ VEvent.sendMessage c := by
  intro e he
  have hshape : e = VEvent.purge reason ∨ e ∈ purgeChannel g
      (if isManualDisable reason = true then st else
        { st with disableCooldowns := fun k => if k = g.id then some now
          else st.disableCooldowns k }).config ∨
      e ∈ purgeRole g (isManualDisable reason) (if isManualDisable reason = true then st else
        { st with disableCooldowns := fun k => if k = g.id then some now
          else st.disableCooldowns k }).config ∨
      e = VEvent.writeSettings false VerifConfig.empty := by
    unfold Verification.disableAndPurge at he
    dsimp only at he
    by_cases h1 : (!isManualDisable reason && cooldownActive st g.id now) = true
    · rw [if_pos h1] at he
      exact Or.inl (List.mem_singleton.1 he)
    · rw [if_neg h1] at he
      by_cases h2 : o.readFails ReadSite.purge = true
      · rw [if_pos h2] at he
        exact Or.inl (List.mem_singleton.1 he)
      · rw [if_neg h2] at he
        have he1 : e ∈ VEvent.purge reason :: (purgeChannel g
            (if isManualDisable reason = true then st else
              { st with disableCooldowns := fun k => if k = g.id then some now
                else st.disableCooldowns k }).config ++
            purgeRole g (isManualDisable reason) (if isManualDisable reason = true then st else
              { st with disableCooldowns := fun k => if k = g.id then some now
                else st.disableCooldowns k }).config ++
            [VEvent.writeSettings false VerifConfig.empty]) := by
          by_cases h3 : o.writeFails WriteSite.purge = true
          · rw [if_pos h3] at he
            exact he
          · rw [if_neg h3] at he
            exact he
        simp only [List.mem_cons, List.mem_append, List.mem_singleton, List.not_mem_nil,
          or_false] at he1
        tauto
  rcases hshape with h | h | h | h
  · subst h
    simp
  · rcases purgeChannel_events _ _ e h with ⟨c, m, h⟩ | ⟨c, h⟩ <;> subst h <;> simp
  · rcases purgeRole_events _ _ _ e h with ⟨c, m, h⟩ | ⟨c, h⟩ <;> subst h <;> simp
  · subst h
    simp

/-- C17, the claim fails. Verification is enabled in guild `g1`, the channel `c1`
and both roles are live, and the fetch of the configured message `m1` rejects
with code 10008 (Unknown Message). `ensureForGuild` sends no message: it invokes
`disableAndPurge`, which deletes the channel, removes and deletes the
Unverified role and stores a disabled policy with an empty configuration. -/
theorem unknown_message_purges_instead_of_recreating :
    (Verification.ensureForGuild sampleOracle (sampleGuild [sampleChannel (Lookup.fails 10008)])
        1000000 (sampleState ⟨true, some sampleVerifConfig⟩)).events =
        [VEvent.purge "Verification message was deleted by user".toList,
          VEvent.deleteChannel "c1".toList, VEvent.removeRole "u7".toList "r2".toList,
          VEvent.deleteRole "r2".toList, VEvent.writeSettings false VerifConfig.empty] ∧
      (Verification.ensureForGuild sampleOracle (sampleGuild [sampleChannel (Lookup.fails 10008)])
        1000000 (sampleState ⟨true, some sampleVerifConfig⟩)).state.stored =
        some ⟨false, some VerifConfig.empty⟩ := by
  decide

/-- C17, as the code has it. Verification is enabled with a member role
configured, the configured channel resolves to a text channel and the
configured Unverified role resolves. When the fetch of the configured message
rejects with code 10008 (Unknown Message) or resolves to nothing,
`ensureForGuild` invokes `disableAndPurge` with the reason
`Verification message was deleted by user` and neither sends a message nor
creates a role or channel. When the fetch rejects with another code and the
message is not in the message cache, `ensureForGuild` sends a new message in the
same channel and, the send and the write succeeding, stores its id as
`message_id` with the policy enabled; it does nothing else. -/
theorem message_drift_purges_or_recreates (o : VOracle) (g : GuildView) (now : Int)
    (st : VState) (cfg : VerifConfig) (mrid cid rid mid : JSString) (ch : ChannelInfo)
    (r : RoleInfo)
    (hread : o.readFails ReadSite.ensure = false)
    (hstored : st.stored = some ⟨true, some cfg⟩)
    (hmember : cfg.member_role_id = some mrid)
    (hchannel : cfg.channel_id = some cid) (hlive : g.channelOrNull cid = some ch)
    (htext : ch.textBased = true)
    (hrole : cfg.unverified_role_id = some rid) (hrlive : g.roleOrNull rid = some r)
    (hmessage : cfg.message_id = some mid) :
    ((ch.messagesFetch mid = Lookup.fails 10008 ∨ ch.messagesFetch mid = Lookup.missing) →
      Verification.ensureForGuild o g now st =
          Verification.disableAndPurge o g now st
            "Verification message was deleted by user".toList ∧
        ∀ e ∈ (Verification.ensureForGuild o g now st).events,
          e ≠ VEvent.createRole ∧ e ≠ VEvent.createChannel ∧ ∀ c, e ≠ VEvent.sendMessage c) ∧
    (∀ code newId, ch.messagesFetch mid = Lookup.fails code → code ≠ 10008 →
      ch.messageCached mid = none → o.send = some newId →
      o.writeFails WriteSite.message = false →
      Verification.ensureForGuild o g now st =
        ⟨[VEvent.sendMessage ch.id,
            VEvent.writeSettings true { cfg with message_id := some newId }],
          { st with stored := some ⟨true, some { cfg with message_id := some newId }⟩ }⟩) := by
  have hcfg : st.config = cfg := by simp [VState.config, hstored]
  have htop : Verification.ensureForGuild o g now st = Verification.validate o g now st cfg := by
    unfold Verification.ensureForGuild
    simp only [hread, hcfg, hstored, hmember, hchannel]
    simp
  have hval : Verification.validate o g now st cfg =
      if messageDeleted cfg (some ch) then
        Verification.disableAndPurge o g now st "Verification message was deleted by user".toList
      else Verification.ensureRole o g now st cfg ch := by
    unfold Verification.validate
    simp only [hchannel, validateChannel_of_orNull hlive,
      unverifiedRoleLookupThrows_of_orNull hrole hrlive, htext]
    simp
  have hmd : messageDeleted cfg (some ch) =
      match ch.messagesFetch mid with
      | .found _ => false
      | .missing => true
      | .fails code => decide (code = 10008) := by
    simp [messageDeleted, hmessage, htext]
  refine ⟨?_, ?_⟩
  · intro h
    have he : Verification.ensureForGuild o g now st =
        Verification.disableAndPurge o g now st
          "Verification message was deleted by user".toList := by
      rw [htop, hval, hmd]
      rcases h with h | h <;> simp [h]
    refine ⟨he, ?_⟩
    rw [he]
    exact disableAndPurge_events o g now st _
  · intro code newId hf hcode hcache hsend hwrite
    rw [htop, hval, hmd, hf]
    simp only [hcode, decide_False, Bool.false_eq_true, if_false]
    unfold Verification.ensureRole
    simp only [hrole, hrlive]
    unfold Verification.ensureMessage
    simp only [hmessage, hcache, hf, Lookup.orNull]
    unfold Verification.postMessage
    simp only [hsend, hwrite, Bool.false_eq_true, if_false]
    simp [VState.write, updateMemberVerificationSetting, hrole]

theorem message_drift_purges_or_recreates_witness :
    Verification.ensureForGuild sampleOracle (sampleGuild [sampleChannel (Lookup.fails 50001)])
        1000000 (sampleState ⟨true, some sampleVerifConfig⟩) =
      ⟨[VEvent.sendMessage "c1".toList,
          VEvent.writeSettings true { sampleVerifConfig with message_id := some "m9".toList }],
        { sampleState ⟨true, some sampleVerifConfig⟩ with
          stored := some ⟨true, some { sampleVerifConfig with message_id := some "m9".toList }⟩ }⟩ :=
  (message_drift_purges_or_recreates sampleOracle
    (sampleGuild [sampleChannel (Lookup.fails 50001)]) 1000000
    (sampleState ⟨true, some sampleVerifConfig⟩) sampleVerifConfig "r1".toList "c1".toList
    "r2".toList "m1".toList (sampleChannel (Lookup.fails 50001))
    ⟨"r2".toList, true, ["u7".toList]⟩ rfl rfl rfl rfl rfl rfl rfl rfl rfl).2 50001 "m9".toList
    rfl (by decide) rfl rfl rfl

/-- C18, the code at the failing input. Verification is enabled in guild `g1`
with the member role `r1`, the channel `c1` and the message `m1` live, and the
configured Unverified role `r2` has been deleted: it is not in the role cache
and `guild.roles.fetch` resolves to null. `ensureForGuild` does not invoke
`disableAndPurge`: its only calls are the creation of a replacement role and the
write that stores the new id with the policy still enabled. On the same guild
with the fetch rejecting instead, `ensureForGuild` is the call of
`disableAndPurge` with the reason `Unverified role was deleted by user`, which
creates no role and stores a disabled policy. -/
theorem missing_unverified_role_is_recreated :
    (Verification.ensureForGuild sampleOracle (sampleGuildRoleGone Lookup.missing) 1000000
        (sampleState ⟨true, some sampleVerifConfig⟩)).events =
        [VEvent.createRole,
          VEvent.writeSettings true
            { sampleVerifConfig with unverified_role_id := some "r9".toList }] ∧
      (Verification.ensureForGuild sampleOracle (sampleGuildRoleGone Lookup.missing) 1000000
        (sampleState ⟨true, some sampleVerifConfig⟩)).state.stored =
        some ⟨true, some { sampleVerifConfig with unverified_role_id := some "r9".toList }⟩ ∧
      Verification.ensureForGuild sampleOracle (sampleGuildRoleGone (Lookup.fails 10011)) 1000000
        (sampleState ⟨true, some sampleVerifConfig⟩) =
        Verification.disableAndPurge sampleOracle (sampleGuildRoleGone (Lookup.fails 10011))
          1000000 (sampleState ⟨true, some sampleVerifConfig⟩)
          "Unverified role was deleted by user".toList ∧
      (Verification.ensureForGuild sampleOracle (sampleGuildRoleGone (Lookup.fails 10011)) 1000000
        (sampleState ⟨true, some sampleVerifConfig⟩)).events =
        [VEvent.purge "Unverified role was deleted by user".toList,
          VEvent.deleteMessage "c1".toList "m1".toList, VEvent.deleteChannel "c1".toList,
          VEvent.writeSettings false VerifConfig.empty] ∧
      (Verification.ensureForGuild sampleOracle (sampleGuildRoleGone (Lookup.fails 10011)) 1000000
        (sampleState ⟨true, some sampleVerifConfig⟩)).state.stored =
        some ⟨false, some VerifConfig.empty⟩ :=
  ⟨by decide, by decide, rfl, by decide, by decide⟩

/-- With no channel configured and `auto_create_channel` set, the auto-create
branch of `ensureForGuild` runs before any validation: on guild `g1` with the
fetch of the configured Unverified role `r2` rejecting, it creates a replacement
role, then the channel and the message, and stores an enabled policy that names
them. -/
theorem auto_create_replaces_unresolved_role :
    (Verification.ensureForGuild sampleOracle (sampleGuildRoleGone (Lookup.fails 10011)) 1000000
        (sampleState ⟨true, some ⟨some "r1".toList, none, none, some "r2".toList, false, false,
          true⟩⟩)).events =
        [VEvent.createRole, VEvent.createChannel,
          VEvent.writeSettings true
            ⟨some "r1".toList, some "c9".toList, none, some "r9".toList, false, false, true⟩,
          VEvent.sendMessage "c9".toList,
          VEvent.writeSettings true
            ⟨some "r1".toList, some "c9".toList, some "m9".toList, some "r9".toList, false,
              false, true⟩] ∧
      (Verification.ensureForGuild sampleOracle (sampleGuildRoleGone (Lookup.fails 10011)) 1000000
        (sampleState ⟨true, some ⟨some "r1".toList, none, none, some "r2".toList, false, false,
          true⟩⟩)).state.stored =
        some ⟨true, some ⟨some "r1".toList, some "c9".toList, some "m9".toList,
          some "r9".toList, false, false, true⟩⟩ := by
  decide

/-- Role drift in `ensureForGuild`, call by call. Verification is enabled with a
member role configured, and the configured Unverified role is not in the role
cache. With a channel configured, a role fetch that rejects makes
`ensureForGuild` invoke `disableAndPurge` and create no role. A role fetch that
resolves to null passes the validation block: when the channel resolves to a
text channel and the message check passes, `ensureForGuild` creates a
replacement role, stores its id with the policy enabled and goes on to the
message check. With no channel configured and `auto_create_channel` set, the
first call of `ensureForGuild` is the creation of a replacement role, whatever
the fetch answered. -/
theorem role_drift_purges_only_on_fetch_error (o : VOracle) (g : GuildView) (now : Int)
    (st : VState) (cfg : VerifConfig) (mrid rid : JSString)
    (hread : o.readFails ReadSite.ensure = false)
    (hstored : st.stored = some ⟨true, some cfg⟩)
    (hmember : cfg.member_role_id = some mrid)
    (hrole : cfg.unverified_role_id = some rid) (hcache : g.roleCached rid = none) :
    (∀ cid code, cfg.channel_id = some cid → g.rolesFetch rid = Lookup.fails code →
      (∃ reason, Verification.ensureForGuild o g now st =
        Verification.disableAndPurge o g now st reason) ∧
      VEvent.createRole ∉ (Verification.ensureForGuild o g now st).events) ∧
    (∀ cid ch role, cfg.channel_id = some cid → g.channelOrNull cid = some ch →
      ch.textBased = true → messageDeleted cfg (some ch) = false →
      g.rolesFetch rid = Lookup.missing → o.roleCreate = some role →
      o.writeFails WriteSite.role = false →
      Verification.ensureForGuild o g now st =
        (Verification.ensureMessage o (g.addRole role) now
          (st.write true { cfg with unverified_role_id := some role.id })
          { cfg with unverified_role_id := some role.id } ch).after
          [VEvent.createRole,
            VEvent.writeSettings true { cfg with unverified_role_id := some role.id }]) ∧
    (∀ role, cfg.channel_id = none → cfg.auto_create_channel = true →
      (g.rolesFetch rid).orNull = none → o.roleCreate = some role →
      (Verification.ensureForGuild o g now st).events.head? = some VEvent.createRole) := by
  have hcfg : st.config = cfg := by simp [VState.config, hstored]
  refine ⟨?_, ?_, ?_⟩
  · intro cid code hchannel hf
    have he : ∃ reason, Verification.ensureForGuild o g now st =
        Verification.disableAndPurge o g now st reason := by
      have htop : Verification.ensureForGuild o g now st =
          Verification.validate o g now st cfg := by
        unfold Verification.ensureForGuild
        simp only [hread, hcfg, hstored, hmember, hchannel]
        simp
      have hthrow : unverifiedRoleLookupThrows g cfg = true := by
        simp [unverifiedRoleLookupThrows, hrole, hcache, hf]
      rw [htop]
      unfold Verification.validate
      simp only [hchannel]
      cases validateChannel g cid with
      | none => exact ⟨_, rfl⟩
      | some channel =>
        simp only [hthrow, if_true]
        exact ⟨_, rfl⟩
    refine ⟨he, ?_⟩
    obtain ⟨reason, he⟩ := he
    rw [he]
    intro hmem
    exact (disableAndPurge_events o g now st reason _ hmem).1 rfl
  · intro cid ch role hchannel hlive htext hmsg hf hcreate hwrite
    have hnothrow : unverifiedRoleLookupThrows g cfg = false := by
      simp [unverifiedRoleLookupThrows, hrole, hcache, hf]
    have hnull : g.roleOrNull rid = none := by
      simp [GuildView.roleOrNull, hcache, hf, Lookup.orNull]
    unfold Verification.ensureForGuild
    simp only [hread, hcfg, hstored, hmember, hchannel]
    simp only [Bool.not_true, Bool.false_eq_true, if_false, Option.isNone_some, Bool.false_and]
    unfold Verification.validate
    simp only [hchannel, validateChannel_of_orNull hlive, hnothrow, hmsg, htext,
      Bool.not_true, Bool.false_eq_true, if_false]
    unfold Verification.ensureRole
    simp only [hrole, hnull, hcreate, hwrite, Bool.false_eq_true, if_false, hmember, hchannel]
  · intro role hchannel hauto hf hcreate
    have hnull : g.roleOrNull rid = none := by
      simp [GuildView.roleOrNull, hcache, hf]
    unfold Verification.ensureForGuild
    simp only [hread, hcfg, hstored, hmember, hchannel, hauto]
    simp only [Bool.not_true, Bool.false_eq_true, if_false, Option.isNone_none, Bool.and_self,
      if_true]
    unfold Verification.autoCreate
    simp only [hrole, hnull, hcreate]
    cases o.channelCreate with
    | none => rfl
    | some channel =>
      simp only []
      split
      · rfl
      · split <;> rfl

theorem role_drift_purges_only_on_fetch_error_witness :
    (∃ reason, Verification.ensureForGuild sampleOracle
        (sampleGuildRoleGone (Lookup.fails 10011)) 1000000
        (sampleState ⟨true, some sampleVerifConfig⟩) =
      Verification.disableAndPurge sampleOracle (sampleGuildRoleGone (Lookup.fails 10011)) 1000000
        (sampleState ⟨true, some sampleVerifConfig⟩) reason) ∧
      VEvent.createRole ∉ (Verification.ensureForGuild sampleOracle
        (sampleGuildRoleGone (Lookup.fails 10011)) 1000000
        (sampleState ⟨true, some sampleVerifConfig⟩)).events :=
  (role_drift_purges_only_on_fetch_error sampleOracle (sampleGuildRoleGone (Lookup.fails 10011))
    1000000 (sampleState ⟨true, some sampleVerifConfig⟩) sampleVerifConfig "r1".toList
    "r2".toList rfl rfl rfl rfl rfl).1 "c1".toList 10011 rfl rfl

/-- C19, the claim fails. Verification is enabled in guild `g1` with the
Unverified role `r2` configured, and a member joins who holds the role `r5`.
When the role `r2` is not in the role cache of the guild, `handleMemberJoin`
returns without a call; when both role assignments reject, the errors are
logged and nothing changes. In both runs the member still holds `r5` and not
`r2` afterwards. -/
theorem member_join_can_leave_roles_unchanged :
    Verification.handleMemberJoin sampleOracle sampleMemberPlatform
        (sampleGuildRoleGone Lookup.missing) (some ⟨true, some sampleVerifConfig⟩)
        ["r5".toList] = ⟨[], ["r5".toList]⟩ ∧
      (Verification.handleMemberJoin sampleOracle ⟨true, true, false, false, false⟩
        (sampleGuild []) (some ⟨true, some sampleVerifConfig⟩) ["r5".toList]).roles =
        ["r5".toList] := by
  constructor
  · rfl
  · rfl

/-- When the first assignment of `handleMemberJoin` rejects and the second one
succeeds, the second one sets the empty list: the member is left without any
role. -/
theorem member_join_second_pass_after_failed_first :
    Verification.handleMemberJoin sampleOracle ⟨true, false, false, false, false⟩
        (sampleGuild []) (some ⟨true, some sampleVerifConfig⟩) ["r5".toList] =
      ⟨[MemberEvent.setRoles ["r2".toList], MemberEvent.setRoles []], []⟩ := by
  rfl

/-- C19, as the code has it. Verification is enabled with an Unverified role
configured. When that role is in the role cache of the guild and the first
role assignment succeeds, the member, whatever roles they held, holds exactly
the Unverified role after `handleMemberJoin`, whether or not the second
assignment succeeds. When the role is not in the cache, `handleMemberJoin` makes
no call and the member keeps the roles held. -/
theorem member_join_sets_only_unverified_role (o : VOracle) (mp : MemberPlatform)
    (g : GuildView) (stored : Option VerifFeature) (held : List JSString) (cfg : VerifConfig)
    (rid : JSString)
    (hread : o.readFails ReadSite.handler = false)
    (henabled : enabledConfig stored = some cfg)
    (hrole : cfg.unverified_role_id = some rid) :
    (∀ role, g.roleCached rid = some role → mp.firstSetFails = false →
      (Verification.handleMemberJoin o mp g stored held).roles = [rid] ∧
      (Verification.handleMemberJoin o mp g stored held).events =
        [MemberEvent.setRoles [rid], MemberEvent.setRoles [rid]]) ∧
    (g.roleCached rid = none →
      Verification.handleMemberJoin o mp g stored held = ⟨[], held⟩) := by
  refine ⟨?_, ?_⟩
  · intro role hcached hfirst
    have hid := roleCached_id hcached
    unfold Verification.handleMemberJoin
    simp only [hread, henabled, hrole, hcached, hfirst, hid, Bool.false_eq_true, if_false]
    cases mp.secondSetFails <;> simp
  · intro hcached
    unfold Verification.handleMemberJoin
    simp only [hread, henabled, hrole, hcached, Bool.false_eq_true, if_false]

theorem member_join_sets_only_unverified_role_witness :
    (Verification.handleMemberJoin sampleOracle sampleMemberPlatform (sampleGuild [])
        (some ⟨true, some sampleVerifConfig⟩) ["r5".toList, "r6".toList]).roles =
      ["r2".toList] :=
  ((member_join_sets_only_unverified_role sampleOracle sampleMemberPlatform (sampleGuild [])
    (some ⟨true, some sampleVerifConfig⟩) ["r5".toList, "r6".toList] sampleVerifConfig
    "r2".toList rfl rfl rfl).1 ⟨"r2".toList, true, ["u7".toList]⟩ rfl rfl).1

theorem handleVerifyButton_already (o : VOracle) (mp : MemberPlatform) (g : GuildView)
    (stored : Option VerifFeature) (interaction : Interaction) (held : List JSString)
    (cfg : VerifConfig) (mid : JSString) (mrole : RoleInfo)
    (hguild : interaction.inGuild = true) (hbutton : interaction.isButton = true)
    (hid : interaction.customId = "verify_simple".toList)
    (hread : o.readFails ReadSite.handler = false)
    (henabled : enabledConfig stored = some cfg)
    (hmember : cfg.member_role_id = some mid) (hcached : g.roleCached mid = some mrole)
    (hheld : mid ∈ held) :
    Verification.handleVerifyButton o mp g stored interaction held =
      ⟨[MemberEvent.replyAlreadyVerified], held⟩ := by
  have hmid := roleCached_id hcached
  unfold Verification.handleVerifyButton
  simp [hguild, hbutton, hid, hread, henabled, hmember, hcached, hmid, hheld]

theorem removalTarget_spec (g : GuildView) (cfg : VerifConfig) (held : List JSString)
    (hinv : ∀ r ∈ held, (g.roleCached r).isSome = true) (r : JSString) :
    removalTarget (cfg.unverified_role_id.bind g.roleCached) held = some r ↔
      (cfg.unverified_role_id = some r ∧ r ∈ held) := by
  unfold removalTarget
  cases hu : cfg.unverified_role_id with
  | none => simp
  | some rid =>
    cases hc : g.roleCached rid with
    | none =>
      have : rid ∉ held := by
        intro hin
        have := hinv rid hin
        simp [hc] at this
      simp only [Option.some_bind, hc]
      constructor
      · intro h
        cases h
      · rintro ⟨h1, h2⟩
        cases h1
        exact absurd h2 this
    | some ur =>
      have hur := roleCached_id hc
      simp only [Option.some_bind, hc, hur]
      by_cases hin : rid ∈ held
      · simp [hin]
        intro h
        exact h ▸ hin
      · simp [hin]
        intro h1 h2
        exact hin (h1 ▸ h2)

/-- The run of `handleVerifyButton` for a member who does not hold the member
role, in terms of the role that is to be removed. -/
theorem handleVerifyButton_fresh (o : VOracle) (mp : MemberPlatform) (g : GuildView)
    (stored : Option VerifFeature) (interaction : Interaction) (held : List JSString)
    (cfg : VerifConfig) (mid : JSString) (mrole : RoleInfo) (removal : Option JSString)
    (hguild : interaction.inGuild = true) (hbutton : interaction.isButton = true)
    (hid : interaction.customId = "verify_simple".toList)
    (hread : o.readFails ReadSite.handler = false)
    (henabled : enabledConfig stored = some cfg)
    (hmember : cfg.member_role_id = some mid) (hcached : g.roleCached mid = some mrole)
    (hremoval : removalTarget (cfg.unverified_role_id.bind g.roleCached) held = removal)
    (hheld : mid ∉ held) :
    Verification.handleVerifyButton o mp g stored interaction held =
      (if removal.isSome && mp.removeFails then
        ⟨(removal.map MemberEvent.remove).toList ++ [MemberEvent.replyError], held⟩
      else if mp.addFails then
        ⟨(removal.map MemberEvent.remove).toList ++
          [MemberEvent.add mid, MemberEvent.replyError], withoutRole held removal⟩
      else if mp.replyFails then
        ⟨(removal.map MemberEvent.remove).toList ++
          [MemberEvent.add mid, MemberEvent.replySuccess, MemberEvent.replyError],
          mid :: withoutRole held removal⟩
      else
        ⟨(removal.map MemberEvent.remove).toList ++
          [MemberEvent.add mid, MemberEvent.replySuccess], mid :: withoutRole held removal⟩) := by
  have hmid := roleCached_id hcached
  unfold Verification.handleVerifyButton
  simp only [hguild, hbutton, hid, hread, henabled, hmember, Option.some_bind]
  simp only [hcached, hmid, hremoval]
  simp [hheld]

/-- C20. The verify button. For a click on the verify button in a guild with
verification enabled whose configured member role is in the role cache, and a
member whose held roles are roles of the guild: a member who already holds the
member role gets the already-verified reply and no role call. Otherwise a
removal is attempted exactly for the configured Unverified role when the
member holds it, the member role is added unless that removal rejected, and
when no role call rejects the member afterwards holds the member role and not
the Unverified role (the two being different roles), and a second click
then gets the already-verified reply and changes no role. -/
theorem verify_button_grants_member_role_once (o : VOracle) (mp : MemberPlatform)
    (g : GuildView) (stored : Option VerifFeature) (interaction : Interaction)
    (held : List JSString) (cfg : VerifConfig) (mid : JSString) (mrole : RoleInfo)
    (hguild : interaction.inGuild = true) (hbutton : interaction.isButton = true)
    (hid : interaction.customId = "verify_simple".toList)
    (hread : o.readFails ReadSite.handler = false)
    (henabled : enabledConfig stored = some cfg)
    (hmember : cfg.member_role_id = some mid) (hcached : g.roleCached mid = some mrole)
    (hinv : ∀ r ∈ held, (g.roleCached r).isSome = true) :
    (mid ∈ held →
      Verification.handleVerifyButton o mp g stored interaction held =
        ⟨[MemberEvent.replyAlreadyVerified], held⟩) ∧
    (mid ∉ held →
      (∀ r, MemberEvent.remove r ∈
          (Verification.handleVerifyButton o mp g stored interaction held).events ↔
        (cfg.unverified_role_id = some r ∧ r ∈ held)) ∧
      ((mp.removeFails = false ∨ ∀ r, cfg.unverified_role_id = some r → r ∉ held) →
        MemberEvent.add mid ∈
          (Verification.handleVerifyButton o mp g stored interaction held).events) ∧
      (∀ r, MemberEvent.add r ∈
          (Verification.handleVerifyButton o mp g stored interaction held).events → r = mid) ∧
      (mp.removeFails = false → mp.addFails = false →
        mid ∈ (Verification.handleVerifyButton o mp g stored interaction held).roles ∧
        (∀ r, cfg.unverified_role_id = some r → r ≠ mid →
          r ∉ (Verification.handleVerifyButton o mp g stored interaction held).roles) ∧
        ∀ mp2, Verification.handleVerifyButton o mp2 g stored interaction
            (Verification.handleVerifyButton o mp g stored interaction held).roles =
          ⟨[MemberEvent.replyAlreadyVerified],
            (Verification.handleVerifyButton o mp g stored interaction held).roles⟩)) := by
  refine ⟨fun hheld => handleVerifyButton_already o mp g stored interaction held cfg mid mrole
    hguild hbutton hid hread henabled hmember hcached hheld, ?_⟩
  intro hheld
  have hrem := removalTarget_spec g cfg held hinv
  have hrun := handleVerifyButton_fresh o mp g stored interaction held cfg mid mrole _ hguild
    hbutton hid hread henabled hmember hcached rfl hheld
  generalize removalTarget (cfg.unverified_role_id.bind g.roleCached) held = removal
    at hrem hrun
  have hroles : mp.removeFails = false → mp.addFails = false →
      (Verification.handleVerifyButton o mp g stored interaction held).roles =
        mid :: withoutRole held removal := by
    intro h1 h2
    rw [hrun]
    cases mp.replyFails <;> simp [h1, h2]
  refine ⟨?_, ?_, ?_, ?_⟩
  · intro r
    rw [← hrem r, hrun]
    cases removal <;> cases mp.removeFails <;> cases mp.addFails <;> cases mp.replyFails
    all_goals first | (simp; done) | (simp; exact eq_comm)
  · intro h
    rw [hrun]
    rcases h with h | h
    · cases removal <;> cases mp.addFails <;> cases mp.replyFails <;> simp [h]
    · have hnone : removal = none := by
        cases hr : removal with
        | none => rfl
        | some r =>
          have := (hrem r).1 hr
          exact absurd this.2 (h r this.1)
      cases mp.addFails <;> cases mp.replyFails <;> simp [hnone]
  · intro r
    rw [hrun]
    cases removal <;> cases mp.removeFails <;> cases mp.addFails <;> cases mp.replyFails <;>
      simp
  · intro h1 h2
    have hr := hroles h1 h2
    refine ⟨?_, ?_, ?_⟩
    · rw [hr]
      exact List.mem_cons_self _ _
    · intro r hu hne
      rw [hr]
      intro hin
      rcases List.mem_cons.1 hin with h | h
      · exact hne h
      · cases hrm : removal with
        | none =>
          rw [hrm] at h
          have hin2 : r ∈ held := h
          have := (hrem r).2 ⟨hu, hin2⟩
          rw [hrm] at this
          cases this
        | some rid =>
          rw [hrm] at h
          have h3 := (hrem rid).1 hrm
          have heq : rid = r := Option.some.inj (h3.1.symm.trans hu)
          subst heq
          simp [withoutRole] at h
    · intro mp2
      exact handleVerifyButton_already o mp2 g stored interaction _ cfg mid mrole hguild hbutton
        hid hread henabled hmember hcached (hr ▸ List.mem_cons_self _ _)

theorem verify_button_grants_member_role_once_witness :
    Verification.handleVerifyButton sampleOracle sampleMemberPlatform (sampleGuild [])
        (some ⟨true, some sampleVerifConfig⟩) sampleInteraction ["r2".toList] =
        ⟨[MemberEvent.remove "r2".toList, MemberEvent.add "r1".toList,
          MemberEvent.replySuccess], ["r1".toList]⟩ ∧
      MemberEvent.add "r1".toList ∈
        (Verification.handleVerifyButton sampleOracle sampleMemberPlatform (sampleGuild [])
          (some ⟨true, some sampleVerifConfig⟩) sampleInteraction ["r2".toList]).events :=
  ⟨rfl, ((verify_button_grants_member_role_once sampleOracle sampleMemberPlatform
    (sampleGuild []) (some ⟨true, some sampleVerifConfig⟩) sampleInteraction ["r2".toList]
    sampleVerifConfig "r1".toList ⟨"r1".toList, true, []⟩ rfl rfl rfl rfl rfl rfl rfl
    (by decide)).2 (by decide)).2.1 (Or.inl rfl)⟩

/-! ## Link protection: the suspicious-pattern switch -/

/-- C29. The switch `block_suspicious` does not influence the verdict. For every
url and every configuration, `shouldBlockUrl` gives the same result whatever
value `block_suspicious` is set to: a url that reaches the suspicious-pattern
check is blocked whether or not the check is made and whether or not a pattern
matches. -/
theorem block_suspicious_does_not_change_verdict (url : JSString) (config : LinkConfig)
    (b : Bool) :
    LinkProtection.shouldBlockUrl url { config with block_suspicious := b } =
      LinkProtection.shouldBlockUrl url config := by
  unfold LinkProtection.shouldBlockUrl LinkProtection.shouldBlockUrlWith
  cases domainMatch url with
  | none => rfl
  | some host =>
    simp only []
    split
    · rfl
    · rfl
    · split
      · rfl
      · split <;> split <;> rfl

/-! ## Anti-spam: recording, windows and rule order -/

theorem rateCount_record (cfg : SpamCfg) (st : UserState) (now : Int) (c : JSString) :
    rateCount cfg (recordMessage cfg st now c) now =
      (st.messages.filter (fun e => decide (now - e.t ≤ windowMs cfg))).length + 1 := by
  have hw := windowMs_nonneg cfg
  unfold rateCount recordMessage pruneOld
  simp only [List.filter_filter, List.filter_append]
  have hp : (fun e : MsgEntry => decide (now - e.t ≤ windowMs cfg) &&
      decide (now - e.t ≤ max (windowMs cfg) 30000)) =
      (fun e : MsgEntry => decide (now - e.t ≤ windowMs cfg)) := by
    funext e
    by_cases h : now - e.t ≤ windowMs cfg
    · have h2 : now - e.t ≤ max (windowMs cfg) 30000 := le_trans h (le_max_left _ _)
      simp [h, h2]
    · simp [h]
  rw [hp]
  simp [hw]

theorem dupCount_record (cfg : SpamCfg) (st : UserState) (now : Int) (c : JSString) :
    dupCount (recordMessage cfg st now c) now c =
      ((st.messages.filter (fun e => decide (now - e.t ≤ 30000))).filter
        (fun e => decide (e.c = c))).length + 1 := by
  unfold dupCount recordMessage pruneOld
  simp only [List.filter_filter, List.filter_append]
  have hp : (fun e : MsgEntry => decide (e.c = c) && (decide (now - e.t ≤ 30000) &&
      decide (now - e.t ≤ max (windowMs cfg) 30000))) =
      (fun e : MsgEntry => decide (e.c = c) && decide (now - e.t ≤ 30000)) := by
    funext e
    by_cases h : now - e.t ≤ 30000
    · have h2 : now - e.t ≤ max (windowMs cfg) 30000 := le_trans h (le_max_right _ _)
      simp [h, h2]
    · simp [h]
  rw [hp]
  simp

theorem recordMessage_ages (cfg : SpamCfg) (st : UserState) (now : Int) (c : JSString) :
    ∀ e ∈ (recordMessage cfg st now c).messages, now - e.t ≤ max (windowMs cfg) 30000 := by
  intro e he
  unfold recordMessage pruneOld at he
  simpa using (List.mem_filter.1 he).2

theorem spamRules_record (cfg : SpamCfg) (now : Int) (st : UserState) (c : JSString) :
    (spamRules cfg now st c).2.messages = (recordMessage cfg st now c).messages := by
  rw [spamRules_messages]
  rfl

/-- The record of the author after a call of `handleMessage` that reaches the
recording. -/
theorem handleMessage_active_state (pf : Platform) {fetched : Fetched} {cfg : SpamCfg}
    {g u : JSString} {m : Message} (ha : SpamActive fetched cfg) (hu : FromUser cfg g u m)
    (now : Int) (act : Activity) :
    (AntiSpam.handleMessage pf fetched now act m).activity g u =
      (spamRules cfg now (act g u) (normalizeContent m.content)).2 := by
  rw [(handleMessage_active pf ha hu now act).2.1, Activity.set_same]

/-- C27. Activity-window pruning. After a call of `handleMessage` that reaches the
recording at time `now`, with `W = max(5, time_window)` seconds, every entry
kept in the messages list of the author has an age of at most
`max(W * 1000, 30000)` ms and the entry of the current message is among them.
The flood count of that call is the number of prior entries of age at most
`W * 1000` ms plus one for the current message, and its duplicate count the
number of prior entries of age at most 30000 ms with the same content plus
one: older entries are not counted. -/
theorem recorded_entries_stay_within_window (pf : Platform) (fetched : Fetched) (cfg : SpamCfg)
    (g u : JSString) (now : Int) (act : Activity) (m : Message)
    (ha : SpamActive fetched cfg) (hu : FromUser cfg g u m) :
    windowMs cfg = ((max 5 cfg.time_window : Nat) : Int) * 1000 ∧
    (∀ e ∈ ((AntiSpam.handleMessage pf fetched now act m).activity g u).messages,
      now - e.t ≤ max (windowMs cfg) 30000) ∧
    (⟨now, normalizeContent m.content⟩ : MsgEntry) ∈
      ((AntiSpam.handleMessage pf fetched now act m).activity g u).messages ∧
    rateCount cfg ((AntiSpam.handleMessage pf fetched now act m).activity g u) now =
      ((act g u).messages.filter (fun e => decide (now - e.t ≤ windowMs cfg))).length + 1 ∧
    dupCount ((AntiSpam.handleMessage pf fetched now act m).activity g u) now
        (normalizeContent m.content) =
      (((act g u).messages.filter (fun e => decide (now - e.t ≤ 30000))).filter
        (fun e => decide (e.c = normalizeContent m.content))).length + 1 ∧
    ((AntiSpam.handleMessage pf fetched now act m).verdict = .flood ↔
      ((act g u).messages.filter (fun e => decide (now - e.t ≤ windowMs cfg))).length + 1 >
        cfg.max_messages) ∧
    ((AntiSpam.handleMessage pf fetched now act m).verdict = .duplicate ↔
      ¬ ((act g u).messages.filter (fun e => decide (now - e.t ≤ windowMs cfg))).length + 1 >
          cfg.max_messages ∧
        normalizeContent m.content ≠ [] ∧
        (((act g u).messages.filter (fun e => decide (now - e.t ≤ 30000))).filter
          (fun e => decide (e.c = normalizeContent m.content))).length + 1 ≥
          cfg.duplicate_threshold) := by
  have hst := handleMessage_active_state pf ha hu now act
  have hv := (handleMessage_active pf ha hu now act).1
  have hmsgs := spamRules_record cfg now (act g u) (normalizeContent m.content)
  have hrate : rateCount cfg ((AntiSpam.handleMessage pf fetched now act m).activity g u) now =
      rateCount cfg (recordMessage cfg (act g u) now (normalizeContent m.content)) now := by
    unfold rateCount
    rw [hst, hmsgs]
  have hdup : dupCount ((AntiSpam.handleMessage pf fetched now act m).activity g u) now
      (normalizeContent m.content) =
      dupCount (recordMessage cfg (act g u) now (normalizeContent m.content)) now
        (normalizeContent m.content) := by
    unfold dupCount
    rw [hst, hmsgs]
  refine ⟨rfl, ?_, ?_, ?_, ?_, ?_, ?_⟩
  · rw [hst, hmsgs]
    exact recordMessage_ages cfg _ now _
  · rw [hst, hmsgs]
    exact recordMessage_mem_new cfg _ now _
  · rw [hrate, rateCount_record]
  · rw [hdup, dupCount_record]
  · rw [hv, spamRules_verdict_flood, rateCount_record]
  · rw [hv, spamRules_verdict_duplicate, rateCount_record, dupCount_record]

theorem recorded_entries_stay_within_window_witness :
    (⟨40000, "hello".toList⟩ : MsgEntry) ∈
        ((AntiSpam.handleMessage samplePlatform
          (sampleSpamSettings (sampleSpamFeature 5 5 3 5 5 "delete".toList)) 40000
          (Activity.empty.set "g1".toList "u1".toList
            ⟨[⟨0, "hello".toList⟩, ⟨38000, "hello".toList⟩], 0, fun _ => []⟩)
          (sampleMessage " hello ".toList)).activity "g1".toList "u1".toList).messages ∧
      rateCount (SpamCfg.ofFeature (sampleSpamFeature 5 5 3 5 5 "delete".toList))
        ((AntiSpam.handleMessage samplePlatform
          (sampleSpamSettings (sampleSpamFeature 5 5 3 5 5 "delete".toList)) 40000
          (Activity.empty.set "g1".toList "u1".toList
            ⟨[⟨0, "hello".toList⟩, ⟨38000, "hello".toList⟩], 0, fun _ => []⟩)
          (sampleMessage " hello ".toList)).activity "g1".toList "u1".toList) 40000 = 2 :=
  have h := recorded_entries_stay_within_window samplePlatform
    (sampleSpamSettings (sampleSpamFeature 5 5 3 5 5 "delete".toList))
    (SpamCfg.ofFeature (sampleSpamFeature 5 5 3 5 5 "delete".toList)) "g1".toList "u1".toList
    40000 (Activity.empty.set "g1".toList "u1".toList
      ⟨[⟨0, "hello".toList⟩, ⟨38000, "hello".toList⟩], 0, fun _ => []⟩)
    (sampleMessage " hello ".toList) ⟨_, _, rfl, rfl, rfl, rfl⟩ ⟨rfl, rfl, by decide⟩
  ⟨h.2.2.1, h.2.2.2.1.trans (by decide)⟩

/-- C30. Empty content never counts as a duplicate. For a message whose
normalized content is empty (no text, or white space only), whatever the
duplicate threshold and the prior record, the verdict of `handleMessage` is
not the duplicate rule; the message is recorded with empty content, and the
flood rule counts it: it fires exactly when the prior entries within the
window plus this message exceed `max_messages`. -/
theorem empty_content_is_never_a_duplicate (pf : Platform) (fetched : Fetched) (cfg : SpamCfg)
    (g u : JSString) (now : Int) (act : Activity) (m : Message)
    (ha : SpamActive fetched cfg) (hu : FromUser cfg g u m)
    (hempty : normalizeContent m.content = []) :
    (AntiSpam.handleMessage pf fetched now act m).verdict ≠ .duplicate ∧
    (⟨now, []⟩ : MsgEntry) ∈
      ((AntiSpam.handleMessage pf fetched now act m).activity g u).messages ∧
    rateCount cfg ((AntiSpam.handleMessage pf fetched now act m).activity g u) now =
      ((act g u).messages.filter (fun e => decide (now - e.t ≤ windowMs cfg))).length + 1 ∧
    ((AntiSpam.handleMessage pf fetched now act m).verdict = .flood ↔
      ((act g u).messages.filter (fun e => decide (now - e.t ≤ windowMs cfg))).length + 1 >
        cfg.max_messages) := by
  have hst := handleMessage_active_state pf ha hu now act
  have hv := (handleMessage_active pf ha hu now act).1
  have hmsgs := spamRules_record cfg now (act g u) (normalizeContent m.content)
  refine ⟨?_, ?_, ?_, ?_⟩
  · rw [hv]
    intro hd
    exact ((spamRules_verdict_duplicate cfg now _ _).1 hd).2.1 hempty
  · rw [hst, hmsgs, ← hempty]
    exact recordMessage_mem_new cfg _ now _
  · unfold rateCount
    rw [hst, hmsgs]
    exact rateCount_record cfg _ now _
  · rw [hv, spamRules_verdict_flood, rateCount_record]

theorem empty_content_is_never_a_duplicate_witness :
    (AntiSpam.handleMessage samplePlatform
        (sampleSpamSettings (sampleSpamFeature 5 5 1 5 5 "delete".toList)) 2000
        (Activity.empty.set "g1".toList "u1".toList
          ⟨[⟨0, []⟩, ⟨1000, []⟩], 0, fun _ => []⟩)
        (sampleMessage "  \n ".toList)).verdict ≠ .duplicate ∧
      (AntiSpam.handleMessage samplePlatform
        (sampleSpamSettings (sampleSpamFeature 5 5 1 5 5 "delete".toList)) 2000
        (Activity.empty.set "g1".toList "u1".toList
          ⟨[⟨0, []⟩, ⟨1000, []⟩], 0, fun _ => []⟩)
        (sampleMessage "  \n ".toList)).allowed = true :=
  ⟨(empty_content_is_never_a_duplicate samplePlatform
    (sampleSpamSettings (sampleSpamFeature 5 5 1 5 5 "delete".toList))
    (SpamCfg.ofFeature (sampleSpamFeature 5 5 1 5 5 "delete".toList)) "g1".toList "u1".toList
    2000 (Activity.empty.set "g1".toList "u1".toList ⟨[⟨0, []⟩, ⟨1000, []⟩], 0, fun _ => []⟩)
    (sampleMessage "  \n ".toList) ⟨_, _, rfl, rfl, rfl, rfl⟩ ⟨rfl, rfl, by decide⟩
    (by decide)).1, by decide⟩

theorem handleMessage_frame (pf : Platform) (fetched : Fetched) (now : Int) (act : Activity)
    (m : Message) (g2 u2 : JSString) (h : m.guildId ≠ some g2 ∨ m.authorId ≠ some u2) :
    (AntiSpam.handleMessage pf fetched now act m).activity g2 u2 = act g2 u2 := by
  unfold AntiSpam.handleMessage
  cases hg : m.guildId with
  | none => rfl
  | some gid =>
    cases fetched with
    | rejected => rfl
    | resolved settings =>
      cases hs : settings.bind (·.anti_spam) with
      | none => simp only [hs]
      | some feature =>
        cases he : feature.enabled with
        | false => simp only [hs, he]; rfl
        | true =>
          cases ha : m.authorId with
          | none => simp only [hs, he]; rfl
          | some uid =>
            have hne : ¬ (g2 = gid ∧ u2 = uid) := by
              rintro ⟨rfl, rfl⟩
              rcases h with h | h
              · exact h hg
              · exact h ha
            cases hw : AntiSpam.isUserWhitelisted uid m.member (SpamCfg.ofFeature feature) with
            | true => simp only [hs, he, hw]; rfl
            | false =>
              simp only [hs, he, hw]
              generalize spamRules _ now _ _ = r
              rcases r with ⟨v, st⟩
              cases v <;> simp [Activity.set, hne]

theorem handleMessage_local (pf : Platform) (fetched : Fetched) (now : Int)
    (act act2 : Activity) (m : Message)
    (h : ∀ g u, m.guildId = some g → m.authorId = some u → act g u = act2 g u) :
    (AntiSpam.handleMessage pf fetched now act m).verdict =
        (AntiSpam.handleMessage pf fetched now act2 m).verdict ∧
      (AntiSpam.handleMessage pf fetched now act m).allowed =
        (AntiSpam.handleMessage pf fetched now act2 m).allowed ∧
      (AntiSpam.handleMessage pf fetched now act m).actions =
        (AntiSpam.handleMessage pf fetched now act2 m).actions ∧
      (AntiSpam.handleMessage pf fetched now act m).punished =
        (AntiSpam.handleMessage pf fetched now act2 m).punished ∧
      ∀ g u, m.guildId = some g → m.authorId = some u →
        (AntiSpam.handleMessage pf fetched now act m).activity g u =
          (AntiSpam.handleMessage pf fetched now act2 m).activity g u := by
  have hallow : ∀ v : Verdict, ∀ p : Option JSString,
      (⟨true, [], act, v, p⟩ : SpamOutcome).verdict = (⟨true, [], act2, v, p⟩ : SpamOutcome).verdict ∧
      (⟨true, [], act, v, p⟩ : SpamOutcome).allowed = (⟨true, [], act2, v, p⟩ : SpamOutcome).allowed ∧
      (⟨true, [], act, v, p⟩ : SpamOutcome).actions = (⟨true, [], act2, v, p⟩ : SpamOutcome).actions ∧
      (⟨true, [], act, v, p⟩ : SpamOutcome).punished =
        (⟨true, [], act2, v, p⟩ : SpamOutcome).punished ∧
      ∀ g u, m.guildId = some g → m.authorId = some u →
        (⟨true, [], act, v, p⟩ : SpamOutcome).activity g u =
          (⟨true, [], act2, v, p⟩ : SpamOutcome).activity g u :=
    fun _ _ => ⟨rfl, rfl, rfl, rfl, fun g u hg2 hu2 => h g u hg2 hu2⟩
  unfold AntiSpam.handleMessage
  cases hg : m.guildId with
  | none => exact ⟨rfl, rfl, rfl, rfl, fun g u hg2 => by cases hg2⟩
  | some gid =>
    rw [hg] at hallow
    cases fetched with
    | rejected => exact hallow _ _
    | resolved settings =>
      dsimp only
      cases hs : settings.bind (·.anti_spam) with
      | none => exact hallow _ _
      | some feature =>
        dsimp only
        cases he : feature.enabled with
        | false => exact hallow _ _
        | true =>
          cases ha : m.authorId with
          | none => exact ⟨rfl, rfl, rfl, rfl, fun g u _ hu2 => by cases hu2⟩
          | some uid =>
            rw [ha] at hallow
            have hkey := h gid uid hg ha
            cases hw : AntiSpam.isUserWhitelisted uid m.member (SpamCfg.ofFeature feature) with
            | true =>
              simp only [hw]
              exact hallow _ _
            | false =>
              simp only [hw, hkey]
              generalize spamRules _ now _ _ = r
              rcases r with ⟨v, st⟩
              cases v <;>
                exact ⟨rfl, rfl, rfl, rfl, fun g u hg2 hu2 => by
                  cases hg2; cases hu2; simp [Activity.set]⟩

/-- C28. Per-key isolation of the activity state. A call of `handleMessage` for a
message of user `u` in guild `g` leaves the record (messages list and tag
history) of every other key as it was, and its verdict, the returned boolean,
the calls attempted and the record it leaves for its own key are the same for
any two activity maps that agree on the record of that key: they depend only
on the fetched configuration, the message, the time and the prior record of
the key. -/
theorem activity_state_is_isolated_per_key (pf : Platform) (fetched : Fetched) (now : Int)
    (act act2 : Activity) (m : Message) :
    (∀ g2 u2, (m.guildId ≠ some g2 ∨ m.authorId ≠ some u2) →
      (AntiSpam.handleMessage pf fetched now act m).activity g2 u2 = act g2 u2) ∧
    ((∀ g u, m.guildId = some g → m.authorId = some u → act g u = act2 g u) →
      (AntiSpam.handleMessage pf fetched now act m).verdict =
          (AntiSpam.handleMessage pf fetched now act2 m).verdict ∧
        (AntiSpam.handleMessage pf fetched now act m).allowed =
          (AntiSpam.handleMessage pf fetched now act2 m).allowed ∧
        (AntiSpam.handleMessage pf fetched now act m).actions =
          (AntiSpam.handleMessage pf fetched now act2 m).actions ∧
        (AntiSpam.handleMessage pf fetched now act m).punished =
          (AntiSpam.handleMessage pf fetched now act2 m).punished ∧
        ∀ g u, m.guildId = some g → m.authorId = some u →
          (AntiSpam.handleMessage pf fetched now act m).activity g u =
            (AntiSpam.handleMessage pf fetched now act2 m).activity g u) :=
  ⟨fun g2 u2 h => handleMessage_frame pf fetched now act m g2 u2 h,
    fun h => handleMessage_local pf fetched now act act2 m h⟩

theorem activity_state_is_isolated_per_key_witness :
    ((AntiSpam.handleMessage samplePlatform
        (sampleSpamSettings (sampleSpamFeature 5 5 3 5 5 "delete".toList)) 1000
        (Activity.empty.set "g1".toList "u2".toList ⟨[⟨500, "hi".toList⟩], 0, fun _ => []⟩)
        (sampleMessage "hello".toList)).activity "g1".toList "u2".toList).messages =
      [⟨500, "hi".toList⟩] :=
  ((activity_state_is_isolated_per_key samplePlatform
    (sampleSpamSettings (sampleSpamFeature 5 5 3 5 5 "delete".toList)) 1000
    (Activity.empty.set "g1".toList "u2".toList ⟨[⟨500, "hi".toList⟩], 0, fun _ => []⟩)
    Activity.empty (sampleMessage "hello".toList)).1 "g1".toList "u2".toList
    (Or.inr (by decide))) ▸ (by decide)

theorem antispam_applyPunishment_no_delete (pf : Platform) (member : Option Member)
    (punishment reason : JSString) :
    Action.delete ∉ AntiSpam.applyPunishment pf member punishment reason := by
  unfold AntiSpam.applyPunishment
  cases member with
  | none => simp
  | some mem =>
    simp only [List.mem_append, not_or]
    constructor
    · split <;> simp
    · split
      · simp
      · split
        · simp
        · split <;> simp

theorem spamRules_early_tagHistory (cfg : SpamCfg) (now : Int) (st : UserState) (c : JSString)
    (h : (spamRules cfg now st c).1 = .flood ∨ (spamRules cfg now st c).1 = .duplicate ∨
      ∃ n, (spamRules cfg now st c).1 = .mentions n) :
    (spamRules cfg now st c).2.tagHistory = st.tagHistory := by
  unfold spamRules at h ⊢
  dsimp only at h ⊢
  split
  · rfl
  · split
    · rfl
    · split
      · rfl
      · rename_i h1 h2 h3
        rw [if_neg h1, if_neg h2, if_neg h3] at h
        split at h
        · split at h <;> simp at h
        · simp at h

/-- C26. Rule order and short-circuit. For a message that reaches the rules, the
verdict is the flood rule exactly when the flood condition holds, the
duplicate rule exactly when the flood condition fails and the duplicate
condition holds, the mentions rule exactly when both fail and the mentions
condition holds, and the same-target rule or a pass only when all three fail.
A blocked message runs the violation pipeline once, with the reason of that
first rule: one deletion, then the punishment. When rule 1, 2 or 3 fires, the
tag history of the user is left as it was. The pipeline is handed the
configured punishment and the reason text of the rule that fired: `Message
flood (rate limit exceeded)` for rule 1, `Repeated identical messages` for
rule 2, `Too many mentions (n) in one message` with the count `n` for rule 3,
and for rule 4 the punishment `delete_warn` whatever is configured, with the
reason `Excessive tagging the same user (<@uid>) within 5 minutes`. -/
theorem rules_fire_in_order_and_short_circuit (pf : Platform) (fetched : Fetched)
    (cfg : SpamCfg) (g u : JSString) (now : Int) (act : Activity) (m : Message)
    (ha : SpamActive fetched cfg) (hu : FromUser cfg g u m) :
    ((AntiSpam.handleMessage pf fetched now act m).verdict = .flood ↔
      rateCount cfg (recordMessage cfg (act g u) now (normalizeContent m.content)) now >
        cfg.max_messages) ∧
    ((AntiSpam.handleMessage pf fetched now act m).verdict = .duplicate ↔
      ¬ rateCount cfg (recordMessage cfg (act g u) now (normalizeContent m.content)) now >
          cfg.max_messages ∧
        (normalizeContent m.content ≠ [] ∧
          dupCount (recordMessage cfg (act g u) now (normalizeContent m.content)) now
            (normalizeContent m.content) ≥ cfg.duplicate_threshold)) ∧
    (∀ n, (AntiSpam.handleMessage pf fetched now act m).verdict = .mentions n ↔
      ¬ rateCount cfg (recordMessage cfg (act g u) now (normalizeContent m.content)) now >
          cfg.max_messages ∧
        ¬ (normalizeContent m.content ≠ [] ∧
          dupCount (recordMessage cfg (act g u) now (normalizeContent m.content)) now
            (normalizeContent m.content) ≥ cfg.duplicate_threshold) ∧
        mentionCount (normalizeContent m.content) > cfg.mentions_per_message ∧
        n = mentionCount (normalizeContent m.content)) ∧
    (((∃ uid, (AntiSpam.handleMessage pf fetched now act m).verdict = .sameTarget uid) ∨
        (AntiSpam.handleMessage pf fetched now act m).verdict = .pass) ↔
      ¬ rateCount cfg (recordMessage cfg (act g u) now (normalizeContent m.content)) now >
          cfg.max_messages ∧
        ¬ (normalizeContent m.content ≠ [] ∧
          dupCount (recordMessage cfg (act g u) now (normalizeContent m.content)) now
            (normalizeContent m.content) ≥ cfg.duplicate_threshold) ∧
        ¬ mentionCount (normalizeContent m.content) > cfg.mentions_per_message) ∧
    ((AntiSpam.handleMessage pf fetched now act m).allowed = false →
      (AntiSpam.handleMessage pf fetched now act m).verdict ≠ .pass ∧
      (AntiSpam.handleMessage pf fetched now act m).actions =
        AntiSpam.handleViolation pf m
          ((AntiSpam.handleMessage pf fetched now act m).verdict.punishment cfg)
          (AntiSpam.handleMessage pf fetched now act m).verdict.reason ∧
      (AntiSpam.handleMessage pf fetched now act m).actions.count Action.delete = 1) ∧
    ((AntiSpam.handleMessage pf fetched now act m).allowed = true →
      (AntiSpam.handleMessage pf fetched now act m).verdict = .pass ∧
      (AntiSpam.handleMessage pf fetched now act m).actions = []) ∧
    (((AntiSpam.handleMessage pf fetched now act m).verdict = .flood ∨
        (AntiSpam.handleMessage pf fetched now act m).verdict = .duplicate ∨
        ∃ n, (AntiSpam.handleMessage pf fetched now act m).verdict = .mentions n) →
      ((AntiSpam.handleMessage pf fetched now act m).activity g u).tagHistory =
        (act g u).tagHistory) ∧
    ((AntiSpam.handleMessage pf fetched now act m).verdict = .flood →
      (AntiSpam.handleMessage pf fetched now act m).actions =
        Action.delete :: AntiSpam.applyPunishment pf m.member cfg.punishment
          "Message flood (rate limit exceeded)".toList) ∧
    ((AntiSpam.handleMessage pf fetched now act m).verdict = .duplicate →
      (AntiSpam.handleMessage pf fetched now act m).actions =
        Action.delete :: AntiSpam.applyPunishment pf m.member cfg.punishment
          "Repeated identical messages".toList) ∧
    (∀ n, (AntiSpam.handleMessage pf fetched now act m).verdict = .mentions n →
      (AntiSpam.handleMessage pf fetched now act m).actions =
        Action.delete :: AntiSpam.applyPunishment pf m.member cfg.punishment
          ("Too many mentions (".toList ++ Nat.toDigits 10 n ++ ") in one message".toList)) ∧
    (∀ uid, (AntiSpam.handleMessage pf fetched now act m).verdict = .sameTarget uid →
      (AntiSpam.handleMessage pf fetched now act m).actions =
        Action.delete :: AntiSpam.applyPunishment pf m.member "delete_warn".toList
          ("Excessive tagging the same user (<@".toList ++ uid ++
            ">) within 5 minutes".toList)) := by
  have hst := handleMessage_active_state pf ha hu now act
  have hv := (handleMessage_active pf ha hu now act).1
  have hal := (handleMessage_active pf ha hu now act).2.2.1
  have hac := handleMessage_active_actions pf ha hu now act
  have heq := spamRules_verdict_eq cfg now (act g u) (normalizeContent m.content)
  rw [hal, hac, hst, hv]
  refine ⟨?_, ?_, ?_, ?_, ?_, ?_, ?_, ?_, ?_, ?_, ?_⟩
  · exact spamRules_verdict_flood cfg now _ _
  · exact spamRules_verdict_duplicate cfg now _ _
  · intro n
    rw [heq]
    by_cases h1 : rateCount cfg (recordMessage cfg (act g u) now (normalizeContent m.content))
        now > cfg.max_messages
    · simp [h1]
    · by_cases h2 : normalizeContent m.content ≠ [] ∧
          dupCount (recordMessage cfg (act g u) now (normalizeContent m.content)) now
            (normalizeContent m.content) ≥ cfg.duplicate_threshold
      · rw [if_neg h1, if_pos h2]
        simp [h1, h2]
      · rw [if_neg h1, if_neg h2]
        by_cases h3 : mentionCount (normalizeContent m.content) > cfg.mentions_per_message
        · rw [if_pos h3]
          simp only [Verdict.mentions.injEq]
          constructor
          · intro h
            exact ⟨h1, h2, h3, h.symm⟩
          · intro h
            exact h.2.2.2.symm
        · rw [if_neg h3]
          constructor
          · intro h
            split at h <;> cases h
          · intro h
            exact absurd h.2.2.1 h3
  · rw [heq]
    by_cases h1 : rateCount cfg (recordMessage cfg (act g u) now (normalizeContent m.content))
        now > cfg.max_messages
    · simp [h1]
    · by_cases h2 : normalizeContent m.content ≠ [] ∧
          dupCount (recordMessage cfg (act g u) now (normalizeContent m.content)) now
            (normalizeContent m.content) ≥ cfg.duplicate_threshold
      · rw [if_neg h1, if_pos h2]
        simp [h1, h2]
      · rw [if_neg h1, if_neg h2]
        by_cases h3 : mentionCount (normalizeContent m.content) > cfg.mentions_per_message
        · rw [if_pos h3]
          simp [h3]
        · rw [if_neg h3]
          constructor
          · intro _
            exact ⟨h1, h2, h3⟩
          · intro _
            cases (tagLoop now (sameUserThreshold cfg)
                (mentionedUserIds (normalizeContent m.content)) (act g u).tagHistory).1 with
            | none => exact Or.inr rfl
            | some uid => exact Or.inl ⟨uid, rfl⟩
  · intro hf
    have hne : (spamRules cfg now (act g u) (normalizeContent m.content)).1 ≠ .pass := by
      simpa using hf
    refine ⟨hne, ?_, ?_⟩
    · rw [if_neg hne]
    · rw [if_neg hne]
      unfold AntiSpam.handleViolation
      rw [List.count_cons_self, List.count_eq_zero_of_not_mem
        (antispam_applyPunishment_no_delete pf _ _ _)]
  · intro ht
    have hp : (spamRules cfg now (act g u) (normalizeContent m.content)).1 = .pass := by
      simpa using ht
    exact ⟨hp, by rw [if_pos hp]⟩
  · intro h
    exact spamRules_early_tagHistory cfg now _ _ h
  · intro h
    rw [h]
    rfl
  · intro h
    rw [h]
    rfl
  · intro n h
    rw [h]
    rfl
  · intro uid h
    rw [h]
    rfl

theorem rules_fire_in_order_and_short_circuit_witness :
    ((AntiSpam.handleMessage samplePlatform
        (sampleSpamSettings (sampleSpamFeature 1 5 1 0 5 "kick".toList)) 1000
        (Activity.empty.set "g1".toList "u1".toList
          ⟨[⟨500, "<@123456789012345678>".toList⟩], 0, fun _ => []⟩)
        (sampleMessage "<@123456789012345678>".toList)).verdict = .flood ∧
      (AntiSpam.handleMessage samplePlatform
        (sampleSpamSettings (sampleSpamFeature 1 5 1 0 5 "kick".toList)) 1000
        (Activity.empty.set "g1".toList "u1".toList
          ⟨[⟨500, "<@123456789012345678>".toList⟩], 0, fun _ => []⟩)
        (sampleMessage "<@123456789012345678>".toList)).actions =
        [Action.delete, Action.dm "Message flood (rate limit exceeded)".toList, Action.kick] ∧
      ((AntiSpam.handleMessage samplePlatform
        (sampleSpamSettings (sampleSpamFeature 1 5 1 0 5 "kick".toList)) 1000
        (Activity.empty.set "g1".toList "u1".toList
          ⟨[⟨500, "<@123456789012345678>".toList⟩], 0, fun _ => []⟩)
        (sampleMessage "<@123456789012345678>".toList)).activity "g1".toList
          "u1".toList).tagHistory "123456789012345678".toList = []) ∧
      ((AntiSpam.handleMessage samplePlatform
        (sampleSpamSettings (sampleSpamFeature 5 5 3 5 1 "kick".toList)) 1000 Activity.empty
        (sampleMessage "<@123456789012345678> <@123456789012345678>".toList)).verdict =
          .sameTarget "123456789012345678".toList ∧
      (AntiSpam.handleMessage samplePlatform
        (sampleSpamSettings (sampleSpamFeature 5 5 3 5 1 "kick".toList)) 1000 Activity.empty
        (sampleMessage "<@123456789012345678> <@123456789012345678>".toList)).actions =
        [Action.delete,
          Action.dm
            "Excessive tagging the same user (<@123456789012345678>) within 5 minutes".toList]) ∧
      ((AntiSpam.handleMessage samplePlatform
        (sampleSpamSettings (sampleSpamFeature 5 5 3 1 5 "ban".toList)) 1000 Activity.empty
        (sampleMessage "<@&123456789012345678> @everyone".toList)).verdict = .mentions 2 ∧
      (AntiSpam.handleMessage samplePlatform
        (sampleSpamSettings (sampleSpamFeature 5 5 3 1 5 "ban".toList)) 1000 Activity.empty
        (sampleMessage "<@&123456789012345678> @everyone".toList)).actions =
        [Action.delete, Action.dm "Too many mentions (2) in one message".toList, Action.ban]) :=
  have h := rules_fire_in_order_and_short_circuit samplePlatform
    (sampleSpamSettings (sampleSpamFeature 1 5 1 0 5 "kick".toList))
    (SpamCfg.ofFeature (sampleSpamFeature 1 5 1 0 5 "kick".toList)) "g1".toList "u1".toList
    1000 (Activity.empty.set "g1".toList "u1".toList
      ⟨[⟨500, "<@123456789012345678>".toList⟩], 0, fun _ => []⟩)
    (sampleMessage "<@123456789012345678>".toList) ⟨_, _, rfl, rfl, rfl, rfl⟩
    ⟨rfl, rfl, by decide⟩
  have hv := h.1.2 (by decide)
  have h4 := rules_fire_in_order_and_short_circuit samplePlatform
    (sampleSpamSettings (sampleSpamFeature 5 5 3 5 1 "kick".toList))
    (SpamCfg.ofFeature (sampleSpamFeature 5 5 3 5 1 "kick".toList)) "g1".toList "u1".toList
    1000 Activity.empty
    (sampleMessage "<@123456789012345678> <@123456789012345678>".toList)
    ⟨_, _, rfl, rfl, rfl, rfl⟩ ⟨rfl, rfl, by decide⟩
  have hv4 : (AntiSpam.handleMessage samplePlatform
      (sampleSpamSettings (sampleSpamFeature 5 5 3 5 1 "kick".toList)) 1000 Activity.empty
      (sampleMessage "<@123456789012345678> <@123456789012345678>".toList)).verdict =
        .sameTarget "123456789012345678".toList := by decide
  have h3 := rules_fire_in_order_and_short_circuit samplePlatform
    (sampleSpamSettings (sampleSpamFeature 5 5 3 1 5 "ban".toList))
    (SpamCfg.ofFeature (sampleSpamFeature 5 5 3 1 5 "ban".toList)) "g1".toList "u1".toList
    1000 Activity.empty (sampleMessage "<@&123456789012345678> @everyone".toList)
    ⟨_, _, rfl, rfl, rfl, rfl⟩ ⟨rfl, rfl, by decide⟩
  have hv3 := (h3.2.2.1 2).2 ⟨by decide, by decide, by decide, by decide⟩
  ⟨⟨hv, (h.2.2.2.2.2.2.2.1 hv).trans (by decide),
      (congrFun (h.2.2.2.2.2.2.1 (Or.inl hv)) "123456789012345678".toList).trans (by decide)⟩,
    ⟨hv4, (h4.2.2.2.2.2.2.2.2.2.2 _ hv4).trans (by decide)⟩,
    ⟨hv3, (h3.2.2.2.2.2.2.2.2.2.1 2 hv3).trans (by decide)⟩⟩

/-- C25, the claim fails. With `same_user_tag_threshold = 5`, a first message of a
user mentions one and the same user twice. It passes all four rules, and the
tag history of that target has two entries afterwards, one per occurrence,
not one. -/
theorem repeated_mention_is_counted_per_occurrence :
    (AntiSpam.handleMessage samplePlatform
        (sampleSpamSettings (sampleSpamFeature 5 5 3 5 5 "delete".toList)) 1000 Activity.empty
        (sampleMessage "<@111111111111111111> <@111111111111111111>".toList)).allowed = true ∧
      mentionedUserIds
          (normalizeContent (some "<@111111111111111111> <@111111111111111111>".toList)) =
        ["111111111111111111".toList, "111111111111111111".toList] ∧
      ((AntiSpam.handleMessage samplePlatform
        (sampleSpamSettings (sampleSpamFeature 5 5 3 5 5 "delete".toList)) 1000 Activity.empty
        (sampleMessage "<@111111111111111111> <@111111111111111111>".toList)).activity
          "g1".toList "u1".toList).tagHistory "111111111111111111".toList = [1000, 1000] := by
  refine ⟨?_, ?_, ?_⟩ <;> decide

/-- C25, as the code has it. Same-target tagging counts occurrences. For a
message that passes all four rules and mentions a user `v`, the tag history
of `v` after the call is its prior history pruned to five minutes followed by
one timestamp `now` for every occurrence of a mention of `v` in the message: a
message that mentions `v` k times adds k entries. -/
theorem tag_history_grows_by_occurrences (pf : Platform) (fetched : Fetched) (cfg : SpamCfg)
    (g u : JSString) (now : Int) (act : Activity) (m : Message) (v : JSString)
    (ha : SpamActive fetched cfg) (hu : FromUser cfg g u m)
    (hallowed : (AntiSpam.handleMessage pf fetched now act m).allowed = true)
    (hv : v ∈ mentionedUserIds (normalizeContent m.content)) :
    ((AntiSpam.handleMessage pf fetched now act m).activity g u).tagHistory v =
        ((act g u).tagHistory v).filter (fun t => decide (now - t ≤ TAG_WINDOW)) ++
          List.replicate ((mentionedUserIds (normalizeContent m.content)).count v) now ∧
      (((AntiSpam.handleMessage pf fetched now act m).activity g u).tagHistory v).length =
        (((act g u).tagHistory v).filter (fun t => decide (now - t ≤ TAG_WINDOW))).length +
          (mentionedUserIds (normalizeContent m.content)).count v := by
  have hst := handleMessage_active_state pf ha hu now act
  have hal := (handleMessage_active pf ha hu now act).2.2.1
  have hp : (spamRules cfg now (act g u) (normalizeContent m.content)).1 = .pass := by
    rw [hal] at hallowed
    simpa using hallowed
  have hne : mentionedUserIds (normalizeContent m.content) ≠ [] := by
    intro h
    rw [h] at hv
    cases hv
  have h := spamRules_pass_tagHistory cfg now (act g u) (normalizeContent m.content) hp v
  rw [if_neg hne] at h
  rw [hst, h]
  exact ⟨rfl, by simp⟩

theorem tag_history_grows_by_occurrences_witness :
    (((AntiSpam.handleMessage samplePlatform
        (sampleSpamSettings (sampleSpamFeature 5 5 3 5 5 "delete".toList)) 1000 Activity.empty
        (sampleMessage "<@111111111111111111> <@!111111111111111111> hi".toList)).activity
          "g1".toList "u1".toList).tagHistory "111111111111111111".toList).length = 0 + 2 :=
  (tag_history_grows_by_occurrences samplePlatform
    (sampleSpamSettings (sampleSpamFeature 5 5 3 5 5 "delete".toList))
    (SpamCfg.ofFeature (sampleSpamFeature 5 5 3 5 5 "delete".toList)) "g1".toList "u1".toList
    1000 Activity.empty (sampleMessage "<@111111111111111111> <@!111111111111111111> hi".toList)
    "111111111111111111".toList ⟨_, _, rfl, rfl, rfl, rfl⟩ ⟨rfl, rfl, by decide⟩ (by decide)
    (by decide)).2.trans (by decide)

/-! ## Member verification: what disableAndPurge clears, and when -/

theorem purgeChannelTask_events (pf : PurgeFaults) (g : GuildView) (cfg : VerifConfig) :
    (purgeChannelTask pf g cfg).1 = purgeChannel g cfg := by
  unfold purgeChannelTask purgeChannel
  cases cfg.channel_id with
  | none => rfl
  | some cid =>
    dsimp only
    cases g.channelOrNull cid with
    | none => rfl
    | some channel =>
      dsimp only
      have hm : (match cfg.message_id with
          | some mid =>
            if channel.textBased then
              match (channel.messagesFetch mid).orNull with
              | some msg =>
                if msg.deletable then
                  (([VEvent.deleteMessage channel.id mid], !pf.messageDelete) : List VEvent × Bool)
                else ([], false)
              | none => ([], false)
            else ([], false)
          | none => ([], false)).1 =
          (match cfg.message_id with
          | some mid =>
            if channel.textBased then
              match (channel.messagesFetch mid).orNull with
              | some msg => if msg.deletable then [VEvent.deleteMessage channel.id mid] else []
              | none => []
            else []
          | none => []) := by
        cases cfg.message_id with
        | none => rfl
        | some mid =>
          dsimp only
          split
          · cases (channel.messagesFetch mid).orNull with
            | none => rfl
            | some msg =>
              dsimp only
              split <;> rfl
          · rfl
      split
      · simp only [hm]
      · simp only [hm, List.append_nil]

theorem purgeRoleTask_events (pf : PurgeFaults) (g : GuildView) (manual : Bool)
    (cfg : VerifConfig) : (purgeRoleTask pf g manual cfg).1 = purgeRole g manual cfg := by
  unfold purgeRoleTask purgeRole
  cases cfg.unverified_role_id with
  | none => rfl
  | some rid =>
    dsimp only
    cases g.roleOrNull rid with
    | none => rfl
    | some role =>
      dsimp only
      cases manual <;> cases role.deletable <;> simp

/-- Whatever deleting calls reject, the run of `disableAndPurge` is the same. -/
theorem disableAndPurgeDetailed_run (pf : PurgeFaults) (o : VOracle) (g : GuildView)
    (now : Int) (st : VState) (reason : JSString) :
    (Verification.disableAndPurgeDetailed pf o g now st reason).2 =
      Verification.disableAndPurge o g now st reason := by
  unfold Verification.disableAndPurgeDetailed Verification.disableAndPurge
  dsimp only
  split
  · rfl
  · split
    · rfl
    · rw [purgeChannelTask_events, purgeRoleTask_events]
      split <;> rfl

theorem disableAndPurge_proceeds (o : VOracle) (g : GuildView) (now : Int) (st : VState)
    (reason : JSString)
    (hgo : isManualDisable reason = true ∨ cooldownActive st g.id now = false)
    (hread : o.readFails ReadSite.purge = false) :
    (Verification.disableAndPurge o g now st reason).events =
        VEvent.purge reason :: (purgeChannel g st.config ++
          purgeRole g (isManualDisable reason) st.config ++
          [VEvent.writeSettings false VerifConfig.empty]) ∧
      (Verification.disableAndPurge o g now st reason).state.disableCooldowns =
        (if isManualDisable reason then st.disableCooldowns
        else fun k => if k = g.id then some now else st.disableCooldowns k) ∧
      (Verification.disableAndPurge o g now st reason).state.stored =
        (if o.writeFails WriteSite.purge then st.stored
        else some ⟨false, some VerifConfig.empty⟩) := by
  have hskip : (!isManualDisable reason && cooldownActive st g.id now) = false := by
    rcases hgo with h | h <;> simp [h]
  unfold Verification.disableAndPurge
  dsimp only
  rw [hskip, hread]
  simp only [Bool.false_eq_true, if_false]
  cases hm : isManualDisable reason <;> cases hw : o.writeFails WriteSite.purge <;>
    simp [VState.config, VState.write, updateMemberVerificationSetting, VerifConfig.empty]

/-- C21, the claim fails under the cooldown. In guild `g1` an automatic disable
ran at time 1000000; verification was enabled again and the Unverified role
was then deleted. The call `disableAndPurge(guild, 'Verification role deleted
by user')` one minute after the first disable returns at once: it issues no
settings write, and the stored policy stays enabled with all its resource
ids. -/
theorem purge_under_cooldown_issues_no_write :
    (Verification.disableAndPurge sampleOracle (sampleGuildRoleGone Lookup.missing) 1060000
        (sampleCoolingState ⟨true, some sampleVerifConfig⟩)
        "Verification role deleted by user".toList).events =
        [VEvent.purge "Verification role deleted by user".toList] ∧
      (Verification.disableAndPurge sampleOracle (sampleGuildRoleGone Lookup.missing) 1060000
        (sampleCoolingState ⟨true, some sampleVerifConfig⟩)
        "Verification role deleted by user".toList).state.stored =
        some ⟨true, some sampleVerifConfig⟩ := by
  decide

/-- C21, as the code has it. A call of `disableAndPurge` that is not skipped by
the cooldown, that is a manual disable or an automatic one outside the five
minutes after the previous automatic disable of the guild, and whose read of
the settings succeeds, issues as its last call the settings write that stores
`member_verification` disabled with an empty configuration, whatever reason is
given and whichever of the message, channel and role deletions and role
removals reject; when that write succeeds the stored policy is disabled and
has no resource id. An automatic call under the cooldown does nothing and
writes nothing. -/
theorem purge_clears_config_when_it_proceeds (pf : PurgeFaults) (o : VOracle) (g : GuildView)
    (now : Int) (st : VState) (reason : JSString)
    (hread : o.readFails ReadSite.purge = false) :
    (Verification.disableAndPurgeDetailed pf o g now st reason).2 =
      Verification.disableAndPurge o g now st reason ∧
    ((isManualDisable reason = true ∨ cooldownActive st g.id now = false) →
      (Verification.disableAndPurge o g now st reason).events.getLast? =
        some (VEvent.writeSettings false VerifConfig.empty) ∧
      (∃ results, (Verification.disableAndPurgeDetailed pf o g now st reason).1 = some results ∧
        results.config = !o.writeFails WriteSite.purge) ∧
      (o.writeFails WriteSite.purge = false →
        (Verification.disableAndPurge o g now st reason).state.stored =
          some ⟨false, some VerifConfig.empty⟩)) ∧
    (isManualDisable reason = false → cooldownActive st g.id now = true →
      Verification.disableAndPurge o g now st reason = ⟨[VEvent.purge reason], st⟩ ∧
      (Verification.disableAndPurgeDetailed pf o g now st reason).1 = none) := by
  refine ⟨disableAndPurgeDetailed_run pf o g now st reason, ?_, ?_⟩
  · intro hgo
    obtain ⟨hev, _, hstored⟩ := disableAndPurge_proceeds o g now st reason hgo hread
    have hskip : (!isManualDisable reason && cooldownActive st g.id now) = false := by
      rcases hgo with h | h <;> simp [h]
    refine ⟨?_, ?_, ?_⟩
    · have hl : VEvent.purge reason :: (purgeChannel g st.config ++
          purgeRole g (isManualDisable reason) st.config ++
          [VEvent.writeSettings false VerifConfig.empty]) =
          (VEvent.purge reason :: (purgeChannel g st.config ++
            purgeRole g (isManualDisable reason) st.config)) ++
            [VEvent.writeSettings false VerifConfig.empty] := rfl
      rw [hev, hl, List.getLast?_concat]
    · unfold Verification.disableAndPurgeDetailed
      dsimp only
      rw [hskip, hread]
      simp only [Bool.false_eq_true, if_false]
      cases o.writeFails WriteSite.purge <;> simp
    · intro hw
      rw [hstored, hw]
      rfl
  · intro hauto hcool
    unfold Verification.disableAndPurge Verification.disableAndPurgeDetailed
    simp [hauto, hcool]

theorem purge_clears_config_when_it_proceeds_witness :
    (Verification.disableAndPurge sampleOracle
        (sampleGuild [sampleChannel (Lookup.found ⟨"m1".toList, true⟩)]) 1000000
        (sampleState ⟨true, some sampleVerifConfig⟩)
        "Verification role deleted by user".toList).state.stored =
        some ⟨false, some VerifConfig.empty⟩ ∧
      (Verification.disableAndPurgeDetailed samplePurgeFaults sampleOracle
        (sampleGuild [sampleChannel (Lookup.found ⟨"m1".toList, true⟩)]) 1000000
        (sampleState ⟨true, some sampleVerifConfig⟩)
        "Verification role deleted by user".toList).1 = some ⟨false, false, false, 0, true⟩ :=
  ⟨((purge_clears_config_when_it_proceeds samplePurgeFaults sampleOracle
    (sampleGuild [sampleChannel (Lookup.found ⟨"m1".toList, true⟩)]) 1000000
    (sampleState ⟨true, some sampleVerifConfig⟩) "Verification role deleted by user".toList
    rfl).2.1 (Or.inr rfl)).2.2 rfl, by decide⟩

theorem cooldownActive_of_entry (st : VState) (gid : JSString) (t now : Int)
    (h : st.disableCooldowns gid = some t) (ht : t ≠ 0) :
    cooldownActive st gid now = decide (now - t < 300000) := by
  unfold cooldownActive
  rw [h]
  simp [ht]

theorem ensureForGuild_disabled (o : VOracle) (g : GuildView) (now : Int) (st : VState)
    (cfg : VerifConfig)
    (hread : o.readFails ReadSite.ensure = false)
    (hstored : st.stored = some ⟨false, some cfg⟩)
    (htrigger : (cfg.message_id.isSome || cfg.unverified_role_id.isSome || cfg.pending_disable ||
      cfg.channel_id.isSome || cfg.member_role_id.isSome) = true) :
    Verification.ensureForGuild o g now st =
      Verification.disableAndPurge o g now st
        (if cfg.manual_disable then "Manual disable from dashboard".toList
        else "Cleanup after disable or resource removal".toList) := by
  have hcfg : st.config = cfg := by simp [VState.config, hstored]
  unfold Verification.ensureForGuild
  simp only [hread, hcfg, hstored, htrigger]
  simp

/-- C22, the claim fails for `pending_disable` alone. In guild `g1` an automatic
disable ran at time 1000000. The stored policy is then disabled and carries
`pending_disable` but not `manual_disable`, with the channel `c1` and the
message `m1` still configured. One minute later `ensureForGuild` invokes
`disableAndPurge` with the reason `Cleanup after disable or resource removal`,
which is not a manual reason: the cooldown applies, nothing is cleaned up and
the stored configuration is as before. -/
theorem pending_disable_alone_is_subject_to_cooldown :
    (Verification.ensureForGuild sampleOracle
        (sampleGuild [sampleChannel (Lookup.found ⟨"m1".toList, true⟩)]) 1060000
        (sampleCoolingState ⟨false, some ⟨none, some "c1".toList, some "m1".toList, none, true,
          false, false⟩⟩)).events =
        [VEvent.purge "Cleanup after disable or resource removal".toList] ∧
      (Verification.ensureForGuild sampleOracle
        (sampleGuild [sampleChannel (Lookup.found ⟨"m1".toList, true⟩)]) 1060000
        (sampleCoolingState ⟨false, some ⟨none, some "c1".toList, some "m1".toList, none, true,
          false, false⟩⟩)).state.stored =
        some ⟨false, some ⟨none, some "c1".toList, some "m1".toList, none, true, false,
          false⟩⟩ ∧
      isManualDisable "Cleanup after disable or resource removal".toList = false := by
  decide

/-- C22, as the code has it. For a stored policy that is disabled and has a
leftover resource id or the `pending_disable` flag, `ensureForGuild` invokes
`disableAndPurge`. When the policy carries `manual_disable`, the reason is
`Manual disable from dashboard`, a manual disable: the cooldown is neither
consulted nor restarted, and when the read of the settings succeeds the
cleanup runs (the role is deleted without the member-by-member removal) and
the clearing write is issued, whatever automatic disable happened before.
When the policy does not carry `manual_disable`, with or without
`pending_disable`, the reason is `Cleanup after disable or resource removal`,
an automatic disable, to which the cooldown applies. -/
theorem manual_disable_flag_skips_cooldown (o : VOracle) (g : GuildView) (now : Int)
    (st : VState) (cfg : VerifConfig)
    (hread : o.readFails ReadSite.ensure = false)
    (hstored : st.stored = some ⟨false, some cfg⟩)
    (htrigger : (cfg.message_id.isSome || cfg.unverified_role_id.isSome || cfg.pending_disable ||
      cfg.channel_id.isSome || cfg.member_role_id.isSome) = true) :
    (cfg.manual_disable = true →
      Verification.ensureForGuild o g now st =
        Verification.disableAndPurge o g now st "Manual disable from dashboard".toList ∧
      isManualDisable "Manual disable from dashboard".toList = true ∧
      (o.readFails ReadSite.purge = false →
        (Verification.ensureForGuild o g now st).events =
          VEvent.purge "Manual disable from dashboard".toList ::
            (purgeChannel g cfg ++ purgeRole g true cfg ++
              [VEvent.writeSettings false VerifConfig.empty]) ∧
        (Verification.ensureForGuild o g now st).state.disableCooldowns =
          st.disableCooldowns ∧
        (o.writeFails WriteSite.purge = false →
          (Verification.ensureForGuild o g now st).state.stored =
            some ⟨false, some VerifConfig.empty⟩))) ∧
    (cfg.manual_disable = false →
      Verification.ensureForGuild o g now st =
        Verification.disableAndPurge o g now st
          "Cleanup after disable or resource removal".toList ∧
      DisablesUnlessCooling o g now st (Verification.ensureForGuild o g now st)) := by
  have hcfg : st.config = cfg := by simp [VState.config, hstored]
  have he := ensureForGuild_disabled o g now st cfg hread hstored htrigger
  refine ⟨?_, ?_⟩
  · intro hm
    rw [hm, if_pos rfl] at he
    have hman : isManualDisable "Manual disable from dashboard".toList = true := by decide
    refine ⟨he, hman, ?_⟩
    intro hr
    obtain ⟨hev, hcd, hst⟩ := disableAndPurge_proceeds o g now st
      "Manual disable from dashboard".toList (Or.inl hman) hr
    rw [he]
    refine ⟨?_, ?_, ?_⟩
    · rw [hev, hman, hcfg]
    · rw [hcd, hman, if_pos rfl]
    · intro hw
      rw [hst, hw]
      rfl
  · intro hm
    rw [hm] at he
    simp only [Bool.false_eq_true, if_false] at he
    refine ⟨he, ?_⟩
    rw [he]
    exact disableAndPurge_automatic o g now st _ (by decide)

theorem manual_disable_flag_skips_cooldown_witness :
    (Verification.ensureForGuild sampleOracle
        (sampleGuild [sampleChannel (Lookup.found ⟨"m1".toList, true⟩)]) 1060000
        (sampleCoolingState ⟨false, some ⟨none, some "c1".toList, some "m1".toList,
          some "r2".toList, true, true, false⟩⟩)).events =
        VEvent.purge "Manual disable from dashboard".toList ::
          (purgeChannel (sampleGuild [sampleChannel (Lookup.found ⟨"m1".toList, true⟩)])
              ⟨none, some "c1".toList, some "m1".toList, some "r2".toList, true, true, false⟩ ++
            purgeRole (sampleGuild [sampleChannel (Lookup.found ⟨"m1".toList, true⟩)]) true
              ⟨none, some "c1".toList, some "m1".toList, some "r2".toList, true, true, false⟩ ++
            [VEvent.writeSettings false VerifConfig.empty]) ∧
      (Verification.ensureForGuild sampleOracle
        (sampleGuild [sampleChannel (Lookup.found ⟨"m1".toList, true⟩)]) 1060000
        (sampleCoolingState ⟨false, some ⟨none, some "c1".toList, some "m1".toList,
          some "r2".toList, true, true, false⟩⟩)).events =
        [VEvent.purge "Manual disable from dashboard".toList,
          VEvent.deleteMessage "c1".toList "m1".toList, VEvent.deleteChannel "c1".toList,
          VEvent.deleteRole "r2".toList, VEvent.writeSettings false VerifConfig.empty] :=
  ⟨(((manual_disable_flag_skips_cooldown sampleOracle
    (sampleGuild [sampleChannel (Lookup.found ⟨"m1".toList, true⟩)]) 1060000
    (sampleCoolingState ⟨false, some ⟨none, some "c1".toList, some "m1".toList,
      some "r2".toList, true, true, false⟩⟩)
    ⟨none, some "c1".toList, some "m1".toList, some "r2".toList, true, true, false⟩
    rfl rfl rfl).1 rfl).2.2 rfl).1, by decide⟩

/-- C23. Automatic-disable cooldown. Let an automatic `disableAndPurge` for guild
`g` run at a time `t` after the epoch, from a state in which no cooldown of
`g` is active; it records `t` for `g` and leaves the entries of all other guilds
as they were. From any later state with that entry, an automatic
`disableAndPurge` for `g` at a time less than 300000 ms after `t` does nothing:
no platform call, no settings write, and the state, the recorded time
included, is as before. At a time 300000 ms or more after `t` the call
proceeds: it records the new time and, the read succeeding, runs the cleanup
and issues the clearing write. A call for another guild `g2` is not affected by
the entry of `g`: outside a cooldown of its own it proceeds. -/
theorem automatic_disable_cooldown (o : VOracle) (g g2 : GuildView) (t now : Int)
    (st0 st : VState) (first reason : JSString)
    (hfirst : isManualDisable first = false) (hauto : isManualDisable reason = false)
    (hfree : cooldownActive st0 g.id t = false) (ht : t ≠ 0)
    (hlater : st.disableCooldowns =
      (Verification.disableAndPurge o g t st0 first).state.disableCooldowns) :
    st.disableCooldowns g.id = some t ∧
    (now - t < 300000 →
      Verification.disableAndPurge o g now st reason = ⟨[VEvent.purge reason], st⟩) ∧
    (300000 ≤ now - t →
      (Verification.disableAndPurge o g now st reason).state.disableCooldowns g.id =
        some now ∧
      (o.readFails ReadSite.purge = false →
        (Verification.disableAndPurge o g now st reason).events =
          VEvent.purge reason :: (purgeChannel g st.config ++ purgeRole g false st.config ++
            [VEvent.writeSettings false VerifConfig.empty]) ∧
        (o.writeFails WriteSite.purge = false →
          (Verification.disableAndPurge o g now st reason).state.stored =
            some ⟨false, some VerifConfig.empty⟩))) ∧
    (g2.id ≠ g.id →
      cooldownActive st g2.id now = cooldownActive st0 g2.id now ∧
      (cooldownActive st0 g2.id now = false → o.readFails ReadSite.purge = false →
        (Verification.disableAndPurge o g2 now st reason).events =
          VEvent.purge reason :: (purgeChannel g2 st.config ++ purgeRole g2 false st.config ++
            [VEvent.writeSettings false VerifConfig.empty]))) := by
  have hmap : st.disableCooldowns =
      fun k => if k = g.id then some t else st0.disableCooldowns k := by
    rw [hlater]
    unfold Verification.disableAndPurge
    dsimp only
    simp only [hfirst, hfree, Bool.not_false, Bool.and_false, Bool.false_eq_true, if_false]
    split
    · rfl
    · split <;> rfl
  have hentry : st.disableCooldowns g.id = some t := by
    rw [hmap]
    simp
  have hcool := cooldownActive_of_entry st g.id t now hentry ht
  refine ⟨hentry, ?_, ?_, ?_⟩
  · intro hlt
    have hc : cooldownActive st g.id now = true := by
      rw [hcool]
      simpa using hlt
    unfold Verification.disableAndPurge
    simp [hauto, hc]
  · intro hge
    have hc : cooldownActive st g.id now = false := by
      rw [hcool]
      simpa using hge
    refine ⟨?_, ?_⟩
    · unfold Verification.disableAndPurge
      dsimp only
      simp only [hauto, hc, Bool.not_false, Bool.and_false, Bool.false_eq_true, if_false]
      split
      · simp
      · split <;> simp [VState.write]
    · intro hr
      obtain ⟨hev, _, hst⟩ := disableAndPurge_proceeds o g now st reason (Or.inr hc) hr
      refine ⟨?_, ?_⟩
      · rw [hev, hauto]
      · intro hw
        rw [hst, hw]
        rfl
  · intro hne
    have hc2 : cooldownActive st g2.id now = cooldownActive st0 g2.id now := by
      unfold cooldownActive
      rw [hmap]
      simp [hne]
    refine ⟨hc2, ?_⟩
    intro hfree2 hr
    obtain ⟨hev, _, _⟩ := disableAndPurge_proceeds o g2 now st reason
      (Or.inr (hc2.trans hfree2)) hr
    rw [hev, hauto]

theorem automatic_disable_cooldown_witness :
    Verification.disableAndPurge sampleOracle (sampleGuild []) 1299999
        (Verification.disableAndPurge sampleOracle (sampleGuild []) 1000000
          (sampleState ⟨true, some sampleVerifConfig⟩)
          "Verification channel deleted by user".toList).state
        "Verification role deleted by user".toList =
      ⟨[VEvent.purge "Verification role deleted by user".toList],
        (Verification.disableAndPurge sampleOracle (sampleGuild []) 1000000
          (sampleState ⟨true, some sampleVerifConfig⟩)
          "Verification channel deleted by user".toList).state⟩ :=
  (automatic_disable_cooldown sampleOracle (sampleGuild []) (sampleGuild []) 1000000 1299999
    (sampleState ⟨true, some sampleVerifConfig⟩)
    (Verification.disableAndPurge sampleOracle (sampleGuild []) 1000000
      (sampleState ⟨true, some sampleVerifConfig⟩)
      "Verification channel deleted by user".toList).state
    "Verification channel deleted by user".toList "Verification role deleted by user".toList
    (by decide) (by decide) (by decide) (by decide) rfl).2.1 (by decide)

/-! ## Entry points on partial payloads -/

/-- With a guild and a member present, the entry point of the verify button is
the handler of the interaction. -/
theorem handleVerifyButtonEntry_run (o : VOracle) (mp : MemberPlatform) (g : GuildView)
    (stored : Option VerifFeature) (interaction : Interaction) (held : List JSString) :
    (Verification.handleVerifyButtonEntry o mp (some g) stored interaction (some held)).2 =
      Verification.handleVerifyButton o mp g stored { interaction with inGuild := true } held := by
  unfold Verification.handleVerifyButtonEntry
  dsimp only
  generalize hlit : "verify_simple".toList = lit
  have hrun : Verification.handleVerifyButton o mp g stored { interaction with inGuild := true }
      held =
      (if !interaction.isButton then ⟨[], held⟩
      else if interaction.customId ≠ lit then ⟨[], held⟩
      else if o.readFails ReadSite.handler then ⟨[], held⟩
      else
        match enabledConfig stored with
        | none => ⟨[MemberEvent.replyNotEnabled], held⟩
        | some cfg =>
          match cfg.member_role_id.bind g.roleCached with
          | none => ⟨[MemberEvent.replyNotConfigured], held⟩
          | some memberRole =>
            if held.contains memberRole.id then ⟨[MemberEvent.replyAlreadyVerified], held⟩
            else Verification.handleVerifyButton o mp g stored
              { interaction with inGuild := true } held) := by
    by_cases hb : interaction.isButton = true
    · by_cases hc : interaction.customId = lit
      · by_cases hr : o.readFails ReadSite.handler = true
        · rw [if_neg (by simp [hb]), if_neg (by simp [hc]), if_pos hr]
          unfold Verification.handleVerifyButton
          rw [hlit]
          simp [hb, hc, hr]
        · rw [if_neg (by simp [hb]), if_neg (by simp [hc]), if_neg hr]
          cases he : enabledConfig stored with
          | none =>
            unfold Verification.handleVerifyButton
            rw [hlit]
            simp [hb, hc, hr, he]
          | some cfg =>
            dsimp only
            cases hm : cfg.member_role_id.bind g.roleCached with
            | none =>
              unfold Verification.handleVerifyButton
              rw [hlit]
              simp [hb, hc, hr, he, hm]
            | some memberRole =>
              dsimp only
              by_cases hh : held.contains memberRole.id = true
              · rw [if_pos hh]
                have hin : memberRole.id ∈ held := by simpa using hh
                unfold Verification.handleVerifyButton
                rw [hlit]
                simp [hb, hc, hr, he, hm, hin]
              · rw [if_neg hh]
      · rw [if_neg (by simp [hb]), if_pos (by simpa using hc)]
        unfold Verification.handleVerifyButton
        rw [hlit]
        simp [hb, hc]
    · rw [if_pos (by simpa using hb)]
      unfold Verification.handleVerifyButton
      simp [hb]
  rw [hrun]
  split
  · rfl
  · split
    · rfl
    · split
      · rfl
      · cases enabledConfig stored with
        | none => rfl
        | some cfg =>
          dsimp only
          cases cfg.member_role_id.bind g.roleCached with
          | none => rfl
          | some memberRole =>
            dsimp only
            split <;> rfl

/-- A call of `disableAndPurge` without a guild rejects: the `catch` block reads
`guild.name`. -/
theorem disableAndPurge_rejects_without_guild (o : VOracle) (now : Int) (st : VState)
    (reason : JSString) :
    (Verification.disableAndPurgeEntry o none now st reason).1 = Settled.rejected ∧
      (Verification.disableAndPurgeEntry o none now st reason).2.state = st := ⟨rfl, rfl⟩

theorem link_applyPunishment_none (pf : Platform) (punishment url : JSString) :
    LinkProtection.applyPunishment pf none punishment url = [] := rfl

theorem antispam_applyPunishment_none (pf : Platform) (punishment reason : JSString) :
    AntiSpam.applyPunishment pf none punishment reason = [] := rfl

theorem link_handleMessage_incomplete (pf : Platform) (fetched : Fetched) (message : Message)
    (h : message.guildId = none ∨ message.authorId = none) :
    LinkProtection.handleMessage pf fetched message = ⟨true, [], [], none⟩ := by
  unfold LinkProtection.handleMessage
  rcases h with h | h
  · rw [h]
    cases message.authorId <;> rfl
  · rw [h]

theorem spam_handleMessage_incomplete (pf : Platform) (fetched : Fetched) (now : Int)
    (act : Activity) (message : Message)
    (h : message.guildId = none ∨ message.authorId = none) :
    AntiSpam.handleMessage pf fetched now act message = ⟨true, [], act, .pass, none⟩ := by
  unfold AntiSpam.handleMessage
  cases hg : message.guildId with
  | none => rfl
  | some gid =>
    have ha : message.authorId = none := by
      rcases h with h | h
      · rw [hg] at h
        cases h
      · exact h
    cases fetched with
    | rejected => rfl
    | resolved settings =>
      dsimp only
      cases settings.bind (·.anti_spam) with
      | none => rfl
      | some feature =>
        dsimp only
        rw [ha]
        split <;> rfl

theorem spam_blocked_actions_memberless (pf : Platform) (fetched : Fetched) (now : Int)
    (act : Activity) (message : Message) (hm : message.member = none)
    (h : (AntiSpam.handleMessage pf fetched now act message).allowed = false) :
    (AntiSpam.handleMessage pf fetched now act message).actions = [Action.delete] := by
  unfold AntiSpam.handleMessage at h ⊢
  cases hg : message.guildId with
  | none => simp [hg] at h
  | some gid =>
    cases fetched with
    | rejected => simp [hg] at h
    | resolved settings =>
      cases hs : settings.bind (·.anti_spam) with
      | none => simp [hg, hs] at h
      | some feature =>
        cases he : feature.enabled with
        | false => simp [hg, hs, he] at h
        | true =>
          cases ha : message.authorId with
          | none => simp [hg, hs, he, ha] at h
          | some uid =>
            cases hw : AntiSpam.isUserWhitelisted uid message.member (SpamCfg.ofFeature feature) with
            | true => simp [hg, hs, he, ha, hw] at h
            | false =>
              simp only [hg, hs, he, ha, hw] at h ⊢
              generalize (spamRules _ now _ _).1 = v at h ⊢
              cases v <;> simp_all [AntiSpam.handleViolation, AntiSpam.applyPunishment]

theorem link_blocked_actions_memberless (pf : Platform) (fetched : Fetched) (message : Message)
    (hm : message.member = none)
    (h : (LinkProtection.handleMessage pf fetched message).allowed = false) :
    (LinkProtection.handleMessage pf fetched message).actions.head? = some Action.delete ∧
      ∀ a ∈ (LinkProtection.handleMessage pf fetched message).actions,
        a = Action.delete ∨ a = Action.reply ∨ a = Action.logViolation := by
  obtain ⟨config, url, content, _, _, _, _, hact⟩ := link_blocked_inv pf fetched message h
  rw [hact]
  unfold LinkProtection.handleViolation
  rw [hm]
  simp only [link_applyPunishment_none, List.nil_append]
  cases pf.deleteFails <;> cases pf.replyFails <;> cases config.log_violations <;> simp

/-- C24, the claim fails for a missing member. A message of guild `g1` whose
member object is missing carries a link that is not whitelisted:
`LinkProtectionHandler.handleMessage` returns `false` and deletes the message. A
message without member that exceeds the mention limit is deleted by
`AntiSpamHandler.handleMessage` in the same way. -/
theorem memberless_message_is_still_moderated :
    (LinkProtection.handleMessage samplePlatform
        (sampleLinkSettings ["discord.com".toList] "delete".toList none)
        (sampleMemberlessMessage "check out http://evil-shortener.biz/x".toList)).allowed =
        false ∧
      (LinkProtection.handleMessage samplePlatform
        (sampleLinkSettings ["discord.com".toList] "delete".toList none)
        (sampleMemberlessMessage "check out http://evil-shortener.biz/x".toList)).actions =
        [Action.delete] ∧
      (AntiSpam.handleMessage samplePlatform
        (sampleSpamSettings (sampleSpamFeature 5 5 3 0 5 "kick".toList)) 1000 Activity.empty
        (sampleMemberlessMessage "<@123456789012345678>".toList)).allowed = false ∧
      (AntiSpam.handleMessage samplePlatform
        (sampleSpamSettings (sampleSpamFeature 5 5 3 0 5 "kick".toList)) 1000 Activity.empty
        (sampleMemberlessMessage "<@123456789012345678>".toList)).actions = [Action.delete] := by
  refine ⟨?_, ?_, ?_, ?_⟩ <;> decide

/-- C24, as the code has it. For a payload with a missing guild,
`LinkProtectionHandler.handleMessage` and `AntiSpamHandler.handleMessage` return `true`,
and `ensureForGuild`, `handleMemberJoin` and `handleVerifyButton` resolve, each
without a platform call or a settings write and with the state as it was; the
same holds for the two message handlers on a message without author and for
`handleMemberJoin` without a member. A missing member of a message does not
stop its evaluation: a message that violates a policy is still deleted, and
only the punishment of the member is skipped. -/
theorem entry_points_skip_partial_payloads (pf : Platform) (fetched : Fetched) (now : Int)
    (act : Activity) (message : Message) (o : VOracle) (mp : MemberPlatform) (st : VState)
    (interaction : Interaction) (member : Option (List JSString)) (held : List JSString) :
    ((message.guildId = none ∨ message.authorId = none) →
      LinkProtection.handleMessage pf fetched message = ⟨true, [], [], none⟩ ∧
      AntiSpam.handleMessage pf fetched now act message = ⟨true, [], act, .pass, none⟩) ∧
    Verification.ensureForGuildEntry o none now st = (Settled.resolved, ⟨[], st⟩) ∧
    Verification.handleMemberJoinEntry o mp none st.stored = (Settled.resolved, ⟨[], []⟩) ∧
    Verification.handleMemberJoinEntry o mp (some ⟨none, held⟩) st.stored =
      (Settled.resolved, ⟨[], held⟩) ∧
    Verification.handleVerifyButtonEntry o mp none st.stored interaction member =
      (Settled.resolved, ⟨[], member.getD []⟩) ∧
    (message.member = none →
      ((LinkProtection.handleMessage pf fetched message).allowed = false →
        (LinkProtection.handleMessage pf fetched message).actions.head? = some Action.delete ∧
        ∀ a ∈ (LinkProtection.handleMessage pf fetched message).actions,
          a = Action.delete ∨ a = Action.reply ∨ a = Action.logViolation) ∧
      ((AntiSpam.handleMessage pf fetched now act message).allowed = false →
        (AntiSpam.handleMessage pf fetched now act message).actions = [Action.delete])) :=
  ⟨fun h => ⟨link_handleMessage_incomplete pf fetched message h,
      spam_handleMessage_incomplete pf fetched now act message h⟩,
    rfl, rfl, rfl, rfl,
    fun hm => ⟨link_blocked_actions_memberless pf fetched message hm,
      spam_blocked_actions_memberless pf fetched now act message hm⟩⟩

theorem entry_points_skip_partial_payloads_witness :
    LinkProtection.handleMessage samplePlatform
        (sampleLinkSettings ["discord.com".toList] "delete".toList none)
        ⟨none, some "u1".toList, none, some "check out http://evil-shortener.biz/x".toList⟩ =
        ⟨true, [], [], none⟩ ∧
      (AntiSpam.handleMessage samplePlatform
        (sampleSpamSettings (sampleSpamFeature 5 5 3 0 5 "kick".toList)) 1000 Activity.empty
        (sampleMemberlessMessage "<@123456789012345678>".toList)).actions = [Action.delete] :=
  ⟨((entry_points_skip_partial_payloads samplePlatform
      (sampleLinkSettings ["discord.com".toList] "delete".toList none) 1000 Activity.empty
      ⟨none, some "u1".toList, none, some "check out http://evil-shortener.biz/x".toList⟩
      sampleOracle sampleMemberPlatform (sampleState ⟨true, some sampleVerifConfig⟩)
      sampleInteraction none []).1 (Or.inl rfl)).1,
    ((entry_points_skip_partial_payloads samplePlatform
      (sampleSpamSettings (sampleSpamFeature 5 5 3 0 5 "kick".toList)) 1000 Activity.empty
      (sampleMemberlessMessage "<@123456789012345678>".toList)
      sampleOracle sampleMemberPlatform (sampleState ⟨true, some sampleVerifConfig⟩)
      sampleInteraction none []).2.2.2.2.2 rfl).2 (by decide)⟩

/-! ## Link protection: the ASCII lower-casing -/

/-- The host captured by `domainRegex` is a block of the url. -/
theorem domainMatch_host_block (url host : JSString) (h : domainMatch url = some host) :
    ∃ pre post, url = pre ++ host ++ post := by
  unfold domainMatch at h
  obtain ⟨w, s1, hs, h1⟩ := Re.run_sound _ _ _ _ _ _ _ h
  obtain ⟨w2, s2, hs2, h2⟩ := Re.run_sound _ _ _ _ _ _ _ h1
  simp only [List.append_nil, List.reverse_reverse, Option.some.injEq] at h2
  subst h2
  exact ⟨w, s2, by rw [hs, hs2, List.append_assoc]⟩

/-- On a url and a whitelist of ASCII code units, `shouldBlockUrl` with the ASCII
lower-casing is `shouldBlockUrl` with any lower-casing that maps the letters
`A`..`Z` of an ASCII string to `a`..`z` and leaves its other code units as they
are, as `String.prototype.toLowerCase` does. -/
theorem shouldBlockUrl_of_ascii (lower : JSString → JSString) (url : JSString)
    (config : LinkConfig)
    (hlower : ∀ s : JSString, (∀ c ∈ s, c.toNat < 128) → lower s = toLowerCase s)
    (hurl : ∀ c ∈ url, c.toNat < 128)
    (hlist : ∀ l w, config.whitelist_domains = some l → some w ∈ l → ∀ c ∈ w, c.toNat < 128) :
    LinkProtection.shouldBlockUrlWith lower url config =
      LinkProtection.shouldBlockUrl url config := by
  unfold LinkProtection.shouldBlockUrl
  apply shouldBlockUrlWith_congr
  · intro host hd
    obtain ⟨pre, post, hu⟩ := domainMatch_host_block url host hd
    apply hlower
    intro c hc
    apply hurl
    rw [hu]
    simp [hc]
  · exact hlower url hurl
  · intro l w hl hw
    exact hlower w (hlist l w hl hw)

end SecureGuard
